import Mathlib

/-!
# edVance-AR: the detection-and-persistence engine

A shallow embedding of the scanner core of `script.js`, followed by those of
`script.backup.js` and `js/scanner.js`.  For `script.js`: the module-level
variables become the fields of `State`, every function becomes a function from
a state to a new state together with the list of calls it made, and every
value that the browser supplies (clock readings, frame readiness, decoder
results, capability probes) is an explicit argument.

Timestamps (`performance.now()`) are integers in the clock's unit.  A value
that is `null`/`undefined` or a string is an `Option String`.  Where the source
divides or multiplies Numbers (`canvasSize`, `modelY`), a Number is the rational
it stands for and every operation is rounded to the nearest IEEE 754 binary64
value (`toDouble`).
-/

namespace Script

/-! ## Values -/

/-- An exception value: its `name` and `message`. -/
structure JsError where
  name : String
  message : String
deriving DecidableEq, Repr

/-- A candidate returned by `detector.detect`: `rawValue`, and the non-standard
`displayValue` that is `undefined` on most platforms. -/
structure Barcode where
  rawValue : String
  displayValue : Option String
deriving DecidableEq, Repr

/-- Truthiness of a value that is `null`/`undefined` or a string: only a
non-empty string is truthy. -/
def truthy : Option String → Bool
  | some t => t != ""
  | none => false

/-- The operator `a || b` on such values. -/
def jsOr (a b : Option String) : Option String :=
  if truthy a then a else b

/-- The calls that leave the scanner core: to the overlay presenter
(`handleRecognizedText`, `clearOverlay`, `updateStatus`), to the page and to
the platform.  `registerDetection`, `ensureJsQR` and `scanLoop` are recorded
at the place where they are called. -/
inductive Call where
  | handleRecognizedText (text : Option String)
  | clearOverlay
  | updateStatus (message : String) (isError : Bool)
  | registerDetection (text : Option String)
  | detect
  | jsQR (width height : Nat)
  | requestAnimationFrame
  | cancelAnimationFrame (id : Nat)
  | stopTrack (index : Nat)
  | requestMotionPermissionIfNeeded
  | loaderHidden (hidden : Bool)
  | getUserMedia
  | play
  | getSupportedFormats
  | newBarcodeDetector (formats : List String)
  | ensureJsQR
  | appendScript (src : String)
  | hideStartButton
  | scanLoop
deriving DecidableEq, Repr

/-! ## Tuning constants and state (`script.js` lines 86-102) -/

def LOST_TIMEOUT_MS : Int := 6000
def JSQR_TARGET_W : Nat := 480
def SCAN_MIN_INTERVAL : Int := 60

/-- The constant `HTMLMediaElement.HAVE_ENOUGH_DATA`. -/
def HAVE_ENOUGH_DATA : Nat := 4

/-- The module-level variables of `script.js`, and `window.jsQR`.
`streamRef` holds the number of tracks of the camera stream, `detector` the
formats the native detector was built for, `canvas` the size of the working
canvas. -/
structure State where
  scanning : Bool
  activeId : Option String
  lastSeenAt : Int
  lastScanAt : Int
  streamRef : Option Nat
  useBarcodeDetector : Bool
  detector : Option (List String)
  rafId : Option Nat
  canvas : Option (Nat × Nat)
  windowJsQR : Bool
deriving DecidableEq, Repr

/-- The variables as initialised when the page loads; whether the page already
provides `window.jsQR` is a parameter. -/
def State.init (windowJsQR : Bool) : State :=
  { scanning := false, activeId := none, lastSeenAt := 0, lastScanAt := 0,
    streamRef := none, useBarcodeDetector := false, detector := none,
    rafId := none, canvas := none, windowJsQR := windowJsQR }

/-! ## The presence state machine (`script.js` lines 326-336) -/

/-- The function `registerDetection(text)`, with the clock reading `now` it
takes on entry.  The result is the new state and the presenter calls made. -/
def registerDetection (now : Int) (text : Option String) (s : State) :
    State × List Call :=
  if truthy text then
    if text ≠ s.activeId then
      ({ s with activeId := text, lastSeenAt := now }, [Call.handleRecognizedText text])
    else
      ({ s with lastSeenAt := now }, [])
  else if truthy s.activeId ∧ now - s.lastSeenAt > LOST_TIMEOUT_MS then
    ({ s with activeId := none, lastSeenAt := 0 }, [Call.clearOverlay])
  else
    (s, [])

/-- Feeding a list of ticks `(now, text)` to `registerDetection`, one after the
other: the state after the last tick and all presenter calls in order. -/
def runDetections : List (Int × Option String) → State → State × List Call
  | [], s => (s, [])
  | (now, text) :: rest, s =>
    let r := registerDetection now text s
    let q := runDetections rest r.1
    (q.1, r.2 ++ q.2)

/-- The state and the presenter calls of each tick of a run, tick by tick. -/
def traceDetections : List (Int × Option String) → State → List (State × List Call)
  | [], _ => []
  | (now, text) :: rest, s =>
    let r := registerDetection now text s
    r :: traceDetections rest r.1

/-! ## Numbers: IEEE 754 binary64, round to nearest, ties to even -/

/-- The integer nearest to `x`, the even one when two are equally near. -/
def roundHalfEven (x : ℚ) : ℤ :=
  if x - Int.floor x < 1 / 2 then Int.floor x
  else if 1 / 2 < x - Int.floor x then Int.floor x + 1
  else if Int.floor x % 2 = 0 then Int.floor x
  else Int.floor x + 1

/-- The exponent of the binade of `q`: the largest `e` with `2 ^ e <= |q|`, and
-1022 for the magnitudes below `2 ^ -1022` (the subnormal range). -/
def binade (q : ℚ) : ℤ :=
  max (Int.log 2 |q|) (-1022)

/-- The Number (the IEEE 754 binary64 value) nearest to the rational `q`, the
one with the even significand when two are equally near: the result of an
arithmetic operation of JavaScript whose exact result is `q`, and the value of a
numeric literal that reads `q`.  A significand has 53 bits, so the Numbers of the
binade of `q` are the multiples of `2 ^ (binade q - 52)`.  Magnitudes from
`2 ^ 1024` on, which round to an infinity, do not arise in this file. -/
def toDouble (q : ℚ) : ℚ :=
  roundHalfEven (q / 2 ^ (binade q - 52)) * 2 ^ (binade q - 52)

/-! ## The scan loop (`script.js` lines 338-367) -/

/-- How a call of a function of `script.js` ends: it returns (an `async`
function resolves), it throws (rejects), or it is suspended at
`await detector.detect(video)`. -/
inductive Outcome where
  | returned
  | threw (err : JsError)
  | awaitingDetect
deriving DecidableEq, Repr

/-- The state a call leaves, the calls it made in order, and how it ended. -/
structure Result where
  state : State
  calls : List Call
  outcome : Outcome
deriving DecidableEq, Repr

/-- What the browser supplies during one call of `scanLoop`: the clock reading
of `scanLoop`, `video.readyState`, the frame size, what `detector.detect(video)`
settles to (a candidate list, or `null`/`undefined`, or a rejection), whether
drawing the frame and reading its pixels throws, what `window.jsQR` returns (the
`data` of the code found, or `null`) or throws, the clock reading of
`registerDetection`, and the handle returned by `requestAnimationFrame`. -/
structure Tick where
  nowScan : Int
  readyState : Nat
  videoWidth : Nat
  videoHeight : Nat
  detect : Except JsError (Option (List Barcode))
  drawFrame : Except JsError Unit
  jsQR : Except JsError (Option String)
  nowReg : Int
  rafHandle : Nat

/-- The value given to `detectedText` in the native branch:
`if (codes && codes.length) detectedText = codes[0].rawValue || codes[0].displayValue`;
otherwise it stays `null`. -/
def detectedFromCodes : Option (List Barcode) → Option String
  | some (c :: _) => jsOr (some c.rawValue) c.displayValue
  | some [] => none
  | none => none

/-- The value given to `detectedText` in the software branch:
`if (code && code.data) detectedText = code.data`; otherwise it stays `null`. -/
def detectedFromCode : Option String → Option String
  | some data => if data != "" then some data else none
  | none => none

/-- The size given to the working canvas:
`scale = JSQR_TARGET_W / Math.max(1, vw)`, `canvas.width = Math.floor(vw * scale)`,
`canvas.height = Math.floor(vh * scale)`.  The quotient and the two products are
each rounded to the nearest Number; `video.videoWidth` and `video.videoHeight`
are unsigned 32-bit integers, so `vw`, `vh` and 480 are Numbers. -/
def canvasSize (vw vh : Nat) : Nat × Nat :=
  let scale := toDouble ((JSQR_TARGET_W : ℚ) / ((max 1 vw : Nat) : ℚ))
  (Nat.floor (toDouble ((vw : ℚ) * scale)), Nat.floor (toDouble ((vh : ℚ) * scale)))

/-- The handler `catch {}` of `scanLoop`: an exception thrown inside `try`
is dropped and `detectedText` keeps its initial value `null`. -/
def catchDecode : Except JsError (Option String) → Option String
  | Except.ok detectedText => detectedText
  | Except.error _ => none

/-- The last two statements of `scanLoop`:
`registerDetection(detectedText); rafId = requestAnimationFrame(scanLoop);`. -/
def scanLoopTail (e : Tick) (detectedText : Option String) (s : State) : Result :=
  let r := registerDetection e.nowReg detectedText s
  { state := { r.1 with rafId := some e.rafHandle },
    calls := Call.registerDetection detectedText :: r.2 ++ [Call.requestAnimationFrame],
    outcome := Outcome.returned }

/-- The software branch inside `try`: size the canvas, draw the frame and read
its pixels, run `window.jsQR`.  The result is the state, the decoder calls made
and the value for `detectedText` or the exception thrown. -/
def softwareDecode (e : Tick) (s : State) : State × List Call × Except JsError (Option String) :=
  let size := canvasSize e.videoWidth e.videoHeight
  let s1 := { s with canvas := some size }
  match e.drawFrame with
  | Except.error err => (s1, [], Except.error err)
  | Except.ok _ =>
    if s.windowJsQR then
      match e.jsQR with
      | Except.ok code => (s1, [Call.jsQR size.1 size.2], Except.ok (detectedFromCode code))
      | Except.error err => (s1, [Call.jsQR size.1 size.2], Except.error err)
    else
      (s1, [], Except.error { name := "TypeError", message := "window.jsQR is not a function" })

/-- The function `scanLoop` from its entry up to its end or up to the point
where it is suspended at `await detector.detect(video)`. -/
def scanLoopStart (e : Tick) (s : State) : Result :=
  if !s.scanning then { state := s, calls := [], outcome := Outcome.returned }
  else if e.nowScan - s.lastScanAt ≥ SCAN_MIN_INTERVAL then
    let s1 := { s with lastScanAt := e.nowScan }
    if e.readyState ≥ HAVE_ENOUGH_DATA then
      if s1.useBarcodeDetector then
        match s1.detector with
        | some _ => { state := s1, calls := [Call.detect], outcome := Outcome.awaitingDetect }
        | none => scanLoopTail e (catchDecode (Except.error
            { name := "TypeError", message := "detector is null" })) s1
      else
        let d := softwareDecode e s1
        let r := scanLoopTail e (catchDecode d.2.2) d.1
        { r with calls := d.2.1 ++ r.calls }
    else scanLoopTail e none s1
  else scanLoopTail e none s

/-- The function `scanLoop` from the point where `detector.detect(video)`
settles (to `e.detect`) up to its end. -/
def scanLoopResume (e : Tick) (s : State) : Result :=
  scanLoopTail e (catchDecode (e.detect.map detectedFromCodes)) s

/-- One whole call of `scanLoop`, nothing else running while the decoder is
awaited. -/
def scanLoop (e : Tick) (s : State) : Result :=
  let r := scanLoopStart e s
  match r.outcome with
  | Outcome.awaitingDetect =>
    let q := scanLoopResume e r.state
    { q with calls := r.calls ++ q.calls }
  | _ => r

/-- Whether a call of `scanLoop` reaches the decode branch:
`scanning` holds and `now - lastScanAt >= SCAN_MIN_INTERVAL`. -/
def entersDecode (e : Tick) (s : State) : Bool :=
  s.scanning && decide (e.nowScan - s.lastScanAt ≥ SCAN_MIN_INTERVAL)

/-- Whether a call invokes a decoder: `detector.detect` or `window.jsQR`. -/
def Call.isDecoder : Call → Bool
  | Call.detect => true
  | Call.jsQR _ _ => true
  | _ => false

/-- Consecutive calls of `scanLoop`, one per element: the final state. -/
def runTicks : List Tick → State → State
  | [], s => s
  | e :: rest, s => runTicks rest (scanLoop e s).state

/-- The function `stopCamera`. -/
def stopCamera (s : State) : State × List Call :=
  let cancel := match s.rafId with
    | some id => if id ≠ 0 then [Call.cancelAnimationFrame id] else []
    | none => []
  let stops := match s.streamRef with
    | some tracks => (List.range tracks).map Call.stopTrack
    | none => []
  ({ s with streamRef := none, scanning := false, activeId := none }, cancel ++ stops)

/-! ## Start-up (`script.js` lines 269-312 and 369-393) -/

/-- How loading the jsQR script ends: `onerror`, or `onload` after which
`window.jsQR` is defined or not. -/
inductive ScriptLoad where
  | onerror
  | onload (definesJsQR : Bool)
deriving DecidableEq, Repr

/-- What the browser supplies during start-up: whether
`navigator.mediaDevices.getUserMedia` exists, what `getUserMedia` settles to (a
stream with that many tracks), what `video.play()` settles to, whether
`'BarcodeDetector' in window`, what `getSupportedFormats()` settles to (a list
of formats, or a value without `includes`), how the script load ends, and
whether the page is served over https or from localhost. -/
structure Platform where
  hasGetUserMedia : Bool
  getUserMedia : Except JsError Nat
  play : Except JsError Unit
  hasBarcodeDetector : Bool
  getSupportedFormats : Except JsError (Option (List String))
  scriptLoad : ScriptLoad
  secureOrigin : Bool

/-- The function `ensureJsQR`. -/
def ensureJsQR (p : Platform) (s : State) : Result :=
  if s.windowJsQR then { state := s, calls := [], outcome := Outcome.returned }
  else
    let load := [Call.appendScript "https://cdn.jsdelivr.net/npm/jsqr@1.4.0/dist/jsQR.js"]
    match p.scriptLoad with
    | ScriptLoad.onerror =>
      { state := s, calls := load,
        outcome := Outcome.threw { name := "Error", message := "Failed to load jsQR" } }
    | ScriptLoad.onload definesJsQR =>
      let s1 := { s with windowJsQR := definesJsQR }
      if !s1.windowJsQR then
        { state := s1, calls := load,
          outcome := Outcome.threw { name := "Error", message := "jsQR failed to load" } }
      else { state := s1, calls := load, outcome := Outcome.returned }

/-- The capability probe of `setupDetector`: the value of `useBarcodeDetector`
after `try { const f = await getSupportedFormats(); if (!f.includes('qr_code'))
useBarcodeDetector = false; } catch { useBarcodeDetector = false; }`. -/
def probeFormats : Except JsError (Option (List String)) → Bool
  | Except.ok (some f) => f.contains "qr_code"
  | Except.ok none => false
  | Except.error _ => false

/-- The function `setupDetector`. -/
def setupDetector (p : Platform) (s : State) : Result :=
  let s1 := { s with useBarcodeDetector := p.hasBarcodeDetector }
  let probed : State × List Call :=
    if s1.useBarcodeDetector then
      ({ s1 with useBarcodeDetector := probeFormats p.getSupportedFormats },
        [Call.getSupportedFormats])
    else (s1, [])
  if probed.1.useBarcodeDetector then
    { state := { probed.1 with detector := some ["qr_code"] },
      calls := probed.2 ++ [Call.newBarcodeDetector ["qr_code"]],
      outcome := Outcome.returned }
  else
    let r := ensureJsQR p probed.1
    { r with calls := probed.2 ++ Call.ensureJsQR :: r.calls }

/-- The function `startCamera`. -/
def startCamera (p : Platform) (s : State) : Result :=
  match p.getUserMedia with
  | Except.error err => { state := s, calls := [Call.getUserMedia], outcome := Outcome.threw err }
  | Except.ok tracks =>
    let s1 := { s with streamRef := some tracks }
    match p.play with
    | Except.error err =>
      { state := s1, calls := [Call.getUserMedia, Call.play], outcome := Outcome.threw err }
    | Except.ok _ =>
      { state := s1, calls := [Call.getUserMedia, Call.play], outcome := Outcome.returned }

/-- The message that the `catch` of `startScanner` shows for an exception. -/
def startErrorMessage (secureOrigin : Bool) (err : JsError) : String :=
  if err.name = "NotAllowedError" then
    "Camera access denied. Enable camera permissions and retry."
  else if err.name = "NotFoundError" then "No camera found on this device."
  else if !secureOrigin then "This must be served over HTTPS or localhost for camera access."
  else "Could not start camera: " ++ (if err.message ≠ "" then err.message else err.name)

/-- The `catch` and `finally` of `startScanner`, after the `try` block ended as
`r`: an exception is shown by `updateStatus(msg, true)`, and the loader is
hidden in every case. -/
def startScannerEnd (p : Platform) (r : Result) : Result :=
  match r.outcome with
  | Outcome.threw err =>
    { state := r.state,
      calls := r.calls ++ [Call.updateStatus (startErrorMessage p.secureOrigin err) true,
        Call.loaderHidden true],
      outcome := Outcome.returned }
  | _ => { r with calls := r.calls ++ [Call.loaderHidden true], outcome := Outcome.returned }

/-- The `try` block of `startScanner`.  The call `scanLoop()` at its end is
not awaited: it runs as far as `scanLoopStart` goes, on the tick `e`. -/
def startScannerTry (p : Platform) (e : Tick) (s : State) : Result :=
  if !p.hasGetUserMedia then
    { state := s, calls := [],
      outcome := Outcome.threw
        { name := "Error", message := "Camera API not supported in this browser." } }
  else
    let pre := [Call.requestMotionPermissionIfNeeded, Call.loaderHidden false]
    let cam := startCamera p s
    match cam.outcome with
    | Outcome.returned =>
      let det := setupDetector p cam.state
      match det.outcome with
      | Outcome.returned =>
        let s1 := { det.state with scanning := true }
        let first := scanLoopStart e s1
        { state := first.state,
          calls := pre ++ cam.calls ++ det.calls ++ [Call.hideStartButton, Call.scanLoop]
            ++ first.calls,
          outcome := Outcome.returned }
      | out => { state := det.state, calls := pre ++ cam.calls ++ det.calls, outcome := out }
    | out => { state := cam.state, calls := pre ++ cam.calls, outcome := out }

/-- The function `startScanner`. -/
def startScanner (p : Platform) (e : Tick) (s : State) : Result :=
  startScannerEnd p (startScannerTry p e s)

/-- A tick at time `now` on which the frame is ready, the native detector
finds no candidate and `window.jsQR` finds no code. -/
def Tick.quiet (now : Int) : Tick :=
  { nowScan := now, readyState := 4, videoWidth := 1280, videoHeight := 720,
    detect := Except.ok (some []), drawFrame := Except.ok (), jsQR := Except.ok none,
    nowReg := now, rafHandle := 1 }

/-- A running session that shows `id`, last seen at time 0, with the native
detector when `native` holds and with jsQR otherwise. -/
def State.running (native : Bool) (id : String) : State :=
  { scanning := true, activeId := some id, lastSeenAt := 0, lastScanAt := 0,
    streamRef := some 1, useBarcodeDetector := native,
    detector := if native then some ["qr_code"] else none,
    rafId := some 1, canvas := none, windowJsQR := !native }

/-- A platform that has `BarcodeDetector` but whose `getSupportedFormats`
rejects, and on which the jsQR script loads. -/
def Platform.probeRejects : Platform :=
  { hasGetUserMedia := true, getUserMedia := Except.ok 1, play := Except.ok (),
    hasBarcodeDetector := true,
    getSupportedFormats := Except.error { name := "NotSupportedError", message := "no formats" },
    scriptLoad := ScriptLoad.onload true, secureOrigin := true }

/-- The state in which a call of `scanLoop` that was suspended at
`await detector.detect(video)` is continued when `stopCamera` ran in between. -/
def stoppedInFlight (e : Tick) (s : State) : State :=
  (stopCamera (scanLoopStart e s).state).1

/-- The value of `detectedText` with which a call of `scanLoop` continues once
`detector.detect(video)` has settled to `e.detect`. -/
def detectedNative (e : Tick) : Option String :=
  catchDecode (e.detect.map detectedFromCodes)

/-! ## The overlay presenter (`script.js` lines 109-115 and 320-324) -/

/-- What `overlays[text]` evaluates to: an own entry of the table (its `mode`),
a member that every object inherits from `Object.prototype` (truthy, without a
`mode`), or `undefined`. -/
inductive OverlayLookup where
  | entry (mode : String)
  | inherited
  | absent
deriving DecidableEq, Repr

/-- The property names that an object literal inherits from
`Object.prototype`. -/
def objectPrototypeKeys : List String :=
  ["constructor", "__defineGetter__", "__defineSetter__", "hasOwnProperty",
   "__lookupGetter__", "__lookupSetter__", "isPrototypeOf", "propertyIsEnumerable",
   "toString", "valueOf", "__proto__", "toLocaleString"]

/-- The table `overlays`, read as `overlays[text]`. -/
def overlays (text : String) : OverlayLookup :=
  if text = "ID-1" then OverlayLookup.entry "molecule"
  else if text = "ID-2" then OverlayLookup.entry "solar"
  else if text = "ID-3" then OverlayLookup.entry "heart"
  else if text = "ID-4" then OverlayLookup.entry "bridge"
  else if text ∈ objectPrototypeKeys then OverlayLookup.inherited
  else OverlayLookup.absent

/-- The calls made inside `handleRecognizedText`: `showOverlay(def)` with the
`mode` of `def` if it has one, `updateStatus` and `clearOverlay`. -/
inductive PresenterCall where
  | showOverlay (mode : Option String)
  | updateStatus (message : String) (isError : Bool)
  | clearOverlay
deriving DecidableEq, Repr

/-- The function `handleRecognizedText(text)`, for a string `text`. -/
def handleRecognizedText (text : String) : List PresenterCall :=
  match overlays text with
  | OverlayLookup.entry mode => [PresenterCall.showOverlay (some mode)]
  | OverlayLookup.inherited => [PresenterCall.showOverlay none]
  | OverlayLookup.absent =>
    [PresenterCall.updateStatus
        ("QR \"" ++ text ++ "\" not recognized. Expect ID-1, ID-2, ID-3, or ID-4.") true,
      PresenterCall.clearOverlay]

/-! ## Calls on the presence state, and `modelY` (`script.js` lines 117-123) -/

/-- A call that writes the presence state: `registerDetection(text)` with the
clock reading it takes, or `stopCamera()`. -/
inductive Op where
  | registerDetection (now : Int) (text : Option String)
  | stopCamera
deriving DecidableEq, Repr

/-- The state after one such call. -/
def applyOp : Op → State → State
  | Op.registerDetection now text, s => (registerDetection now text s).1
  | Op.stopCamera, s => (stopCamera s).1

/-- The state after a sequence of such calls. -/
def runOps : List Op → State → State
  | [], s => s
  | op :: rest, s => runOps rest (applyOp op s)

/-- The decimal that `x.toFixed(2)` writes for a Number `x >= 0` whose exact
value is `x`: the multiple of 1/100 nearest to that exact value, the larger one
when two are equally near. -/
def toFixed2 (x : ℚ) : ℚ :=
  (Int.floor (x * 100 + 1 / 2) : ℚ) / 100

/-- The function `modelY`, for `window.innerHeight = h`, a 32-bit integer and
so a Number, as 600 and 900 are.  The literals `0.35` and `0.55` are Numbers,
every arithmetic operation is rounded to the nearest Number, `toFixed(2)` writes
two decimals of the exact value of the sum, and the unary plus reads them back
as a Number. -/
def modelY (h : Int) : ℚ :=
  let minH : ℚ := 600
  let maxH : ℚ := 900
  let t := max 0 (min 1 (toDouble (toDouble (maxH - h) / toDouble (maxH - minH))))
  toDouble (toFixed2 (toDouble (toDouble 0.35 + toDouble (t * toDouble 0.55))))

/-! ## The transition table of the specification (section 4.3) -/

/-- The presence state of the specification. -/
inductive Presence where
  | empty
  | active (id : String) (lastSeenAt : Int)
deriving DecidableEq, Repr

/-- The events of the specification. -/
inductive Event where
  | activate (id : String)
  | keepAlive (id : String)
  | deactivate
deriving DecidableEq, Repr

/-- The six rows of the transition table, for hold duration `H`: the new
presence state and the emitted event, if any. -/
def tableStep (H : Int) (now : Int) : Presence → Option String → Presence × Option Event
  | Presence.empty, none => (Presence.empty, none)
  | Presence.empty, some id => (Presence.active id now, some (Event.activate id))
  | Presence.active id _, some id2 =>
    if id2 = id then (Presence.active id now, some (Event.keepAlive id))
    else (Presence.active id2 now, some (Event.activate id2))
  | Presence.active id t, none =>
    if now - t ≤ H then (Presence.active id t, none)
    else (Presence.empty, some Event.deactivate)

/-- The presence state that the variables `activeId` and `lastSeenAt` stand
for: `Active` exactly when `activeId` is truthy. -/
def presenceOf (s : State) : Presence :=
  match s.activeId with
  | some id => if id != "" then Presence.active id s.lastSeenAt else Presence.empty
  | none => Presence.empty

/-- The decode result that an argument of `registerDetection` stands for:
`Some(id)` exactly when it is truthy. -/
def payloadOf (text : Option String) : Option String :=
  if truthy text then text else none

/-- The presenter calls by which an event is delivered: `activate` is
`handleRecognizedText`, `deactivate` is `clearOverlay`, and `keepAlive` or no
event is no call. -/
def callsOf : Option Event → List Call
  | some (Event.activate id) => [Call.handleRecognizedText (some id)]
  | some (Event.keepAlive _) => []
  | some Event.deactivate => [Call.clearOverlay]
  | none => []

end Script

/-! # The earlier revision `script.backup.js`

`script.backup.js` declares the same module-level variables as `script.js`
(lines 60-70) and the same functions; its tuning constants are at lines 55-58,
`registerDetection` at lines 264-272 and `scanLoop` at lines 274-303. -/

namespace Backup

open Script (State Tick Call Result Outcome JsError truthy detectedFromCodes detectedFromCode
  catchDecode HAVE_ENOUGH_DATA)

def LOST_TIMEOUT_MS : Int := 2000
def JSQR_TARGET_W : Nat := 480
def SCAN_MIN_INTERVAL : Int := 60

/-- The function `registerDetection(text)` of `script.backup.js`, with the
clock reading `now` it takes on entry. -/
def registerDetection (now : Int) (text : Option String) (s : State) :
    State × List Call :=
  if truthy text then
    if text ≠ s.activeId then
      ({ s with activeId := text, lastSeenAt := now }, [Call.handleRecognizedText text])
    else
      ({ s with lastSeenAt := now }, [])
  else if truthy s.activeId ∧ now - s.lastSeenAt > LOST_TIMEOUT_MS then
    ({ s with activeId := none, lastSeenAt := 0 }, [Call.clearOverlay])
  else
    (s, [])

/-- The canvas size of the software branch (`script.backup.js` lines 289-291),
with the quotient and the two products each rounded to the nearest Number. -/
def canvasSize (vw vh : Nat) : Nat × Nat :=
  let scale := Script.toDouble ((JSQR_TARGET_W : ℚ) / ((max 1 vw : Nat) : ℚ))
  (Nat.floor (Script.toDouble ((vw : ℚ) * scale)),
    Nat.floor (Script.toDouble ((vh : ℚ) * scale)))

/-- The last two statements of `scanLoop` of `script.backup.js`. -/
def scanLoopTail (e : Tick) (detectedText : Option String) (s : State) : Result :=
  let r := registerDetection e.nowReg detectedText s
  { state := { r.1 with rafId := some e.rafHandle },
    calls := Call.registerDetection detectedText :: r.2 ++ [Call.requestAnimationFrame],
    outcome := Outcome.returned }

/-- The software branch inside `try` of `script.backup.js`. -/
def softwareDecode (e : Tick) (s : State) : State × List Call × Except JsError (Option String) :=
  let size := canvasSize e.videoWidth e.videoHeight
  let s1 := { s with canvas := some size }
  match e.drawFrame with
  | Except.error err => (s1, [], Except.error err)
  | Except.ok _ =>
    if s.windowJsQR then
      match e.jsQR with
      | Except.ok code => (s1, [Call.jsQR size.1 size.2], Except.ok (detectedFromCode code))
      | Except.error err => (s1, [Call.jsQR size.1 size.2], Except.error err)
    else
      (s1, [], Except.error { name := "TypeError", message := "window.jsQR is not a function" })

/-- The function `scanLoop` of `script.backup.js` from its entry up to its end
or up to the point where it is suspended at `await detector.detect(video)`. -/
def scanLoopStart (e : Tick) (s : State) : Result :=
  if !s.scanning then { state := s, calls := [], outcome := Outcome.returned }
  else if e.nowScan - s.lastScanAt ≥ SCAN_MIN_INTERVAL then
    let s1 := { s with lastScanAt := e.nowScan }
    if e.readyState ≥ HAVE_ENOUGH_DATA then
      if s1.useBarcodeDetector then
        match s1.detector with
        | some _ => { state := s1, calls := [Call.detect], outcome := Outcome.awaitingDetect }
        | none => scanLoopTail e (catchDecode (Except.error
            { name := "TypeError", message := "detector is null" })) s1
      else
        let d := softwareDecode e s1
        let r := scanLoopTail e (catchDecode d.2.2) d.1
        { r with calls := d.2.1 ++ r.calls }
    else scanLoopTail e none s1
  else scanLoopTail e none s

/-- The function `scanLoop` of `script.backup.js` from the point where
`detector.detect(video)` settles up to its end. -/
def scanLoopResume (e : Tick) (s : State) : Result :=
  scanLoopTail e (catchDecode (e.detect.map detectedFromCodes)) s

/-- One whole call of `scanLoop` of `script.backup.js`. -/
def scanLoop (e : Tick) (s : State) : Result :=
  let r := scanLoopStart e s
  match r.outcome with
  | Outcome.awaitingDetect =>
    let q := scanLoopResume e r.state
    { q with calls := r.calls ++ q.calls }
  | _ => r

/-- The function `modelY` of `script.backup.js` (lines 86-92), for
`window.innerHeight = h`, every operation rounded to the nearest Number. -/
def modelY (h : Int) : ℚ :=
  let minH : ℚ := 600
  let maxH : ℚ := 900
  let t := max 0 (min 1 (Script.toDouble
    (Script.toDouble (maxH - h) / Script.toDouble (maxH - minH))))
  Script.toDouble (Script.toFixed2 (Script.toDouble (Script.toDouble 0.35
    + Script.toDouble (t * Script.toDouble 0.55))))

end Backup

/-! # The machine with the hold duration as a parameter

The design of the specification: one implementation in which the hold duration
`H` is a parameter, the minimum decode interval is 60 and the target width of
the software path is 480. -/

namespace Param

open Script (State Tick Call Result Outcome JsError truthy detectedFromCodes detectedFromCode
  catchDecode HAVE_ENOUGH_DATA)

/-- The presence step with hold duration `H`. -/
def registerDetection (H : Int) (now : Int) (text : Option String) (s : State) :
    State × List Call :=
  if truthy text then
    if text ≠ s.activeId then
      ({ s with activeId := text, lastSeenAt := now }, [Call.handleRecognizedText text])
    else
      ({ s with lastSeenAt := now }, [])
  else if truthy s.activeId ∧ now - s.lastSeenAt > H then
    ({ s with activeId := none, lastSeenAt := 0 }, [Call.clearOverlay])
  else
    (s, [])

/-- The end of a tick with hold duration `H`: register the detection, request
the next frame. -/
def scanLoopTail (H : Int) (e : Tick) (detectedText : Option String) (s : State) : Result :=
  let r := registerDetection H e.nowReg detectedText s
  { state := { r.1 with rafId := some e.rafHandle },
    calls := Call.registerDetection detectedText :: r.2 ++ [Call.requestAnimationFrame],
    outcome := Outcome.returned }

/-- The software decode for target width 480, the factor and the two products
each rounded to the nearest Number. -/
def softwareDecode (e : Tick) (s : State) : State × List Call × Except JsError (Option String) :=
  let scale := Script.toDouble (((480 : Nat) : ℚ) / ((max 1 e.videoWidth : Nat) : ℚ))
  let size : Nat × Nat := (Nat.floor (Script.toDouble ((e.videoWidth : ℚ) * scale)),
    Nat.floor (Script.toDouble ((e.videoHeight : ℚ) * scale)))
  let s1 := { s with canvas := some size }
  match e.drawFrame with
  | Except.error err => (s1, [], Except.error err)
  | Except.ok _ =>
    if s.windowJsQR then
      match e.jsQR with
      | Except.ok code => (s1, [Call.jsQR size.1 size.2], Except.ok (detectedFromCode code))
      | Except.error err => (s1, [Call.jsQR size.1 size.2], Except.error err)
    else
      (s1, [], Except.error { name := "TypeError", message := "window.jsQR is not a function" })

/-- A tick with hold duration `H` and minimum decode interval 60, up to its end
or up to the pending native decode. -/
def scanLoopStart (H : Int) (e : Tick) (s : State) : Result :=
  if !s.scanning then { state := s, calls := [], outcome := Outcome.returned }
  else if e.nowScan - s.lastScanAt ≥ 60 then
    let s1 := { s with lastScanAt := e.nowScan }
    if e.readyState ≥ HAVE_ENOUGH_DATA then
      if s1.useBarcodeDetector then
        match s1.detector with
        | some _ => { state := s1, calls := [Call.detect], outcome := Outcome.awaitingDetect }
        | none => scanLoopTail H e (catchDecode (Except.error
            { name := "TypeError", message := "detector is null" })) s1
      else
        let d := softwareDecode e s1
        let r := scanLoopTail H e (catchDecode d.2.2) d.1
        { r with calls := d.2.1 ++ r.calls }
    else scanLoopTail H e none s1
  else scanLoopTail H e none s

/-- A tick with hold duration `H` from the settled native decode to its end. -/
def scanLoopResume (H : Int) (e : Tick) (s : State) : Result :=
  scanLoopTail H e (catchDecode (e.detect.map detectedFromCodes)) s

/-- One whole tick with hold duration `H`. -/
def scanLoop (H : Int) (e : Tick) (s : State) : Result :=
  let r := scanLoopStart H e s
  match r.outcome with
  | Outcome.awaitingDetect =>
    let q := scanLoopResume H e r.state
    { q with calls := r.calls ++ q.calls }
  | _ => r

end Param

/-! # The minimal variant `js/scanner.js`

The module-level variables of `js/scanner.js` (lines 13-19) and the content of
the overlay container are the fields of `Scanner.State`; `hideDelayMs` is never
assigned after its declaration and is a constant.  A call of `scanLoop` is taken
as a whole: nothing else runs while it awaits the detector or the lookup. -/

namespace Scanner

open Script (JsError Barcode)

/-- A record of `builtinById` or of a fetched JSON file: every field is a
string or absent. -/
structure Item where
  id : Option String
  title : Option String
  description : Option String
  type : Option String
  gltfUrl : Option String
  imageUrl : Option String
  builtin : Option String
  position : Option String
  rotation : Option String
  scale : Option String
deriving DecidableEq, Repr

/-- An object without any of the fields of an item. -/
def Item.blank : Item :=
  { id := none, title := none, description := none, type := none, gltfUrl := none,
    imageUrl := none, builtin := none, position := none, rotation := none, scale := none }

/-- The scene or image that `renderItem` puts into the overlay container. -/
inductive Rendering where
  | gltf (url position rotation scale : String)
  | image (url : String)
  | solar
  | rocket
  | cube (label : String)
deriving DecidableEq, Repr

/-- The content of the overlay container: a rendering and the caption set by
`setCaption(title, description)`. -/
structure Overlay where
  rendering : Rendering
  title : String
  description : String
deriving DecidableEq, Repr

/-- The module-level variables of `js/scanner.js`, the size of the canvas
`#frame` and the content of `#model-container` (`none` when it is empty). -/
structure State where
  scanning : Bool
  lastText : String
  barcodeDetector : Bool
  currentId : Option String
  modelVisible : Bool
  lastSeen : Int
  canvas : Nat × Nat
  overlay : Option Overlay
deriving DecidableEq, Repr

def hideDelayMs : Int := 4000

/-- The variables when the page has loaded, for a canvas of the given size. -/
def State.init (canvas : Nat × Nat) : State :=
  { scanning := false, lastText := "", barcodeDetector := false, currentId := none,
    modelVisible := false, lastSeen := 0, canvas := canvas, overlay := none }

/-- The variables after the start button has started the camera with a video of
size `vw` by `vh`: `initCamera` has sized the canvas and `scanning` is true. -/
def State.started (vw vh : Nat) : State :=
  { State.init (vw, vh) with scanning := true }

/-- The calls that `scanLoop` and `onScan` make. -/
inductive Call where
  | newBarcodeDetector
  | detect
  | jsQR (width height : Nat)
  | showLoader
  | hideLoader
  | fetch (id : String)
  | renderItem (item : Option Item)
  | clearOverlay
  | status (message : String) (isError : Bool)
  | requestAnimationFrame
deriving DecidableEq, Repr

/-- How the request of `fetchItemById` ends: no usable answer (the request
fails, the response is not `ok`, or it is not JSON), or a JSON value, which is an
item or `null`. -/
inductive Fetched where
  | failed
  | json (value : Option Item)
deriving DecidableEq, Repr

/-- What the browser supplies during one call of `scanLoop`: whether
`'BarcodeDetector' in window` and whether its constructor returns, what
`barcodeDetector.detect(video)` settles to, whether `window.jsQR` is defined, the
frame size, whether drawing the frame and reading its pixels throws, what
`window.jsQR` returns (the `data` of the code found, or `null`) or throws, how the
request of `fetchItemById` ends, the reading of `Date.now()` where `lastSeen` is
set, and the reading of `Date.now()` in `finally`. -/
structure Tick where
  hasBarcodeDetector : Bool
  constructs : Bool
  detect : Except JsError (Option (List Barcode))
  windowJsQR : Bool
  videoWidth : Nat
  videoHeight : Nat
  drawFrame : Except JsError Unit
  jsQR : Except JsError (Option String)
  fetch : Fetched
  nowSeen : Int
  nowEnd : Int

/-! ## Lookup (`js/scanner.js` lines 106-126) -/

/-- The class `\w` of a regular expression. -/
def isWordChar (c : Char) : Bool :=
  c.isAlphanum || c == '_'

/-- The match of `ID-\w+` that starts at the head of `cs`, if there is one. -/
def matchIdHere (cs : List Char) : Option (List Char) :=
  if cs.take 3 = ['I', 'D', '-'] ∧ (cs.drop 3).takeWhile isWordChar ≠ [] then
    some (['I', 'D', '-'] ++ (cs.drop 3).takeWhile isWordChar)
  else none

/-- The leftmost match of `/ID-\w+/`. -/
def findId : List Char → Option (List Char)
  | [] => none
  | c :: cs =>
    match matchIdHere (c :: cs) with
    | some m => some m
    | none => findId cs

/-- The group of the match of `[?&]id=(ID-\w+)` that starts at the head of `cs`,
if there is one. -/
def matchQueryHere (cs : List Char) : Option (List Char) :=
  match cs with
  | c :: rest =>
    if (c = '?' ∨ c = '&') ∧ rest.take 3 = ['i', 'd', '='] then matchIdHere (rest.drop 3)
    else none
  | [] => none

/-- The group of the leftmost match of `/[?&]id=(ID-\w+)/`. -/
def findQueryId : List Char → Option (List Char)
  | [] => none
  | c :: cs =>
    match matchQueryHere (c :: cs) with
    | some g => some g
    | none => findQueryId cs

/-- The id that `fetchItemById(raw)` looks up:
`m = /ID-\w+/.exec(raw) || /[?&]id=(ID-\w+)/.exec(raw)`, and `m[0]` when it starts
with 'ID-', `m[1]` otherwise, `raw` without a match. -/
def extractId (raw : String) : String :=
  match findId raw.toList with
  | some m => String.mk m
  | none =>
    match findQueryId raw.toList with
    | some g => String.mk g
    | none => raw

/-- The table `builtinById`, read as `builtinById[id]`: an own entry, or a
member inherited from `Object.prototype`, which is truthy and has none of the
fields of an item; `none` when the value is `undefined`. -/
def builtinById (id : String) : Option Item :=
  if id = "ID-1" then
    some { Item.blank with
      id := some "ID-1", title := some "Robot Expressive",
      description := some "Interactive — drag to rotate.", type := some "gltf",
      gltfUrl := some "https://modelviewer.dev/shared-assets/models/RobotExpressive.glb",
      scale := some "0.6 0.6 0.6", position := some "0 -0.5 0", rotation := some "0 0 0" }
  else if id = "ID-2" then
    some { Item.blank with
      id := some "ID-2", title := some "Rocket",
      description := some "Built-in model — drag to rotate.", type := some "builtin",
      builtin := some "rocket" }
  else if id = "ID-3" then
    some { Item.blank with
      id := some "ID-3", title := some "Astronaut",
      description := some "Interactive — drag to rotate.", type := some "gltf",
      gltfUrl := some "https://modelviewer.dev/shared-assets/models/Astronaut.glb",
      scale := some "1.1 1.1 1.1", position := some "0 0 0", rotation := some "0 0 0" }
  else if id = "ID-4" then
    some { Item.blank with
      id := some "ID-4", title := some "Solar System",
      description := some "Animated orbits; drag to rotate the system.",
      type := some "builtin", builtin := some "solar" }
  else if id ∈ Script.objectPrototypeKeys then some Item.blank
  else none

/-- The function `fetchItemById(raw)`: the calls made and the item returned
(`null` when the file holds `null`) or the exception thrown. -/
def fetchItemById (e : Tick) (raw : String) : List Call × Except JsError (Option Item) :=
  let id := extractId raw
  match builtinById id with
  | some item => ([], Except.ok (some item))
  | none =>
    match e.fetch with
    | Fetched.json value => ([Call.fetch id], Except.ok value)
    | Fetched.failed =>
      ([Call.fetch id], Except.error { name := "Error", message := "No record for " ++ id })

/-! ## Rendering (`js/scanner.js` lines 96-104 and 128-217) -/

/-- The value `a || fallback` for a field that is a string or absent. -/
def orElse (a : Option String) (fallback : String) : String :=
  match a with
  | some v => if v != "" then v else fallback
  | none => fallback

/-- What `renderItem(item)` leaves in the overlay container for an item.  The
label of the fallback cube is kept as written; the page shows it in upper
case. -/
def render (item : Item) : Overlay :=
  let caption (r : Rendering) : Overlay :=
    { rendering := r, title := orElse item.title "", description := orElse item.description "" }
  if item.type = some "gltf" ∧ Script.truthy item.gltfUrl then
    caption (Rendering.gltf (orElse item.gltfUrl "") (orElse item.position "0 0 0")
      (orElse item.rotation "0 0 0") (orElse item.scale "1 1 1"))
  else if item.type = some "image" ∧ Script.truthy item.imageUrl then
    caption (Rendering.image (orElse item.imageUrl ""))
  else if item.type = some "builtin" ∧ item.builtin = some "solar" then caption Rendering.solar
  else if item.type = some "builtin" ∧ item.builtin = some "rocket" then caption Rendering.rocket
  else caption (Rendering.cube (orElse item.builtin "EDGE"))

/-- The function `clearOverlay`. -/
def clearOverlay (s : State) : State :=
  { s with overlay := none }

/-- The function `renderItem(item)`: it clears the overlay first; for `null` it
then throws on reading `item.position`. -/
def renderItem (item : Option Item) (s : State) : State × Except JsError Unit :=
  match item with
  | some it => ({ clearOverlay s with overlay := some (render it) }, Except.ok ())
  | none =>
    (clearOverlay s,
      Except.error { name := "TypeError", message := "Cannot read properties of null" })

/-! ## Scanning (`js/scanner.js` lines 219-267) -/

/-- The `catch` and `finally` of `onScan` for an exception `err`:
`status(e.message || 'Unrecognized QR', true); clearOverlay(); hide(loader)`. -/
def onScanCatch (err : JsError) (s : State) : State × List Call :=
  (clearOverlay s,
    [Call.status (if err.message ≠ "" then err.message else "Unrecognized QR") true,
      Call.clearOverlay, Call.hideLoader])

/-- The function `onScan(text)`, with the reading `e.nowSeen` of `Date.now()`. -/
def onScan (e : Tick) (text : String) (s : State) : State × List Call :=
  if text = "" then (s, [])
  else
    let s1 := { s with lastText := text }
    let looked := fetchItemById e text
    match looked.2 with
    | Except.error err =>
      let c := onScanCatch err s1
      (c.1, Call.showLoader :: looked.1 ++ c.2)
    | Except.ok item =>
      let rendered := renderItem item s1
      match rendered.2 with
      | Except.error err =>
        let c := onScanCatch err rendered.1
        (c.1, Call.showLoader :: looked.1 ++ Call.renderItem item :: c.2)
      | Except.ok _ =>
        ({ rendered.1 with modelVisible := true, currentId := some text, lastSeen := e.nowSeen },
          Call.showLoader :: looked.1
            ++ [Call.renderItem item, Call.status ("QR: " ++ text) false, Call.hideLoader])

/-- What both branches of `scanLoop` do with a decoded value `v`:
`if (v === currentId && modelVisible) lastSeen = Date.now(); else await onScan(v)`. -/
def handleDecoded (e : Tick) (v : String) (s : State) : State × List Call :=
  if some v = s.currentId ∧ s.modelVisible = true then ({ s with lastSeen := e.nowSeen }, [])
  else onScan e v s

/-- The first statement of the `try` block of `scanLoop`:
`if (!barcodeDetector && 'BarcodeDetector' in window) { try { barcodeDetector =
new window.BarcodeDetector(...) } catch {} }`. -/
def buildDetector (e : Tick) (s : State) : State × List Call :=
  if !s.barcodeDetector && e.hasBarcodeDetector then
    ({ s with barcodeDetector := e.constructs }, [Call.newBarcodeDetector])
  else (s, [])

/-- The value decoded by the native branch: `codes[0].rawValue` when
`codes?.length`; `none` when the list is empty or absent or `detect` rejects. -/
def nativeDecode (e : Tick) : Option String :=
  match e.detect with
  | Except.ok (some (c :: _)) => some c.rawValue
  | _ => none

/-- The size `(w, h)` of the software branch: `video.videoWidth || canvas.width`
and `video.videoHeight || canvas.height`. -/
def frameSize (e : Tick) (s : State) : Nat × Nat :=
  (if e.videoWidth ≠ 0 then e.videoWidth else s.canvas.1,
    if e.videoHeight ≠ 0 then e.videoHeight else s.canvas.2)

/-- The software branch of `scanLoop`: size the canvas and, when `w && h`, draw
the frame and run `window.jsQR`.  The decoded value is `code.data` when
`code?.data`; `none` when nothing was decoded or an exception was thrown. -/
def softwareDecode (e : Tick) (s : State) : State × List Call × Option String :=
  let size := frameSize e s
  let sized := { s with canvas := size }
  if size.1 ≠ 0 ∧ size.2 ≠ 0 then
    match e.drawFrame with
    | Except.error _ => (sized, [], none)
    | Except.ok _ =>
      match e.jsQR with
      | Except.ok (some data) =>
        (sized, [Call.jsQR size.1 size.2], if data != "" then some data else none)
      | _ => (sized, [Call.jsQR size.1 size.2], none)
  else (sized, [], none)

/-- The decoding part of the `try` block of `scanLoop`: build the detector if
there is none yet, then run the native detector or, without one, `window.jsQR`.
The result is the state, the calls made and the decoded value, if any. -/
def decodeStep (e : Tick) (s : State) : State × List Call × Option String :=
  let built := buildDetector e s
  if built.1.barcodeDetector then (built.1, built.2 ++ [Call.detect], nativeDecode e)
  else if e.windowJsQR then
    let d := softwareDecode e built.1
    (d.1, built.2 ++ d.2.1, d.2.2)
  else (built.1, built.2, none)

/-- The `finally` block of `scanLoop`, with the reading `e.nowEnd` of
`Date.now()`. -/
def finallyStep (e : Tick) (s : State) : State × List Call :=
  if s.modelVisible = true ∧ e.nowEnd - s.lastSeen > hideDelayMs then
    ({ clearOverlay s with modelVisible := false, currentId := none },
      [Call.clearOverlay, Call.status "Scanning…" false, Call.requestAnimationFrame])
  else (s, [Call.requestAnimationFrame])

/-- One whole call of `scanLoop`. -/
def scanLoop (e : Tick) (s : State) : State × List Call :=
  if !s.scanning then (s, [])
  else
    let d := decodeStep e s
    let handled : State × List Call :=
      match d.2.2 with
      | some v => handleDecoded e v d.1
      | none => (d.1, [])
    let f := finallyStep e handled.1
    (f.1, d.2.1 ++ handled.2 ++ f.2)

/-- Consecutive calls of `scanLoop`, one per element: the final state. -/
def runTicks : List Tick → State → State
  | [], s => s
  | e :: rest, s => runTicks rest (scanLoop e s).1

/-- A tick at time `now` without `BarcodeDetector`, with `window.jsQR` defined
and a frame of 640 by 480 in which it finds no code. -/
def Tick.quiet (now : Int) : Tick :=
  { hasBarcodeDetector := false, constructs := false, detect := Except.ok none,
    windowJsQR := true, videoWidth := 640, videoHeight := 480, drawFrame := Except.ok (),
    jsQR := Except.ok none, fetch := Fetched.failed, nowSeen := now, nowEnd := now }

/-! ## Reading `js/scanner.js` against the transition table -/

/-- The presence state that `modelVisible`, `currentId` and `lastSeen` stand
for. -/
def presenceOf (s : State) : Script.Presence :=
  if s.modelVisible then
    match s.currentId with
    | some id => Script.Presence.active id s.lastSeen
    | none => Script.Presence.empty
  else Script.Presence.empty

/-- The decode result of a tick: the decoded value when it is not empty. -/
def payload (e : Tick) (s : State) : Option String :=
  Script.payloadOf (decodeStep e s).2.2

/-- What a tick detects, read off the detector kept from earlier ticks and the
answers of the browser alone: with a `BarcodeDetector` (kept, or constructed on
this tick) the `rawValue` of the first candidate that `detect` resolves to;
without one, when `window.jsQR` is defined and the frame has a non-zero size and
can be drawn, the `data` of the code that `window.jsQR` returns.  An empty
string, and every other case, is no detection. -/
def tickDetection (e : Tick) (s : State) : Option String :=
  if s.barcodeDetector = true ∨ (e.hasBarcodeDetector = true ∧ e.constructs = true) then
    match e.detect with
    | Except.ok (some (c :: _)) => if c.rawValue = "" then none else some c.rawValue
    | _ => none
  else if e.windowJsQR = true ∧ (e.videoWidth ≠ 0 ∨ s.canvas.1 ≠ 0)
      ∧ (e.videoHeight ≠ 0 ∨ s.canvas.2 ≠ 0) then
    match e.drawFrame, e.jsQR with
    | Except.ok _, Except.ok (some data) => if data = "" then none else some data
    | _, _ => none
  else none

/-- Whether a call touches the overlay or the page: the loader, the status
line, `renderItem` and `clearOverlay`. -/
def Call.isPresenter : Call → Bool
  | Call.showLoader => true
  | Call.hideLoader => true
  | Call.renderItem _ => true
  | Call.clearOverlay => true
  | Call.status _ _ => true
  | _ => false

/-- The presenter calls by which `js/scanner.js` delivers an event: `activate`
is the loader shown, the item rendered, the status line set and the loader
hidden; `deactivate` is `clearOverlay` and the status line reset; `keepAlive` or
no event is no call. -/
def callsOf (e : Tick) : Option Script.Event → List Call
  | some (Script.Event.activate id) =>
    [Call.showLoader,
      Call.renderItem (match (fetchItemById e id).2 with
        | Except.ok item => item
        | Except.error _ => none),
      Call.status ("QR: " ++ id) false, Call.hideLoader]
  | some (Script.Event.keepAlive _) => []
  | some Script.Event.deactivate => [Call.clearOverlay, Call.status "Scanning…" false]
  | none => []

/-! ## The patterns of `fetchItemById` as relations -/

/-- A match of `ID-\w+` with the longest run of word characters starts at the
head of `cs`: `cs` is 'ID-', then the non-empty `run` of word characters, then
`rest`, which does not begin with a word character. -/
def IdMatchAt (cs run rest : List Char) : Prop :=
  cs = ['I', 'D', '-'] ++ run ++ rest ∧ run ≠ [] ∧ (∀ c ∈ run, isWordChar c = true)
    ∧ ∀ c, rest.head? = some c → isWordChar c = false

/-- A match of `[?&]id=(ID-\w+)` starts at the head of `cs`: `cs` is '?' or
'&', then 'id=', then a match of `ID-\w+`. -/
def QueryMatchAt (cs run rest : List Char) : Prop :=
  ∃ c, (c = '?' ∨ c = '&') ∧ ∃ tail, cs = c :: 'i' :: 'd' :: '=' :: tail ∧ IdMatchAt tail run rest

end Scanner

namespace Script

/-! ## Theorems -/

/-- A falsy `text` leaves an empty state alone. -/
theorem registerDetection_none_of_empty (now : Int) (s : State) (h : s.activeId = none) :
    registerDetection now none s = (s, []) := by
  simp [registerDetection, truthy, h]

/-- A falsy `text` leaves the state alone while the hold has not run out. -/
theorem registerDetection_none_of_held (now : Int) (s : State)
    (h : now - s.lastSeenAt ≤ LOST_TIMEOUT_MS) :
    registerDetection now none s = (s, []) := by
  have h2 : ¬ LOST_TIMEOUT_MS < now - s.lastSeenAt := not_lt.mpr h
  simp [registerDetection, truthy, h2]

/-- A falsy `text` clears an active state once the hold has run out. -/
theorem registerDetection_none_of_lost (now : Int) (s : State) (id : String)
    (hid : id ≠ "") (hact : s.activeId = some id)
    (h : LOST_TIMEOUT_MS < now - s.lastSeenAt) :
    registerDetection now none s
      = ({ s with activeId := none, lastSeenAt := 0 }, [Call.clearOverlay]) := by
  simp [registerDetection, truthy, hact, hid, h]

/-- A truthy `text` becomes the active id and is stamped with the tick time;
the presenter is called unless it already was the active id. -/
theorem registerDetection_some (now : Int) (s : State) (id : String) (hid : id ≠ "") :
    registerDetection now (some id) s
      = ({ s with activeId := some id, lastSeenAt := now },
          if s.activeId = some id then [] else [Call.handleRecognizedText (some id)]) := by
  by_cases h : s.activeId = some id
  · simp [registerDetection, truthy, hid, h]
  · have h2 : ¬ some id = s.activeId := fun e => h e.symm
    simp [registerDetection, truthy, hid, h, h2]

/-- Falsy ticks leave an empty state alone, however many there are. -/
theorem runDetections_none_of_empty (ts : List Int) (s : State) (h : s.activeId = none) :
    runDetections (ts.map (fun x => (x, none))) s = (s, []) := by
  induction ts with
  | nil => rfl
  | cons t rest ih =>
    simp [runDetections, registerDetection_none_of_empty t s h, ih]

/-- Falsy ticks within the hold leave the state alone, however many there are. -/
theorem runDetections_none_of_held (ts : List Int) (s : State)
    (h : ∀ x ∈ ts, x - s.lastSeenAt ≤ LOST_TIMEOUT_MS) :
    runDetections (ts.map (fun x => (x, none))) s = (s, []) := by
  induction ts with
  | nil => rfl
  | cons t rest ih =>
    have ht := h t (List.mem_cons_self t rest)
    have hrest : ∀ x ∈ rest, x - s.lastSeenAt ≤ LOST_TIMEOUT_MS :=
      fun x hx => h x (List.mem_cons_of_mem t hx)
    simp [runDetections, registerDetection_none_of_held t s ht, ih hrest]

/-- A run of two lists of ticks is the run of the first followed by the run of
the second. -/
theorem runDetections_append (xs ys : List (Int × Option String)) (s : State) :
    runDetections (xs ++ ys) s
      = ((runDetections ys (runDetections xs s).1).1,
          (runDetections xs s).2 ++ (runDetections ys (runDetections xs s).1).2) := by
  induction xs generalizing s with
  | nil => simp [runDetections]
  | cons x rest ih =>
    obtain ⟨now, text⟩ := x
    simp [runDetections, ih, List.append_assoc]

/-- C1: for every state and every tick input, `registerDetection` moves the
presence state as the six-row table says for hold duration `LOST_TIMEOUT_MS`,
makes exactly the presenter call of the row's event (`handleRecognizedText` for
activate, `clearOverlay` for deactivate, none for keepAlive or no event), makes at
most one call, leaves the whole state untouched on the two rows without event,
and never touches a variable other than `activeId` and `lastSeenAt`. -/
theorem registerDetection_follows_table (now : Int) (text : Option String) (s : State) :
    presenceOf (registerDetection now text s).1
        = (tableStep LOST_TIMEOUT_MS now (presenceOf s) (payloadOf text)).1
      ∧ (registerDetection now text s).2
        = callsOf (tableStep LOST_TIMEOUT_MS now (presenceOf s) (payloadOf text)).2
      ∧ (registerDetection now text s).2.length ≤ 1
      ∧ ((tableStep LOST_TIMEOUT_MS now (presenceOf s) (payloadOf text)).2 = none
          → registerDetection now text s = (s, []))
      ∧ (registerDetection now text s).1
          = { s with activeId := (registerDetection now text s).1.activeId,
                     lastSeenAt := (registerDetection now text s).1.lastSeenAt } := by
  obtain ⟨sc, aid, lsa, lsc, sr, ub, det, raf, cv, wj⟩ := s
  have key : LOST_TIMEOUT_MS < now - lsa ↔ ¬ now - lsa ≤ LOST_TIMEOUT_MS := not_le.symm
  rcases text with _ | id2 <;> rcases aid with _ | id
  · simp [registerDetection, presenceOf, payloadOf, tableStep, callsOf, truthy]
  · by_cases h1 : id = "" <;> by_cases h4 : now - lsa ≤ LOST_TIMEOUT_MS <;>
      simp [registerDetection, presenceOf, payloadOf, tableStep, callsOf, truthy, h1, h4, key]
  · by_cases h2 : id2 = "" <;>
      simp [registerDetection, presenceOf, payloadOf, tableStep, callsOf, truthy, h2]
  · by_cases h2 : id2 = "" <;> by_cases h1 : id = "" <;> by_cases h3 : id2 = id <;>
      by_cases h4 : now - lsa ≤ LOST_TIMEOUT_MS <;>
      simp [registerDetection, presenceOf, payloadOf, tableStep, callsOf, truthy,
        h1, h2, h3, h4, key]

/-- C2, as the claim states it, fails at the boundary: from Active "ID-2" at
0, a falsy tick at time 6000, which is at `t + LOST_TIMEOUT_MS`, makes no call
and leaves the state Active "ID-2" at 0. -/
theorem debounced_loss_boundary_counterexample :
    (0 : Int) + LOST_TIMEOUT_MS ≤ 6000
      ∧ registerDetection 6000 none
          { State.init false with activeId := some "ID-2", lastSeenAt := 0 }
        = ({ State.init false with activeId := some "ID-2", lastSeenAt := 0 }, []) := by
  decide

/-- C2, amended: from Active `id` at `t`, fed falsy ticks only, every tick at a
time at or before `t + LOST_TIMEOUT_MS` leaves the state as it is and makes no
call; the first tick at a time strictly after `t + LOST_TIMEOUT_MS` makes exactly
the call `clearOverlay` and empties the state; and over the whole run, however
many falsy ticks follow, `clearOverlay` is the only call made. -/
theorem debounced_loss (s : State) (id : String) (t : Int) (early : List Int) (late : Int)
    (rest : List Int) (hid : id ≠ "") (hact : s.activeId = some id) (ht : s.lastSeenAt = t)
    (hearly : ∀ x ∈ early, x ≤ t + LOST_TIMEOUT_MS) (hlate : t + LOST_TIMEOUT_MS < late) :
    runDetections (early.map (fun x => (x, none))) s = (s, [])
      ∧ registerDetection late none (runDetections (early.map (fun x => (x, none))) s).1
          = ({ s with activeId := none, lastSeenAt := 0 }, [Call.clearOverlay])
      ∧ runDetections ((early ++ late :: rest).map (fun x => (x, none))) s
          = ({ s with activeId := none, lastSeenAt := 0 }, [Call.clearOverlay]) := by
  have h1 : runDetections (early.map (fun x => (x, none))) s = (s, []) := by
    apply runDetections_none_of_held
    intro x hx
    have := hearly x hx
    omega
  have h2 : registerDetection late none s
      = ({ s with activeId := none, lastSeenAt := 0 }, [Call.clearOverlay]) := by
    apply registerDetection_none_of_lost late s id hid hact
    omega
  refine ⟨h1, ?_, ?_⟩
  · rw [h1]; exact h2
  · rw [List.map_append, runDetections_append, h1, List.map_cons]
    simp only [runDetections, h2, List.nil_append]
    rw [runDetections_none_of_empty rest _ rfl]
    simp

/-- Witness of C2 amended: Active "ID-2" at 100, falsy ticks at 101, 3000 and
6100, then at 6101, then at 6200 and 9000. -/
theorem debounced_loss_witness :
    runDetections ([101, 3000, 6100].map (fun x => (x, none)))
        { State.init false with activeId := some "ID-2", lastSeenAt := 100 }
      = ({ State.init false with activeId := some "ID-2", lastSeenAt := 100 }, [])
      ∧ registerDetection 6101 none
          (runDetections ([101, 3000, 6100].map (fun x => (x, none)))
            { State.init false with activeId := some "ID-2", lastSeenAt := 100 }).1
          = ({ State.init false with activeId := none, lastSeenAt := 0 }, [Call.clearOverlay])
      ∧ runDetections (([101, 3000, 6100] ++ 6101 :: [6200, 9000]).map (fun x => (x, none)))
          { State.init false with activeId := some "ID-2", lastSeenAt := 100 }
          = ({ State.init false with activeId := none, lastSeenAt := 0 }, [Call.clearOverlay]) :=
  debounced_loss { State.init false with activeId := some "ID-2", lastSeenAt := 100 }
    "ID-2" 100 [101, 3000, 6100] 6101 [6200, 9000] (by decide) rfl rfl (by decide) (by decide)

/-- C3: for distinct non-empty ids `A` and `B` and all times `t1` and `t2`,
from every state, a tick with `A` at `t1` followed by a tick with `B` at `t2`
gives Active `A` at `t1` without any `clearOverlay`, and then Active `B` at `t2`
with exactly the one call `handleRecognizedText(B)`; the elapsed time `t2 - t1`
plays no part. -/
theorem switch_is_immediate (s : State) (A B : String) (t1 t2 : Int)
    (hA : A ≠ "") (hB : B ≠ "") (hAB : A ≠ B) :
    traceDetections [(t1, some A), (t2, some B)] s
      = [({ s with activeId := some A, lastSeenAt := t1 },
            if s.activeId = some A then [] else [Call.handleRecognizedText (some A)]),
         ({ s with activeId := some B, lastSeenAt := t2 },
            [Call.handleRecognizedText (some B)])] := by
  have hne : ¬ some A = some B := fun e => hAB (Option.some.inj e)
  simp [traceDetections, registerDetection_some, hA, hB, hne]

/-- Witness of C3: from the initial state, "ID-1" at 0 and then "ID-3" at
10000, more than `LOST_TIMEOUT_MS` later. -/
theorem switch_is_immediate_witness :
    LOST_TIMEOUT_MS < 10000 - 0
      ∧ traceDetections [(0, some "ID-1"), (10000, some "ID-3")] (State.init false)
        = [({ State.init false with activeId := some "ID-1", lastSeenAt := 0 },
              if (State.init false).activeId = some "ID-1" then []
              else [Call.handleRecognizedText (some "ID-1")]),
           ({ State.init false with activeId := some "ID-3", lastSeenAt := 10000 },
              [Call.handleRecognizedText (some "ID-3")])] :=
  ⟨by decide, switch_is_immediate (State.init false) "ID-1" "ID-3" 0 10000
    (by decide) (by decide) (by decide)⟩

/-- The trace of ticks that all carry the active id: only `lastSeenAt` moves,
and no call is made. -/
theorem traceDetections_same_id (ts : List Int) (s : State) (id : String) (hid : id ≠ "")
    (hact : s.activeId = some id) :
    traceDetections (ts.map (fun x => (x, some id))) s
      = ts.map (fun x => ({ s with activeId := some id, lastSeenAt := x }, [])) := by
  induction ts generalizing s with
  | nil => rfl
  | cons t rest ih =>
    have hstep := registerDetection_some t s id hid
    simp only [hact, if_true] at hstep
    simp only [List.map_cons, traceDetections, hstep]
    rw [ih { s with activeId := some id, lastSeenAt := t } rfl]

/-- C4: for a non-empty `id` and `N >= 1` ticks that all carry `id`, at any
times, from every state: every tick leaves `activeId = id` and sets `lastSeenAt`
to its own time; the first tick calls `handleRecognizedText(id)` once if `id` was
not already the active id and makes no call otherwise; every later tick makes no
call. -/
theorem repeated_detection_idempotent (s : State) (id : String) (t : Int) (ts : List Int)
    (hid : id ≠ "") :
    traceDetections ((t :: ts).map (fun x => (x, some id))) s
      = ({ s with activeId := some id, lastSeenAt := t },
          if s.activeId = some id then [] else [Call.handleRecognizedText (some id)])
        :: ts.map (fun x => ({ s with activeId := some id, lastSeenAt := x }, [])) := by
  simp only [List.map_cons, traceDetections, registerDetection_some t s id hid]
  rw [traceDetections_same_id ts _ id hid rfl]

/-- Witness of C4: "ID-3" on four ticks at 5, 5, 70 and 9000 from the initial
state. -/
theorem repeated_detection_idempotent_witness :
    traceDetections ((5 :: [5, 70, 9000]).map (fun x => (x, some "ID-3"))) (State.init true)
      = ({ State.init true with activeId := some "ID-3", lastSeenAt := 5 },
          if (State.init true).activeId = some "ID-3" then []
          else [Call.handleRecognizedText (some "ID-3")])
        :: [5, 70, 9000].map
            (fun x => ({ State.init true with activeId := some "ID-3", lastSeenAt := x }, [])) :=
  repeated_detection_idempotent (State.init true) "ID-3" 5 [5, 70, 9000] (by decide)

/-- C5: from the initial state, the tick stream (0, "ID-2"), (1000, none),
(5999, none), (6001, none), (6500, "ID-4") gives, tick by tick: activate "ID-2"
with state Active "ID-2" at 0; no call and the same state; no call and the same
state; deactivate (`clearOverlay`) with the empty state; activate "ID-4" with
state Active "ID-4" at 6500. -/
theorem scenario_hold_6000 (windowJsQR : Bool) :
    LOST_TIMEOUT_MS = 6000
      ∧ traceDetections
          [(0, some "ID-2"), (1000, none), (5999, none), (6001, none), (6500, some "ID-4")]
          (State.init windowJsQR)
        = [({ State.init windowJsQR with activeId := some "ID-2", lastSeenAt := 0 },
              [Call.handleRecognizedText (some "ID-2")]),
           ({ State.init windowJsQR with activeId := some "ID-2", lastSeenAt := 0 }, []),
           ({ State.init windowJsQR with activeId := some "ID-2", lastSeenAt := 0 }, []),
           (State.init windowJsQR, [Call.clearOverlay]),
           ({ State.init windowJsQR with activeId := some "ID-4", lastSeenAt := 6500 },
              [Call.handleRecognizedText (some "ID-4")])] := by
  cases windowJsQR <;> decide

/-- One tick keeps the bound: when `lastSeenAt` of an active state is at most
`b` and the tick time is at most `b`, the same holds after the tick. -/
theorem registerDetection_lastSeenAt_le (now b : Int) (text : Option String) (s : State)
    (hnow : now ≤ b) (hs : s.activeId ≠ none → s.lastSeenAt ≤ b) :
    (registerDetection now text s).1.activeId ≠ none
      → (registerDetection now text s).1.lastSeenAt ≤ b := by
  unfold registerDetection
  split_ifs with h1 h2 h3
  · intro _; exact hnow
  · intro _; exact hnow
  · intro h; exact absurd rfl h
  · exact hs

/-- A run keeps the bound: from an empty state, after ticks whose times are all
at most `b`, `lastSeenAt` of an active state is at most `b`. -/
theorem runDetections_lastSeenAt_le (ticks : List (Int × Option String)) (b : Int) (s : State)
    (hticks : ∀ x ∈ ticks, x.1 ≤ b) (hs : s.activeId ≠ none → s.lastSeenAt ≤ b) :
    (runDetections ticks s).1.activeId ≠ none → (runDetections ticks s).1.lastSeenAt ≤ b := by
  induction ticks generalizing s with
  | nil => exact hs
  | cons x rest ih =>
    obtain ⟨now, text⟩ := x
    have hnow : now ≤ b := hticks (now, text) (List.mem_cons_self _ _)
    have hrest : ∀ y ∈ rest, y.1 ≤ b := fun y hy => hticks y (List.mem_cons_of_mem _ hy)
    exact ih (registerDetection now text s).1 hrest
      (registerDetection_lastSeenAt_le now b text s hnow hs)

/-- C6: under a non-decreasing clock, in a run of ticks that starts from a
state with `activeId = null`, every tick that keeps `activeId` at the same
non-null value leaves `lastSeenAt` no smaller than before, and every tick that
changes `activeId` to a new non-null id sets `lastSeenAt` to the time of that
tick. -/
theorem lastSeenAt_monotone_while_active (s0 : State) (pre : List (Int × Option String))
    (tick : Int × Option String) (h0 : s0.activeId = none)
    (hclock : List.Pairwise (fun a b => a.1 ≤ b.1) (pre ++ [tick])) :
    ((registerDetection tick.1 tick.2 (runDetections pre s0).1).1.activeId
          = (runDetections pre s0).1.activeId
        → (registerDetection tick.1 tick.2 (runDetections pre s0).1).1.activeId ≠ none
        → (runDetections pre s0).1.lastSeenAt
            ≤ (registerDetection tick.1 tick.2 (runDetections pre s0).1).1.lastSeenAt)
      ∧ ((registerDetection tick.1 tick.2 (runDetections pre s0).1).1.activeId
            ≠ (runDetections pre s0).1.activeId
        → (registerDetection tick.1 tick.2 (runDetections pre s0).1).1.activeId ≠ none
        → (registerDetection tick.1 tick.2 (runDetections pre s0).1).1.lastSeenAt = tick.1) := by
  obtain ⟨now, text⟩ := tick
  have hpre : ∀ x ∈ pre, x.1 ≤ now := by
    intro x hx
    exact (List.pairwise_append.mp hclock).2.2 x hx (now, text) (List.mem_singleton.mpr rfl)
  have hbound := runDetections_lastSeenAt_le pre now s0 hpre
    (fun h => absurd h0 h)
  generalize runDetections pre s0 = r at hbound ⊢
  obtain ⟨s, calls⟩ := r
  simp only at hbound ⊢
  unfold registerDetection
  split_ifs with h1 h2 h3
  · exact ⟨fun h => absurd h h2, fun _ _ => rfl⟩
  · refine ⟨fun _ hne => hbound ?_, fun _ _ => rfl⟩
    simpa using hne
  · exact ⟨fun _ h => absurd rfl h, fun _ h => absurd rfl h⟩
  · exact ⟨fun _ _ => le_refl _, fun h => absurd rfl h⟩

/-- Witness of C6: from the initial state, "ID-1" at 10 and at 20, then "ID-1"
again at 20 (kept) and, in the second part, "ID-2" at 20 (changed). -/
theorem lastSeenAt_monotone_while_active_witness :
    (10 : Int) ≤ 20
      ∧ (runDetections [(10, some "ID-1"), (20, some "ID-1")] (State.init false)).1.lastSeenAt
          ≤ (registerDetection 20 (some "ID-1")
              (runDetections [(10, some "ID-1"), (20, some "ID-1")] (State.init false)).1).1.lastSeenAt :=
  ⟨by decide,
    (lastSeenAt_monotone_while_active (State.init false)
      [(10, some "ID-1"), (20, some "ID-1")] (20, some "ID-1") rfl (by decide)).1
      (by decide) (by decide)⟩

/-- A call of `registerDetection` touches `activeId` and `lastSeenAt` only. -/
theorem registerDetection_frame (now : Int) (text : Option String) (s : State) :
    (registerDetection now text s).1
      = { s with activeId := (registerDetection now text s).1.activeId,
                 lastSeenAt := (registerDetection now text s).1.lastSeenAt } := by
  unfold registerDetection
  split_ifs <;> rfl

/-- A call of `registerDetection` invokes no decoder. -/
theorem registerDetection_no_decoder (now : Int) (text : Option String) (s : State) :
    ∀ c ∈ (registerDetection now text s).2, c.isDecoder = false := by
  unfold registerDetection
  split_ifs <;> simp [Call.isDecoder]

/-- The last two statements of `scanLoop` invoke no decoder. -/
theorem scanLoopTail_no_decoder (e : Tick) (text : Option String) (s : State) :
    ∀ c ∈ (scanLoopTail e text s).calls, c.isDecoder = false := by
  intro c hc
  simp only [scanLoopTail, List.cons_append, List.mem_cons, List.mem_append,
    List.mem_singleton, List.not_mem_nil, or_false] at hc
  rcases hc with h | h | h
  · rw [h]; rfl
  · exact registerDetection_no_decoder e.nowReg text s c h
  · rw [h]; rfl

/-- While `scanning` is false a call of `scanLoop` returns at once. -/
theorem scanLoop_of_not_scanning (e : Tick) (s : State) (h : s.scanning = false) :
    scanLoop e s = { state := s, calls := [], outcome := Outcome.returned } := by
  simp [scanLoop, scanLoopStart, h]

/-- A running call of `scanLoop` that comes too soon after the last decode
attempt is its last two statements with `detectedText = null`. -/
theorem scanLoop_of_too_soon (e : Tick) (s : State) (h : s.scanning = true)
    (hsoon : ¬ e.nowScan - s.lastScanAt ≥ SCAN_MIN_INTERVAL) :
    scanLoop e s = scanLoopTail e none s := by
  simp [scanLoop, scanLoopStart, h, hsoon, scanLoopTail]

/-- A running call of `scanLoop` that finds the frame not ready is its last two
statements with `detectedText = null`, after `lastScanAt` is set. -/
theorem scanLoop_of_not_ready (e : Tick) (s : State) (h : s.scanning = true)
    (hrate : e.nowScan - s.lastScanAt ≥ SCAN_MIN_INTERVAL)
    (hready : ¬ e.readyState ≥ HAVE_ENOUGH_DATA) :
    scanLoop e s = scanLoopTail e none { s with lastScanAt := e.nowScan } := by
  simp [scanLoop, scanLoopStart, h, hrate, hready, scanLoopTail]

/-- A call of `scanLoop` sets `lastScanAt` to its clock reading when it enters
the decode branch and leaves it alone otherwise. -/
theorem scanLoop_lastScanAt (e : Tick) (s : State) :
    (scanLoop e s).state.lastScanAt
      = if entersDecode e s = true then e.nowScan else s.lastScanAt := by
  have hreg : ∀ now text (q : State),
      (registerDetection now text q).1.lastScanAt = q.lastScanAt := by
    intro now text q; rw [registerDetection_frame]
  by_cases h1 : s.scanning = true <;>
  by_cases h2 : e.nowScan - s.lastScanAt ≥ SCAN_MIN_INTERVAL <;>
  by_cases h3 : e.readyState ≥ HAVE_ENOUGH_DATA <;>
  by_cases h4 : s.useBarcodeDetector = true <;>
  by_cases h8 : s.windowJsQR = true <;>
  rcases h5 : s.detector with _ | d <;>
  rcases h6 : e.drawFrame with _ | _ <;>
  rcases h7 : e.jsQR with _ | _ <;>
  simp [scanLoop, scanLoopStart, scanLoopResume, scanLoopTail, softwareDecode, entersDecode,
    h1, h2, h3, h4, h5, h6, h7, h8, hreg]

/-- A call of `scanLoop` invokes a decoder only when it is running, the
minimum interval has passed and the frame is ready. -/
theorem scanLoop_decoder_only_if (e : Tick) (s : State) (c : Call)
    (hc : c ∈ (scanLoop e s).calls) (hdec : c.isDecoder = true) :
    s.scanning = true ∧ e.nowScan - s.lastScanAt ≥ SCAN_MIN_INTERVAL
      ∧ e.readyState ≥ HAVE_ENOUGH_DATA := by
  by_cases h1 : s.scanning = true
  · by_cases h2 : e.nowScan - s.lastScanAt ≥ SCAN_MIN_INTERVAL
    · by_cases h3 : e.readyState ≥ HAVE_ENOUGH_DATA
      · exact ⟨h1, h2, h3⟩
      · rw [scanLoop_of_not_ready e s h1 h2 h3] at hc
        have := scanLoopTail_no_decoder e none _ c hc
        rw [this] at hdec; exact absurd hdec (by decide)
    · rw [scanLoop_of_too_soon e s h1 h2] at hc
      have := scanLoopTail_no_decoder e none _ c hc
      rw [this] at hdec; exact absurd hdec (by decide)
  · rw [scanLoop_of_not_scanning e s (by simpa using h1)] at hc
    exact absurd hc (List.not_mem_nil c)

/-- Later calls of `scanLoop` never move `lastScanAt` below a bound that their
clock readings respect. -/
theorem runTicks_lastScanAt_ge (ticks : List Tick) (b : Int) (s : State)
    (hticks : ∀ x ∈ ticks, b ≤ x.nowScan) (hs : b ≤ s.lastScanAt) :
    b ≤ (runTicks ticks s).lastScanAt := by
  induction ticks generalizing s with
  | nil => exact hs
  | cons e rest ih =>
    apply ih (scanLoop e s).state (fun x hx => hticks x (List.mem_cons_of_mem _ hx))
    rw [scanLoop_lastScanAt]
    split_ifs
    · exact hticks e (List.mem_cons_self _ _)
    · exact hs

/-- Running one list of ticks after another. -/
theorem runTicks_append (xs ys : List Tick) (s : State) :
    runTicks (xs ++ ys) s = runTicks ys (runTicks xs s) := by
  induction xs generalizing s with
  | nil => rfl
  | cons x rest ih => simp [runTicks, ih]

/-- C7: under a non-decreasing clock, for every sequence of ticks and every
two ticks `e1` (earlier) and `e2` (later) of it: if both enter the decode branch,
their clock readings are at least `SCAN_MIN_INTERVAL` apart, whatever the frame
readiness and the decoder did on any tick; a running tick that does not enter
the decode branch is exactly `registerDetection(null)` followed by
`requestAnimationFrame`, with no decoder call; and a decoder is invoked only on
a tick that enters the decode branch. -/
theorem decode_rate_limited (s : State) (pre : List Tick) (e1 : Tick) (mid : List Tick)
    (e2 : Tick)
    (hclock : List.Pairwise (fun a b => a.nowScan ≤ b.nowScan) (pre ++ e1 :: mid ++ [e2])) :
    (entersDecode e1 (runTicks pre s) = true
        → entersDecode e2 (runTicks (pre ++ e1 :: mid) s) = true
        → e1.nowScan + SCAN_MIN_INTERVAL ≤ e2.nowScan)
      ∧ ((runTicks pre s).scanning = true → entersDecode e1 (runTicks pre s) = false
        → scanLoop e1 (runTicks pre s) = scanLoopTail e1 none (runTicks pre s)
          ∧ Call.registerDetection none ∈ (scanLoop e1 (runTicks pre s)).calls
          ∧ ∀ c ∈ (scanLoop e1 (runTicks pre s)).calls, c.isDecoder = false)
      ∧ (∀ c ∈ (scanLoop e1 (runTicks pre s)).calls, c.isDecoder = true
        → entersDecode e1 (runTicks pre s) = true) := by
  refine ⟨?_, ?_, ?_⟩
  · intro h1 h2
    have hmid : ∀ x ∈ mid, e1.nowScan ≤ x.nowScan := by
      intro x hx
      have hp := (List.pairwise_append.mp (List.pairwise_append.mp hclock).1).2.1
      exact (List.pairwise_cons.mp hp).1 x hx
    have hstate : runTicks (pre ++ e1 :: mid) s
        = runTicks mid (scanLoop e1 (runTicks pre s)).state := by
      rw [runTicks_append]; rfl
    have hfirst : e1.nowScan ≤ (scanLoop e1 (runTicks pre s)).state.lastScanAt := by
      rw [scanLoop_lastScanAt, if_pos h1]
    have hlast := runTicks_lastScanAt_ge mid e1.nowScan _ hmid hfirst
    rw [← hstate] at hlast
    simp only [entersDecode, Bool.and_eq_true, decide_eq_true_eq] at h2
    have := h2.2
    omega
  · intro hrun hnot
    have hsoon : ¬ e1.nowScan - (runTicks pre s).lastScanAt ≥ SCAN_MIN_INTERVAL := by
      simpa [entersDecode, hrun] using hnot
    have heq := scanLoop_of_too_soon e1 (runTicks pre s) hrun hsoon
    refine ⟨heq, ?_, ?_⟩
    · rw [heq]; simp [scanLoopTail]
    · rw [heq]; exact scanLoopTail_no_decoder e1 none _
  · intro c hc hdec
    have h := scanLoop_decoder_only_if e1 (runTicks pre s) c hc hdec
    simp [entersDecode, h.1, h.2.1]

/-- Witness of C7: a running session with the software decoder, quiet ticks at
100, 130 and 160; the ticks at 100 and 160 enter the decode branch. -/
theorem decode_rate_limited_witness :
    entersDecode (Tick.quiet 100)
        (runTicks [] { State.init true with scanning := true }) = true
      ∧ entersDecode (Tick.quiet 160)
        (runTicks ([] ++ Tick.quiet 100 :: [Tick.quiet 130])
          { State.init true with scanning := true }) = true
      ∧ (Tick.quiet 100).nowScan + SCAN_MIN_INTERVAL ≤ (Tick.quiet 160).nowScan :=
  ⟨by decide, by decide,
    (decode_rate_limited { State.init true with scanning := true } [] (Tick.quiet 100)
      [Tick.quiet 130] (Tick.quiet 160) (by decide)).1 (by decide) (by decide)⟩

/-- C8: on every running tick, a decoder that throws (`detector.detect`
rejects, `window.jsQR` throws) gives the same state and the same calls as the
same tick on which the decoder finds nothing (`detect` resolves to `null` or to
an empty list, `window.jsQR` returns `null`); a throw while the frame is drawn
gives the same state and the same calls apart from the missing decoder call; the
call of `scanLoop` returns rather than throws, it calls `requestAnimationFrame`
and stores the handle, and `scanning` stays true. -/
theorem decoder_fault_is_no_detection (s : State) (e : Tick) (err : JsError)
    (hrun : s.scanning = true) :
    scanLoop { e with detect := Except.error err, jsQR := Except.error err } s
        = scanLoop { e with detect := Except.ok none, jsQR := Except.ok none } s
      ∧ scanLoop { e with detect := Except.error err, jsQR := Except.error err } s
        = scanLoop { e with detect := Except.ok (some []), jsQR := Except.ok none } s
      ∧ (scanLoop { e with drawFrame := Except.error err } s).state
        = (scanLoop { e with drawFrame := Except.ok (), jsQR := Except.ok none } s).state
      ∧ (scanLoop { e with drawFrame := Except.error err } s).calls.filter
            (fun c => !c.isDecoder)
        = (scanLoop { e with drawFrame := Except.ok (), jsQR := Except.ok none } s).calls.filter
            (fun c => !c.isDecoder)
      ∧ (scanLoop { e with detect := Except.error err, jsQR := Except.error err } s).outcome
        = Outcome.returned
      ∧ Call.requestAnimationFrame
        ∈ (scanLoop { e with detect := Except.error err, jsQR := Except.error err } s).calls
      ∧ (scanLoop { e with detect := Except.error err, jsQR := Except.error err } s).state.rafId
        = some e.rafHandle
      ∧ (scanLoop { e with detect := Except.error err, jsQR := Except.error err } s).state.scanning
        = true := by
  have hreg : ∀ now text (q : State),
      (registerDetection now text q).1.scanning = q.scanning := by
    intro now text q; rw [registerDetection_frame]
  have hfilter : ∀ now text (q : State),
      (registerDetection now text q).2.filter (fun c => !c.isDecoder)
        = (registerDetection now text q).2 := by
    intro now text q
    apply List.filter_eq_self.mpr
    intro c hc
    simp [registerDetection_no_decoder now text q c hc]
  by_cases h2 : e.nowScan - s.lastScanAt ≥ SCAN_MIN_INTERVAL <;>
  by_cases h3 : e.readyState ≥ HAVE_ENOUGH_DATA <;>
  by_cases h4 : s.useBarcodeDetector = true <;>
  by_cases h8 : s.windowJsQR = true <;>
  rcases h5 : s.detector with _ | d <;>
  rcases h6 : e.drawFrame with _ | _ <;>
  simp [scanLoop, scanLoopStart, scanLoopResume, scanLoopTail, softwareDecode, catchDecode,
    detectedFromCodes, detectedFromCode, Except.map, Call.isDecoder, List.filter_cons,
    List.filter_append, hrun, h2, h3, h4, h5, h6, h8, hreg, hfilter]

/-- Witness of C8: a running native session that shows "ID-1", a tick at 7000
on which `detector.detect` rejects. -/
theorem decoder_fault_is_no_detection_witness :
    (State.running true "ID-1").scanning = true
      ∧ scanLoop { Tick.quiet 7000 with
            detect := Except.error { name := "NotSupportedError", message := "detect failed" },
            jsQR := Except.error { name := "NotSupportedError", message := "detect failed" } }
          (State.running true "ID-1")
        = scanLoop { Tick.quiet 7000 with detect := Except.ok none, jsQR := Except.ok none }
          (State.running true "ID-1") :=
  ⟨rfl, (decoder_fault_is_no_detection (State.running true "ID-1") (Tick.quiet 7000)
    { name := "NotSupportedError", message := "detect failed" } rfl).1⟩

/-- C9: on every tick on which `video.readyState` is below `HAVE_ENOUGH_DATA`
no decoder is invoked, and while running the tick is exactly
`registerDetection(null)` followed by `requestAnimationFrame` (after `lastScanAt`
is set, when the minimum interval has passed); so a decoder is invoked only on a
tick with `readyState >= HAVE_ENOUGH_DATA`. -/
theorem frame_readiness_guard (s : State) (e : Tick) :
    (e.readyState < HAVE_ENOUGH_DATA
        → (∀ c ∈ (scanLoop e s).calls, c.isDecoder = false)
          ∧ (s.scanning = true
            → scanLoop e s
                = scanLoopTail e none
                    { s with lastScanAt :=
                        if e.nowScan - s.lastScanAt ≥ SCAN_MIN_INTERVAL then e.nowScan
                        else s.lastScanAt }
              ∧ Call.registerDetection none ∈ (scanLoop e s).calls))
      ∧ (∀ c ∈ (scanLoop e s).calls, c.isDecoder = true → e.readyState ≥ HAVE_ENOUGH_DATA) := by
  have honly : ∀ c ∈ (scanLoop e s).calls, c.isDecoder = true
      → e.readyState ≥ HAVE_ENOUGH_DATA :=
    fun c hc hdec => (scanLoop_decoder_only_if e s c hc hdec).2.2
  refine ⟨fun hlow => ⟨?_, ?_⟩, honly⟩
  · intro c hc
    cases hdec : c.isDecoder with
    | false => rfl
    | true => exact absurd (honly c hc hdec) (not_le.mpr hlow)
  · intro hrun
    have hready : ¬ e.readyState ≥ HAVE_ENOUGH_DATA := not_le.mpr hlow
    have heq : scanLoop e s
        = scanLoopTail e none
            { s with lastScanAt :=
                if e.nowScan - s.lastScanAt ≥ SCAN_MIN_INTERVAL then e.nowScan
                else s.lastScanAt } := by
      by_cases h2 : e.nowScan - s.lastScanAt ≥ SCAN_MIN_INTERVAL
      · rw [scanLoop_of_not_ready e s hrun h2 hready, if_pos h2]
      · rw [scanLoop_of_too_soon e s hrun h2, if_neg h2]
    refine ⟨heq, ?_⟩
    rw [heq]; simp [scanLoopTail]

/-- Witness of C9: a running jsQR session that shows "ID-2", a tick at 500 with
`readyState = 2` on which `window.jsQR` would have found "ID-3". -/
theorem frame_readiness_guard_witness :
    ({ Tick.quiet 500 with readyState := 2, jsQR := Except.ok (some "ID-3") } : Tick).readyState
        < HAVE_ENOUGH_DATA
      ∧ (State.running false "ID-2").scanning = true
      ∧ Call.registerDetection none
        ∈ (scanLoop { Tick.quiet 500 with readyState := 2, jsQR := Except.ok (some "ID-3") }
            (State.running false "ID-2")).calls :=
  ⟨by decide, rfl,
    (((frame_readiness_guard (State.running false "ID-2")
      { Tick.quiet 500 with readyState := 2, jsQR := Except.ok (some "ID-3") }).1
        (by decide)).2 rfl).2⟩

/-- The probe selects the native decoder exactly when `getSupportedFormats`
resolves to a list that contains 'qr_code'. -/
theorem probeFormats_eq_true (r : Except JsError (Option (List String))) :
    probeFormats r = true ↔ ∃ f, r = Except.ok (some f) ∧ "qr_code" ∈ f := by
  rcases r with err | _ | f
  · simp [probeFormats]
  · simp [probeFormats]
  · simp [probeFormats]

/-- The function `setupDetector` when the platform has `BarcodeDetector` and
it supports 'qr_code'. -/
theorem setupDetector_of_native (p : Platform) (s : State)
    (hbd : p.hasBarcodeDetector = true) (hqr : probeFormats p.getSupportedFormats = true) :
    setupDetector p s
      = { state := { s with useBarcodeDetector := true, detector := some ["qr_code"] },
          calls := [Call.getSupportedFormats, Call.newBarcodeDetector ["qr_code"]],
          outcome := Outcome.returned } := by
  simp [setupDetector, hbd, hqr]

/-- The function `setupDetector` in every other case. -/
theorem setupDetector_of_software (p : Platform) (s : State)
    (h : ¬ (p.hasBarcodeDetector = true ∧ probeFormats p.getSupportedFormats = true)) :
    setupDetector p s
      = { ensureJsQR p { s with useBarcodeDetector := false } with
          calls := (if p.hasBarcodeDetector = true then [Call.getSupportedFormats] else [])
            ++ Call.ensureJsQR :: (ensureJsQR p { s with useBarcodeDetector := false }).calls } := by
  by_cases hbd : p.hasBarcodeDetector = true
  · have hqr : probeFormats p.getSupportedFormats = false := by
      cases hp : probeFormats p.getSupportedFormats with
      | false => rfl
      | true => exact absurd ⟨hbd, hp⟩ h
    simp [setupDetector, hbd, hqr]
  · have hbd2 : p.hasBarcodeDetector = false := by simpa using hbd
    simp [setupDetector, hbd2]

/-- What `ensureJsQR` does: it touches `window.jsQR` only, calls nothing but
`appendScript`, and when it returns `window.jsQR` is defined. -/
theorem ensureJsQR_spec (p : Platform) (s : State) :
    (ensureJsQR p s).state = { s with windowJsQR := (ensureJsQR p s).state.windowJsQR }
      ∧ ((ensureJsQR p s).outcome = Outcome.returned → (ensureJsQR p s).state.windowJsQR = true)
      ∧ (∀ c ∈ (ensureJsQR p s).calls, ∃ src, c = Call.appendScript src)
      ∧ (ensureJsQR p s).outcome ≠ Outcome.awaitingDetect := by
  obtain ⟨sc, aid, lsa, lsc, sr, ub, det, raf, cv, wj⟩ := s
  cases wj
  · rcases hl : p.scriptLoad with _ | d
    · simp [ensureJsQR, hl]
    · cases d <;> simp [ensureJsQR, hl]
  · simp [ensureJsQR]

/-- How `ensureJsQR` ends does not depend on `useBarcodeDetector`. -/
theorem ensureJsQR_outcome_congr (p : Platform) (s : State) (b : Bool) :
    (ensureJsQR p { s with useBarcodeDetector := b }).outcome = (ensureJsQR p s).outcome := by
  obtain ⟨sc, aid, lsa, lsc, sr, ub, det, raf, cv, wj⟩ := s
  cases wj
  · rcases hl : p.scriptLoad with _ | d
    · simp [ensureJsQR, hl]
    · cases d <;> simp [ensureJsQR, hl]
  · simp [ensureJsQR]

/-- What `setupDetector` leaves alone: it never sets `scanning` and never calls
`scanLoop`. -/
theorem setupDetector_frame (p : Platform) (s : State) :
    (setupDetector p s).state.scanning = s.scanning
      ∧ ∀ c ∈ (setupDetector p s).calls, c ≠ Call.scanLoop := by
  by_cases h : p.hasBarcodeDetector = true ∧ probeFormats p.getSupportedFormats = true
  · rw [setupDetector_of_native p s h.1 h.2]
    simp
  · rw [setupDetector_of_software p s h]
    have hspec := ensureJsQR_spec p { s with useBarcodeDetector := false }
    refine ⟨?_, ?_⟩
    · show (ensureJsQR p { s with useBarcodeDetector := false }).state.scanning = s.scanning
      rw [hspec.1]
    · intro c hc
      simp only [List.mem_append, List.mem_cons] at hc
      rcases hc with hc | hc | hc
      · split_ifs at hc
        · rw [List.mem_singleton.mp hc]; simp
        · exact absurd hc (List.not_mem_nil c)
      · rw [hc]; simp
      · obtain ⟨src, hsrc⟩ := hspec.2.2.1 c hc
        rw [hsrc]; simp

/-- What `startCamera` leaves alone: it touches `streamRef` only, calls
`getUserMedia` and `play` only, and is never left suspended. -/
theorem startCamera_frame (p : Platform) (s : State) :
    (startCamera p s).state.scanning = s.scanning
      ∧ (∀ c ∈ (startCamera p s).calls, c = Call.getUserMedia ∨ c = Call.play)
      ∧ (startCamera p s).outcome ≠ Outcome.awaitingDetect := by
  rcases hg : p.getUserMedia with err | tracks
  · simp [startCamera, hg]
  · rcases hp : p.play with err | _ <;> simp [startCamera, hg, hp]

/-- The first part of `scanLoop` leaves `window.jsQR` alone. -/
theorem scanLoopStart_windowJsQR (e : Tick) (s : State) :
    (scanLoopStart e s).state.windowJsQR = s.windowJsQR := by
  have hreg : ∀ now text (q : State),
      (registerDetection now text q).1.windowJsQR = q.windowJsQR := by
    intro now text q; rw [registerDetection_frame]
  by_cases h1 : s.scanning = true <;>
  by_cases h2 : e.nowScan - s.lastScanAt ≥ SCAN_MIN_INTERVAL <;>
  by_cases h3 : e.readyState ≥ HAVE_ENOUGH_DATA <;>
  by_cases h4 : s.useBarcodeDetector = true <;>
  by_cases h8 : s.windowJsQR = true <;>
  rcases h5 : s.detector with _ | d <;>
  rcases h6 : e.drawFrame with _ | _ <;>
  rcases h7 : e.jsQR with _ | _ <;>
  simp [scanLoopStart, scanLoopTail, softwareDecode, h1, h2, h3, h4, h5, h6, h7, h8, hreg]

/-- When `startScanner`, entered with `scanning` false, sets `scanning` or calls
`scanLoop`, then `startCamera` and `setupDetector` both returned, and the calls
are those of the two, then `scanLoop`, then the first part of `scanLoop`. -/
theorem startScanner_started (p : Platform) (e : Tick) (s : State) (hs : s.scanning = false)
    (h : (startScanner p e s).state.scanning = true
      ∨ Call.scanLoop ∈ (startScanner p e s).calls) :
    (setupDetector p (startCamera p s).state).outcome = Outcome.returned
      ∧ (startScanner p e s).state
        = (scanLoopStart e
            { (setupDetector p (startCamera p s).state).state with scanning := true }).state
      ∧ (startScanner p e s).calls
        = ([Call.requestMotionPermissionIfNeeded, Call.loaderHidden false]
            ++ (startCamera p s).calls ++ (setupDetector p (startCamera p s).state).calls
            ++ [Call.hideStartButton])
          ++ Call.scanLoop
            :: ((scanLoopStart e
                { (setupDetector p (startCamera p s).state).state with scanning := true }).calls
              ++ [Call.loaderHidden true]) := by
  have hcam := startCamera_frame p s
  have hdet := setupDetector_frame p (startCamera p s).state
  have hcamcalls : Call.scanLoop ∉ (startCamera p s).calls := by
    intro hmem
    rcases hcam.2.1 _ hmem with h1 | h1 <;> exact absurd h1 (by decide)
  have hdetcalls : Call.scanLoop ∉ (setupDetector p (startCamera p s).state).calls :=
    fun hmem => hdet.2 _ hmem rfl
  by_cases hg : p.hasGetUserMedia = true
  · rcases hc : (startCamera p s).outcome with _ | err | _
    · rcases hd : (setupDetector p (startCamera p s).state).outcome with _ | err | _
      · simp [startScanner, startScannerTry, startScannerEnd, hg, hc, hd]
      · exfalso
        simp [startScanner, startScannerTry, startScannerEnd, hg, hc, hd, hdet.1, hcam.1, hs,
          hcamcalls, hdetcalls] at h
      · exfalso
        simp [startScanner, startScannerTry, startScannerEnd, hg, hc, hd, hdet.1, hcam.1, hs,
          hcamcalls, hdetcalls] at h
    · exfalso
      simp [startScanner, startScannerTry, startScannerEnd, hg, hc, hcam.1, hs, hcamcalls] at h
    · exact absurd hc hcam.2.2
  · exfalso
    simp [startScanner, startScannerTry, startScannerEnd, hg, hs] at h

/-- C10: `setupDetector` selects the native decoder (`useBarcodeDetector`
true, a detector built for 'qr_code' only) exactly when `BarcodeDetector` exists
and `getSupportedFormats` resolves to a list containing 'qr_code', and then
`ensureJsQR` is not called and no script is loaded.  In every other case, a
rejecting probe included, `useBarcodeDetector` is false, `ensureJsQR` is called,
`setupDetector` ends exactly as `ensureJsQR` ends (the probe adds no failure), and
when it returns `window.jsQR` is defined.  `setupDetector` never sets `scanning`;
and when `startScanner`, entered with `scanning` false, sets `scanning` or calls
`scanLoop` in such a case, `window.jsQR` is defined and the call of `ensureJsQR`
precedes the first call of `scanLoop`. -/
theorem decoder_selection (p : Platform) (e : Tick) (s : State) :
    ((setupDetector p s).state.useBarcodeDetector = true
        ↔ (p.hasBarcodeDetector = true
            ∧ ∃ f, p.getSupportedFormats = Except.ok (some f) ∧ "qr_code" ∈ f))
      ∧ (Call.newBarcodeDetector ["qr_code"] ∈ (setupDetector p s).calls
        ↔ (p.hasBarcodeDetector = true
            ∧ ∃ f, p.getSupportedFormats = Except.ok (some f) ∧ "qr_code" ∈ f))
      ∧ ((p.hasBarcodeDetector = true
            ∧ ∃ f, p.getSupportedFormats = Except.ok (some f) ∧ "qr_code" ∈ f)
        → (setupDetector p s).state.detector = some ["qr_code"]
          ∧ Call.ensureJsQR ∉ (setupDetector p s).calls
          ∧ (∀ src, Call.appendScript src ∉ (setupDetector p s).calls)
          ∧ (setupDetector p s).state.windowJsQR = s.windowJsQR
          ∧ (setupDetector p s).outcome = Outcome.returned)
      ∧ (¬ (p.hasBarcodeDetector = true
            ∧ ∃ f, p.getSupportedFormats = Except.ok (some f) ∧ "qr_code" ∈ f)
        → (setupDetector p s).state.useBarcodeDetector = false
          ∧ Call.ensureJsQR ∈ (setupDetector p s).calls
          ∧ (setupDetector p s).outcome = (ensureJsQR p s).outcome
          ∧ ((setupDetector p s).outcome = Outcome.returned
            → (setupDetector p s).state.windowJsQR = true)
          ∧ (s.scanning = false
            → ((startScanner p e s).state.scanning = true
                ∨ Call.scanLoop ∈ (startScanner p e s).calls)
            → (startScanner p e s).state.windowJsQR = true
              ∧ ∃ before after, (startScanner p e s).calls = before ++ Call.scanLoop :: after
                  ∧ Call.ensureJsQR ∈ before ∧ Call.scanLoop ∉ before))
      ∧ (setupDetector p s).state.scanning = s.scanning := by
  have hN : (p.hasBarcodeDetector = true
      ∧ ∃ f, p.getSupportedFormats = Except.ok (some f) ∧ "qr_code" ∈ f)
      ↔ (p.hasBarcodeDetector = true ∧ probeFormats p.getSupportedFormats = true) := by
    rw [probeFormats_eq_true]
  rw [hN]
  by_cases h : p.hasBarcodeDetector = true ∧ probeFormats p.getSupportedFormats = true
  · rw [setupDetector_of_native p s h.1 h.2]
    simp [h]
  · have hsoft : ∀ q : State, setupDetector p q
        = { ensureJsQR p { q with useBarcodeDetector := false } with
            calls := (if p.hasBarcodeDetector = true then [Call.getSupportedFormats] else [])
              ++ Call.ensureJsQR
                :: (ensureJsQR p { q with useBarcodeDetector := false }).calls } :=
      fun q => setupDetector_of_software p q h
    have hspec : ∀ q : State, _ := fun q => ensureJsQR_spec p { q with useBarcodeDetector := false }
    have hflag : ∀ q : State, (setupDetector p q).state.useBarcodeDetector = false := by
      intro q
      rw [hsoft q]
      show (ensureJsQR p { q with useBarcodeDetector := false }).state.useBarcodeDetector = false
      rw [(hspec q).1]
    have hnonew : Call.newBarcodeDetector ["qr_code"] ∉ (setupDetector p s).calls := by
      rw [hsoft s]
      intro hc
      simp only [List.mem_append, List.mem_cons] at hc
      rcases hc with hc | hc | hc
      · split_ifs at hc
        · exact absurd (List.mem_singleton.mp hc) (by decide)
        · exact absurd hc (List.not_mem_nil _)
      · exact absurd hc (by decide)
      · obtain ⟨src, hsrc⟩ := (hspec s).2.2.1 _ hc
        exact absurd hsrc (by simp)
    have hcalled : ∀ q : State, Call.ensureJsQR ∈ (setupDetector p q).calls := by
      intro q; rw [hsoft q]; simp
    have hloaded : ∀ q : State, (setupDetector p q).outcome = Outcome.returned
        → (setupDetector p q).state.windowJsQR = true := by
      intro q; rw [hsoft q]; exact (hspec q).2.1
    refine ⟨?_, ?_, ?_, ?_, (setupDetector_frame p s).1⟩
    · simp [hflag s, h]
    · simp [hnonew, h]
    · intro hn; exact absurd hn h
    · intro _
      refine ⟨hflag s, hcalled s, ?_, hloaded s, ?_⟩
      · rw [hsoft s]; exact ensureJsQR_outcome_congr p s false
      · intro hs hstart
        obtain ⟨hret, hstate, hcalls⟩ := startScanner_started p e s hs hstart
        refine ⟨?_, _, _, hcalls, ?_, ?_⟩
        · rw [hstate, scanLoopStart_windowJsQR]
          exact hloaded _ hret
        · simp [hcalled (startCamera p s).state]
        · have hcam := (startCamera_frame p s).2.1
          have hdet := (setupDetector_frame p (startCamera p s).state).2
          intro hmem
          simp only [List.mem_append, List.mem_cons, List.mem_singleton, List.not_mem_nil,
            or_false] at hmem
          rcases hmem with ((hmem | hmem) | hmem) | hmem
          · rcases hmem with hmem | hmem <;> exact absurd hmem (by decide)
          · rcases hcam _ hmem with h1 | h1 <;> exact absurd h1 (by decide)
          · exact hdet _ hmem rfl
          · exact absurd hmem (by decide)

/-- Witness of C10: on a platform whose probe rejects, started from the
initial state without `window.jsQR`, the software decoder is selected,
`ensureJsQR` is called and `setupDetector` ends as `ensureJsQR` does. -/
theorem decoder_selection_witness :
    (setupDetector Platform.probeRejects (State.init false)).state.useBarcodeDetector = false
      ∧ Call.ensureJsQR ∈ (setupDetector Platform.probeRejects (State.init false)).calls
      ∧ (setupDetector Platform.probeRejects (State.init false)).outcome
        = (ensureJsQR Platform.probeRejects (State.init false)).outcome :=
  have h := (decoder_selection Platform.probeRejects (Tick.quiet 100) (State.init false)).2.2.2.1
    (by simp [Platform.probeRejects])
  ⟨h.1, h.2.1, h.2.2.1⟩

/-- How `ensureJsQR` ends depends on `window.jsQR` and on the script load
only. -/
theorem ensureJsQR_outcome_of_windowJsQR (p : Platform) (s q : State)
    (h : q.windowJsQR = s.windowJsQR) :
    (ensureJsQR p q).outcome = (ensureJsQR p s).outcome := by
  obtain ⟨sc, aid, lsa, lsc, sr, ub, det, raf, cv, wj⟩ := s
  obtain ⟨sc', aid', lsa', lsc', sr', ub', det', raf', cv', wj'⟩ := q
  simp only at h
  subst h
  cases wj'
  · rcases hl : p.scriptLoad with _ | d
    · simp [ensureJsQR, hl]
    · cases d <;> simp [ensureJsQR, hl]
  · simp [ensureJsQR]

/-- What `startCamera` calls: `getUserMedia` once, then `play` at most once. -/
theorem startCamera_calls (p : Platform) (s : State) :
    (startCamera p s).calls = [Call.getUserMedia]
      ∨ (startCamera p s).calls = [Call.getUserMedia, Call.play] := by
  rcases hg : p.getUserMedia with err | tracks
  · simp [startCamera, hg]
  · rcases hp : p.play with err | _ <;> simp [startCamera, hg, hp]

/-- What `setupDetector` calls when it throws: the probe at most once, then
`ensureJsQR`, then at most one script load. -/
theorem setupDetector_calls_of_threw (p : Platform) (s : State) (err : JsError)
    (h : (setupDetector p s).outcome = Outcome.threw err) :
    ∃ probe, (probe = [] ∨ probe = [Call.getSupportedFormats])
      ∧ (setupDetector p s).calls
        = probe ++ [Call.ensureJsQR,
            Call.appendScript "https://cdn.jsdelivr.net/npm/jsqr@1.4.0/dist/jsQR.js"] := by
  by_cases hn : p.hasBarcodeDetector = true ∧ probeFormats p.getSupportedFormats = true
  · rw [setupDetector_of_native p s hn.1 hn.2] at h
    exact absurd h (by simp)
  · rw [setupDetector_of_software p s hn] at h ⊢
    refine ⟨if p.hasBarcodeDetector = true then [Call.getSupportedFormats] else [], ?_, ?_⟩
    · split_ifs <;> simp
    · obtain ⟨sc, aid, lsa, lsc, sr, ub, det, raf, cv, wj⟩ := s
      cases wj
      · rcases hl : p.scriptLoad with _ | d
        · simp [ensureJsQR, hl]
        · cases d <;> simp_all [ensureJsQR, hl]
      · simp [ensureJsQR] at h

/-- C11: when `startScanner`, entered with `scanning` false on a platform with
`getUserMedia`, meets a rejecting `startCamera`, or (the camera started and the
native decoder not being selected) a rejecting `ensureJsQR`, then `scanning`
stays false, `scanLoop` is not called, no decoder is invoked and no frame is
requested, the error is shown by `updateStatus(msg, true)`, nothing is tried a
second time, and every later call of `scanLoop` returns at once. -/
theorem startup_failure_is_fatal (p : Platform) (e : Tick) (s : State) (err : JsError)
    (hs : s.scanning = false) (hmedia : p.hasGetUserMedia = true)
    (hfail : (startCamera p s).outcome = Outcome.threw err
      ∨ ((startCamera p s).outcome = Outcome.returned
        ∧ ¬ (p.hasBarcodeDetector = true
            ∧ ∃ f, p.getSupportedFormats = Except.ok (some f) ∧ "qr_code" ∈ f)
        ∧ (ensureJsQR p s).outcome = Outcome.threw err)) :
    (startScanner p e s).state.scanning = false
      ∧ Call.scanLoop ∉ (startScanner p e s).calls
      ∧ Call.requestAnimationFrame ∉ (startScanner p e s).calls
      ∧ (∀ c ∈ (startScanner p e s).calls, c.isDecoder = false)
      ∧ Call.updateStatus (startErrorMessage p.secureOrigin err) true
        ∈ (startScanner p e s).calls
      ∧ (startScanner p e s).calls.count Call.getUserMedia = 1
      ∧ (startScanner p e s).calls.count Call.ensureJsQR ≤ 1
      ∧ (startScanner p e s).calls.count
          (Call.appendScript "https://cdn.jsdelivr.net/npm/jsqr@1.4.0/dist/jsQR.js") ≤ 1
      ∧ (startScanner p e s).outcome = Outcome.returned
      ∧ ∀ later : Tick, scanLoop later (startScanner p e s).state
          = { state := (startScanner p e s).state, calls := [], outcome := Outcome.returned } := by
  have hcam := startCamera_frame p s
  have hdetf := setupDetector_frame p (startCamera p s).state
  have key : ((startScanner p e s).state = (startCamera p s).state
        ∧ (startScanner p e s).calls
          = [Call.requestMotionPermissionIfNeeded, Call.loaderHidden false]
            ++ (startCamera p s).calls
            ++ [Call.updateStatus (startErrorMessage p.secureOrigin err) true,
                Call.loaderHidden true])
      ∨ ((startScanner p e s).state = (setupDetector p (startCamera p s).state).state
        ∧ ∃ probe, (probe = [] ∨ probe = [Call.getSupportedFormats])
          ∧ (startScanner p e s).calls
            = [Call.requestMotionPermissionIfNeeded, Call.loaderHidden false]
              ++ (startCamera p s).calls
              ++ (probe ++ [Call.ensureJsQR,
                  Call.appendScript "https://cdn.jsdelivr.net/npm/jsqr@1.4.0/dist/jsQR.js"])
              ++ [Call.updateStatus (startErrorMessage p.secureOrigin err) true,
                  Call.loaderHidden true]) := by
    rcases hfail with hc | ⟨hc, hn, he⟩
    · left
      simp [startScanner, startScannerTry, startScannerEnd, hmedia, hc]
    · right
      have hn2 : ¬ (p.hasBarcodeDetector = true
          ∧ probeFormats p.getSupportedFormats = true) := by
        rw [probeFormats_eq_true]; exact hn
      have hd : (setupDetector p (startCamera p s).state).outcome = Outcome.threw err := by
        rw [setupDetector_of_software p _ hn2]
        show (ensureJsQR p _).outcome = _
        rw [← he]
        apply ensureJsQR_outcome_of_windowJsQR
        show (startCamera p s).state.windowJsQR = s.windowJsQR
        rcases hg : p.getUserMedia with _ | tracks
        · simp [startCamera, hg]
        · rcases hp : p.play with _ | _ <;> simp [startCamera, hg, hp]
      obtain ⟨probe, hprobe, hcalls⟩ := setupDetector_calls_of_threw p _ err hd
      refine ⟨?_, probe, hprobe, ?_⟩
      · simp [startScanner, startScannerTry, startScannerEnd, hmedia, hc, hd]
      · simp [startScanner, startScannerTry, startScannerEnd, hmedia, hc, hd, hcalls]
  have hscan : (startScanner p e s).state.scanning = false := by
    rcases key with ⟨hst, _⟩ | ⟨hst, _⟩
    · rw [hst, hcam.1, hs]
    · rw [hst, hdetf.1, hcam.1, hs]
  have hout : (startScanner p e s).outcome = Outcome.returned := by
    simp only [startScanner, startScannerEnd]
    split <;> rfl
  refine ⟨hscan, ?_, ?_, ?_, ?_, ?_, ?_, ?_, hout,
    fun later => scanLoop_of_not_scanning later _ hscan⟩
  all_goals
    rcases key with ⟨_, hcalls⟩ | ⟨_, probe, hprobe, hcalls⟩
    · rw [hcalls]
      rcases startCamera_calls p s with hc | hc <;> rw [hc] <;> simp [Call.isDecoder]
    · rw [hcalls]
      rcases startCamera_calls p s with hc | hc <;> rcases hprobe with hp | hp <;>
        rw [hc, hp] <;> simp [Call.isDecoder]

/-- Witness of C11: the camera is refused (`NotAllowedError`). -/
theorem startup_failure_is_fatal_witness :
    (startScanner
        { Platform.probeRejects with
          getUserMedia := Except.error { name := "NotAllowedError", message := "denied" } }
        (Tick.quiet 100) (State.init false)).state.scanning = false
      ∧ Call.updateStatus "Camera access denied. Enable camera permissions and retry." true
        ∈ (startScanner
            { Platform.probeRejects with
              getUserMedia := Except.error { name := "NotAllowedError", message := "denied" } }
            (Tick.quiet 100) (State.init false)).calls :=
  have h := startup_failure_is_fatal
    { Platform.probeRejects with
      getUserMedia := Except.error { name := "NotAllowedError", message := "denied" } }
    (Tick.quiet 100) (State.init false) { name := "NotAllowedError", message := "denied" }
    rfl rfl (Or.inl rfl)
  ⟨h.1, h.2.2.2.2.1⟩

/-- C12, as the claim states it, fails: a running native session that shows
"ID-1" starts a tick, `stopCamera` runs while `detector.detect` is in flight,
and the decode then resolves to a candidate "ID-3".  The resumed call passes
"ID-3" to `registerDetection`, `activeId` becomes "ID-3", `lastSeenAt` becomes the
clock reading 200 and `handleRecognizedText("ID-3")` is called. -/
theorem stop_during_decode_counterexample :
    (scanLoopStart
        { Tick.quiet 100 with
          detect := Except.ok (some [{ rawValue := "ID-3", displayValue := none }]),
          nowReg := 200 }
        (State.running true "ID-1")).outcome = Outcome.awaitingDetect
      ∧ (stopCamera (scanLoopStart
          { Tick.quiet 100 with
            detect := Except.ok (some [{ rawValue := "ID-3", displayValue := none }]),
            nowReg := 200 }
          (State.running true "ID-1")).state).1.activeId = none
      ∧ (scanLoopResume
          { Tick.quiet 100 with
            detect := Except.ok (some [{ rawValue := "ID-3", displayValue := none }]),
            nowReg := 200 }
          (stopCamera (scanLoopStart
            { Tick.quiet 100 with
              detect := Except.ok (some [{ rawValue := "ID-3", displayValue := none }]),
              nowReg := 200 }
            (State.running true "ID-1")).state).1)
        = { state := { State.running true "ID-1" with
                scanning := false, streamRef := none, activeId := some "ID-3",
                lastSeenAt := 200, lastScanAt := 100, rafId := some 1 },
            calls := [Call.registerDetection (some "ID-3"),
              Call.handleRecognizedText (some "ID-3"), Call.requestAnimationFrame],
            outcome := Outcome.returned } := by
  decide

/-- What `startCamera` and `setupDetector` leave alone: `activeId`. -/
theorem startup_activeId (p : Platform) (s : State) :
    (setupDetector p (startCamera p s).state).state.activeId = s.activeId := by
  have hcam : (startCamera p s).state.activeId = s.activeId := by
    rcases hg : p.getUserMedia with _ | tracks
    · simp [startCamera, hg]
    · rcases hp : p.play with _ | _ <;> simp [startCamera, hg, hp]
  rw [← hcam]
  generalize (startCamera p s).state = q
  by_cases hn : p.hasBarcodeDetector = true ∧ probeFormats p.getSupportedFormats = true
  · rw [setupDetector_of_native p q hn.1 hn.2]
  · rw [setupDetector_of_software p q hn]
    show (ensureJsQR p _).state.activeId = _
    rw [(ensureJsQR_spec p _).1]

/-- C12, amended: when `stopCamera` runs while a tick is suspended at
`await detector.detect(video)`, the continued call does not look at `scanning`:
it passes the decode result to `registerDetection`.  A truthy result becomes
`activeId`, stamps `lastSeenAt` and is shown by one call of
`handleRecognizedText`; a falsy result (nothing found, or a rejection) leaves
`activeId` null and `lastSeenAt` as it was, with no presenter call.  In both
cases `requestAnimationFrame` is called, `scanning` stays false, and a call of
`scanLoop` that starts afterwards returns at once. -/
theorem stop_during_decode (s : State) (e later : Tick)
    (hwait : (scanLoopStart e s).outcome = Outcome.awaitingDetect) :
    scanLoopResume e (stoppedInFlight e s)
        = scanLoopTail e (detectedNative e) (stoppedInFlight e s)
      ∧ (stoppedInFlight e s).activeId = none
      ∧ (truthy (detectedNative e) = true
        → (scanLoopResume e (stoppedInFlight e s)).state
            = { s with scanning := false, streamRef := none, lastScanAt := e.nowScan,
                       activeId := detectedNative e, lastSeenAt := e.nowReg,
                       rafId := some e.rafHandle }
          ∧ (scanLoopResume e (stoppedInFlight e s)).calls
            = [Call.registerDetection (detectedNative e),
                Call.handleRecognizedText (detectedNative e), Call.requestAnimationFrame])
      ∧ (truthy (detectedNative e) = false
        → (scanLoopResume e (stoppedInFlight e s)).state
            = { s with scanning := false, streamRef := none, lastScanAt := e.nowScan,
                       activeId := none, rafId := some e.rafHandle }
          ∧ (scanLoopResume e (stoppedInFlight e s)).calls
            = [Call.registerDetection (detectedNative e), Call.requestAnimationFrame])
      ∧ scanLoop later (scanLoopResume e (stoppedInFlight e s)).state
        = { state := (scanLoopResume e (stoppedInFlight e s)).state, calls := [],
            outcome := Outcome.returned } := by
  have hstart : (scanLoopStart e s).state = { s with lastScanAt := e.nowScan } := by
    by_cases h1 : s.scanning = true <;>
    by_cases h2 : e.nowScan - s.lastScanAt ≥ SCAN_MIN_INTERVAL <;>
    by_cases h3 : e.readyState ≥ HAVE_ENOUGH_DATA <;>
    by_cases h4 : s.useBarcodeDetector = true <;>
    rcases h5 : s.detector with _ | d <;>
    simp [scanLoopStart, scanLoopTail, h1, h2, h3, h4, h5] at hwait ⊢
  have hstopped : stoppedInFlight e s
      = { s with scanning := false, streamRef := none, lastScanAt := e.nowScan,
                 activeId := none } := by
    simp [stoppedInFlight, hstart, stopCamera]
  have hres : scanLoopResume e (stoppedInFlight e s)
      = scanLoopTail e (detectedNative e) (stoppedInFlight e s) := rfl
  have hscan : (scanLoopResume e (stoppedInFlight e s)).state.scanning = false := by
    rw [hres]
    simp only [scanLoopTail]
    rw [registerDetection_frame, hstopped]
  refine ⟨hres, by rw [hstopped], ?_, ?_, scanLoop_of_not_scanning later _ hscan⟩
  · intro ht
    have hne : ¬ detectedNative e = none := by
      intro h0; rw [h0] at ht; exact absurd ht (by decide)
    rw [hres, hstopped]
    simp [scanLoopTail, registerDetection, ht, hne]
  · intro ht
    rw [hres, hstopped]
    have hnone : truthy none = false := rfl
    simp [scanLoopTail, registerDetection, ht, hnone]

/-- Witness of C12 amended: the run of the counterexample. -/
theorem stop_during_decode_witness :
    (scanLoopResume
        { Tick.quiet 100 with
          detect := Except.ok (some [{ rawValue := "ID-3", displayValue := none }]),
          nowReg := 200 }
        (stoppedInFlight
          { Tick.quiet 100 with
            detect := Except.ok (some [{ rawValue := "ID-3", displayValue := none }]),
            nowReg := 200 }
          (State.running true "ID-1"))).state.scanning = false
      ∧ (stoppedInFlight
          { Tick.quiet 100 with
            detect := Except.ok (some [{ rawValue := "ID-3", displayValue := none }]),
            nowReg := 200 }
          (State.running true "ID-1")).activeId = none :=
  ⟨by decide,
    (stop_during_decode (State.running true "ID-1")
      { Tick.quiet 100 with
        detect := Except.ok (some [{ rawValue := "ID-3", displayValue := none }]),
        nowReg := 200 }
      (Tick.quiet 300) (by decide)).2.1⟩

/-- C13: `activeId` is null when the page has loaded and stays null through
`startCamera` and `setupDetector`, so the first tick of a session, started from
the loaded page or after a `stopCamera`, finds the presence state empty.  After
`stopCamera`, from every state, `scanning` is false, `activeId` is null,
`streamRef` is null and `stop` was called on every track of the stream that was
held; a call of `scanLoop` that starts afterwards returns at once, with the state
as it is and no call made. -/
theorem stop_resets_session (s : State) (p : Platform) (e : Tick) (windowJsQR : Bool) :
    (State.init windowJsQR).activeId = none
      ∧ (setupDetector p (startCamera p (State.init windowJsQR)).state).state.activeId = none
      ∧ (setupDetector p (startCamera p (stopCamera s).1).state).state.activeId = none
      ∧ (stopCamera s).1.scanning = false
      ∧ (stopCamera s).1.activeId = none
      ∧ presenceOf (stopCamera s).1 = Presence.empty
      ∧ (stopCamera s).1.streamRef = none
      ∧ (∀ tracks, s.streamRef = some tracks
          → ∀ i, i < tracks → Call.stopTrack i ∈ (stopCamera s).2)
      ∧ scanLoop e (stopCamera s).1
        = { state := (stopCamera s).1, calls := [], outcome := Outcome.returned }
      ∧ scanLoopStart e (stopCamera s).1
        = { state := (stopCamera s).1, calls := [], outcome := Outcome.returned } := by
  refine ⟨rfl, ?_, ?_, rfl, rfl, rfl, rfl, ?_, scanLoop_of_not_scanning e _ rfl, ?_⟩
  · rw [startup_activeId]; rfl
  · rw [startup_activeId]; rfl
  · intro tracks htracks i hi
    simp only [stopCamera, htracks, List.mem_append, List.mem_map, List.mem_range]
    exact Or.inr ⟨i, hi, rfl⟩
  · simp [scanLoopStart, stopCamera]

/-- C19, as the claim states it, fails: on a running native session a tick at
100 with a ready frame is suspended at `await detector.detect(video)` having
called `detect` only; `requestAnimationFrame` has not been called and `rafId` is
unchanged, so while the decode is stuck no next tick is scheduled. -/
theorem stuck_decode_counterexample :
    scanLoopStart (Tick.quiet 100) (State.running true "ID-1")
        = { state := { State.running true "ID-1" with lastScanAt := 100 },
            calls := [Call.detect], outcome := Outcome.awaitingDetect }
      ∧ Call.requestAnimationFrame
        ∉ (scanLoopStart (Tick.quiet 100) (State.running true "ID-1")).calls
      ∧ (scanLoopStart (Tick.quiet 100) (State.running true "ID-1")).state.rafId
        = (State.running true "ID-1").rafId := by
  decide

/-- The first part of `scanLoop` either runs to the end of the function or is
suspended right after calling `detect`. -/
theorem scanLoopStart_cases (e : Tick) (s : State) :
    ((scanLoopStart e s).outcome = Outcome.awaitingDetect
        ∧ s.scanning = true ∧ s.useBarcodeDetector = true
        ∧ (scanLoopStart e s).state = { s with lastScanAt := e.nowScan }
        ∧ (scanLoopStart e s).calls = [Call.detect])
      ∨ ((scanLoopStart e s).outcome = Outcome.returned
        ∧ Call.detect ∉ (scanLoopStart e s).calls
        ∧ (s.scanning = true → Call.requestAnimationFrame ∈ (scanLoopStart e s).calls)
        ∧ (s.scanning = false → (scanLoopStart e s).calls = [])) := by
  have hreg : ∀ now text (q : State), Call.detect ∉ (registerDetection now text q).2 := by
    intro now text q hmem
    exact absurd (registerDetection_no_decoder now text q _ hmem) (by decide)
  by_cases h1 : s.scanning = true <;>
  by_cases h2 : e.nowScan - s.lastScanAt ≥ SCAN_MIN_INTERVAL <;>
  by_cases h3 : e.readyState ≥ HAVE_ENOUGH_DATA <;>
  by_cases h4 : s.useBarcodeDetector = true <;>
  by_cases h8 : s.windowJsQR = true <;>
  rcases h5 : s.detector with _ | d <;>
  rcases h6 : e.drawFrame with _ | _ <;>
  rcases h7 : e.jsQR with _ | _ <;>
  simp [scanLoopStart, scanLoopTail, softwareDecode, h1, h2, h3, h4, h5, h6, h7, h8, hreg]

/-- C19, amended: re-scheduling waits for the decode.  A call of `scanLoop`
that is suspended at `await detector.detect(video)` has called `detect` and
nothing else: it has not called `requestAnimationFrame` and has left `rafId`
alone, so no later tick is scheduled and no second decode is started while the
decode is pending.  Only the continuation after the decode has settled, resolved
or rejected, calls `requestAnimationFrame`, as its last call and after
`registerDetection`.  With jsQR a call is never suspended. -/
theorem stuck_decode_stalls_loop (s : State) (e : Tick) :
    ((scanLoopStart e s).outcome = Outcome.awaitingDetect
        → (scanLoopStart e s).calls = [Call.detect]
          ∧ Call.requestAnimationFrame ∉ (scanLoopStart e s).calls
          ∧ (scanLoopStart e s).state = { s with lastScanAt := e.nowScan }
          ∧ (scanLoopStart e s).state.rafId = s.rafId)
      ∧ ((scanLoopStart e s).outcome = Outcome.awaitingDetect
        ∨ (scanLoopStart e s).outcome = Outcome.returned)
      ∧ (Call.requestAnimationFrame ∈ (scanLoopStart e s).calls
        ↔ (s.scanning = true ∧ (scanLoopStart e s).outcome = Outcome.returned))
      ∧ (s.useBarcodeDetector = false → (scanLoopStart e s).outcome = Outcome.returned)
      ∧ (∃ presenter, (scanLoopResume e (scanLoopStart e s).state).calls
          = Call.registerDetection (detectedNative e) :: presenter
            ++ [Call.requestAnimationFrame])
      ∧ (scanLoopResume e (scanLoopStart e s).state).outcome = Outcome.returned := by
  have hcases := scanLoopStart_cases e s
  refine ⟨?_, ?_, ?_, ?_, ⟨_, rfl⟩, rfl⟩
  · intro hwait
    rcases hcases with ⟨_, _, _, hst, hcalls⟩ | ⟨hret, _⟩
    · refine ⟨hcalls, ?_, hst, ?_⟩
      · rw [hcalls]; simp
      · rw [hst]
    · rw [hret] at hwait; exact absurd hwait (by decide)
  · rcases hcases with ⟨h, _⟩ | ⟨h, _⟩
    · exact Or.inl h
    · exact Or.inr h
  · rcases hcases with ⟨hwait, hrun, _, _, hcalls⟩ | ⟨hret, _, hyes, hno⟩
    · rw [hcalls, hwait]; simp
    · constructor
      · intro hmem
        refine ⟨?_, hret⟩
        cases hsc : s.scanning with
        | true => rfl
        | false => rw [hno hsc] at hmem; exact absurd hmem (List.not_mem_nil _)
      · intro h; exact hyes h.1
  · intro hsoft
    rcases hcases with ⟨_, _, hnative, _⟩ | ⟨hret, _⟩
    · rw [hsoft] at hnative; exact absurd hnative (by decide)
    · exact hret

/-- Witness of C19 amended: the suspended tick of the counterexample. -/
theorem stuck_decode_stalls_loop_witness :
    (scanLoopStart (Tick.quiet 100) (State.running true "ID-1")).calls = [Call.detect]
      ∧ Call.requestAnimationFrame
        ∉ (scanLoopStart (Tick.quiet 100) (State.running true "ID-1")).calls :=
  have h := (stuck_decode_stalls_loop (State.running true "ID-1") (Tick.quiet 100)).1
    (by decide)
  ⟨h.1, h.2.1⟩

/-- A whole call of `scanLoop` leaves `useBarcodeDetector` and `detector`
alone, and the decoder it invokes is the one `useBarcodeDetector` names. -/
theorem scanLoop_decoder_frame (e : Tick) (s : State) :
    (scanLoop e s).state.useBarcodeDetector = s.useBarcodeDetector
      ∧ (scanLoop e s).state.detector = s.detector
      ∧ (Call.detect ∈ (scanLoop e s).calls → s.useBarcodeDetector = true)
      ∧ (∀ w h, Call.jsQR w h ∈ (scanLoop e s).calls → s.useBarcodeDetector = false) := by
  have hreg1 : ∀ now text (q : State),
      (registerDetection now text q).1.useBarcodeDetector = q.useBarcodeDetector := by
    intro now text q; rw [registerDetection_frame]
  have hreg2 : ∀ now text (q : State),
      (registerDetection now text q).1.detector = q.detector := by
    intro now text q; rw [registerDetection_frame]
  have hreg3 : ∀ now text (q : State), Call.detect ∉ (registerDetection now text q).2 := by
    intro now text q hmem
    exact absurd (registerDetection_no_decoder now text q _ hmem) (by decide)
  have hreg4 : ∀ now text (q : State) w h, Call.jsQR w h ∉ (registerDetection now text q).2 := by
    intro now text q w h hmem
    exact absurd (registerDetection_no_decoder now text q _ hmem) (by simp [Call.isDecoder])
  by_cases h1 : s.scanning = true <;>
  by_cases h2 : e.nowScan - s.lastScanAt ≥ SCAN_MIN_INTERVAL <;>
  by_cases h3 : e.readyState ≥ HAVE_ENOUGH_DATA <;>
  by_cases h4 : s.useBarcodeDetector = true <;>
  by_cases h8 : s.windowJsQR = true <;>
  rcases h5 : s.detector with _ | d <;>
  rcases h6 : e.drawFrame with _ | _ <;>
  rcases h7 : e.jsQR with _ | _ <;>
  simp [scanLoop, scanLoopStart, scanLoopResume, scanLoopTail, softwareDecode,
    h1, h2, h3, h4, h5, h6, h7, h8, hreg1, hreg2, hreg3, hreg4]

/-- Consecutive calls of `scanLoop` leave `useBarcodeDetector` and `detector`
alone. -/
theorem runTicks_decoder_frame (ticks : List Tick) (s : State) :
    (runTicks ticks s).useBarcodeDetector = s.useBarcodeDetector
      ∧ (runTicks ticks s).detector = s.detector := by
  induction ticks generalizing s with
  | nil => exact ⟨rfl, rfl⟩
  | cons e rest ih =>
    have h := scanLoop_decoder_frame e s
    have h2 := ih (scanLoop e s).state
    exact ⟨h2.1.trans h.1, h2.2.trans h.2.1⟩

/-- The first part of `scanLoop` builds no detector and does not call
`ensureJsQR`, and leaves `useBarcodeDetector` and `detector` alone. -/
theorem scanLoopStart_decoder_frame (e : Tick) (s : State) :
    (scanLoopStart e s).state.useBarcodeDetector = s.useBarcodeDetector
      ∧ (scanLoopStart e s).state.detector = s.detector
      ∧ Call.newBarcodeDetector ["qr_code"] ∉ (scanLoopStart e s).calls
      ∧ Call.ensureJsQR ∉ (scanLoopStart e s).calls := by
  have hreg1 : ∀ now text (q : State),
      (registerDetection now text q).1.useBarcodeDetector = q.useBarcodeDetector := by
    intro now text q; rw [registerDetection_frame]
  have hreg2 : ∀ now text (q : State),
      (registerDetection now text q).1.detector = q.detector := by
    intro now text q; rw [registerDetection_frame]
  have hreg3 : ∀ now text (q : State),
      Call.newBarcodeDetector ["qr_code"] ∉ (registerDetection now text q).2 := by
    intro now text q
    unfold registerDetection
    split_ifs <;> simp
  have hreg4 : ∀ now text (q : State), Call.ensureJsQR ∉ (registerDetection now text q).2 := by
    intro now text q
    unfold registerDetection
    split_ifs <;> simp
  by_cases h1 : s.scanning = true <;>
  by_cases h2 : e.nowScan - s.lastScanAt ≥ SCAN_MIN_INTERVAL <;>
  by_cases h3 : e.readyState ≥ HAVE_ENOUGH_DATA <;>
  by_cases h4 : s.useBarcodeDetector = true <;>
  by_cases h8 : s.windowJsQR = true <;>
  rcases h5 : s.detector with _ | d <;>
  rcases h6 : e.drawFrame with _ | _ <;>
  rcases h7 : e.jsQR with _ | _ <;>
  simp [scanLoopStart, scanLoopTail, softwareDecode,
    h1, h2, h3, h4, h5, h6, h7, h8, hreg1, hreg2, hreg3, hreg4]

/-- What `setupDetector` calls: it builds the detector or calls `ensureJsQR`,
one of the two and once. -/
theorem setupDetector_selects_once (p : Platform) (s : State) :
    (setupDetector p s).calls.count (Call.newBarcodeDetector ["qr_code"])
      + (setupDetector p s).calls.count Call.ensureJsQR = 1 := by
  by_cases hn : p.hasBarcodeDetector = true ∧ probeFormats p.getSupportedFormats = true
  · rw [setupDetector_of_native p s hn.1 hn.2]
    simp [List.count_cons]
  · rw [setupDetector_of_software p s hn]
    have hspec := (ensureJsQR_spec p { s with useBarcodeDetector := false }).2.2.1
    have h1 : (ensureJsQR p { s with useBarcodeDetector := false }).calls.count
        (Call.newBarcodeDetector ["qr_code"]) = 0 := by
      apply List.count_eq_zero.mpr
      intro hmem
      obtain ⟨src, hsrc⟩ := hspec _ hmem
      exact absurd hsrc (by simp)
    have h2 : (ensureJsQR p { s with useBarcodeDetector := false }).calls.count
        Call.ensureJsQR = 0 := by
      apply List.count_eq_zero.mpr
      intro hmem
      obtain ⟨src, hsrc⟩ := hspec _ hmem
      exact absurd hsrc (by simp)
    by_cases hbd : p.hasBarcodeDetector = true <;>
      simp [hbd, List.count_cons, List.count_append, h1, h2]

/-- C17: `useBarcodeDetector` and `detector` are left alone by
`registerDetection`, by both parts of `scanLoop` and by a whole call of it
whatever the decoder does, by `stopCamera` and by `startCamera`, hence by every
run of ticks; in a run of ticks every decoder call is `detect` when
`useBarcodeDetector` was true at its start and `window.jsQR` when it was false.
`setupDetector`, which writes them, leaves `scanning` alone, and when
`startScanner`, entered with `scanning` false, sets `scanning`, the two variables
hold what its one call of `setupDetector` gave them, and the detector was built,
or `ensureJsQR` called, at most once. -/
theorem decoder_choice_immutable (s : State) (p : Platform) (e : Tick) (now : Int)
    (text : Option String) (ticks : List Tick) :
    ((registerDetection now text s).1.useBarcodeDetector = s.useBarcodeDetector
        ∧ (registerDetection now text s).1.detector = s.detector)
      ∧ ((scanLoopStart e s).state.useBarcodeDetector = s.useBarcodeDetector
        ∧ (scanLoopStart e s).state.detector = s.detector)
      ∧ ((scanLoopResume e s).state.useBarcodeDetector = s.useBarcodeDetector
        ∧ (scanLoopResume e s).state.detector = s.detector)
      ∧ ((scanLoop e s).state.useBarcodeDetector = s.useBarcodeDetector
        ∧ (scanLoop e s).state.detector = s.detector)
      ∧ ((stopCamera s).1.useBarcodeDetector = s.useBarcodeDetector
        ∧ (stopCamera s).1.detector = s.detector)
      ∧ ((startCamera p s).state.useBarcodeDetector = s.useBarcodeDetector
        ∧ (startCamera p s).state.detector = s.detector)
      ∧ ((runTicks ticks s).useBarcodeDetector = s.useBarcodeDetector
        ∧ (runTicks ticks s).detector = s.detector)
      ∧ ((Call.detect ∈ (scanLoop e (runTicks ticks s)).calls → s.useBarcodeDetector = true)
        ∧ (∀ w h, Call.jsQR w h ∈ (scanLoop e (runTicks ticks s)).calls
            → s.useBarcodeDetector = false))
      ∧ (setupDetector p s).state.scanning = s.scanning
      ∧ (s.scanning = false → (startScanner p e s).state.scanning = true
        → (startScanner p e s).state.useBarcodeDetector
            = (setupDetector p (startCamera p s).state).state.useBarcodeDetector
          ∧ (startScanner p e s).state.detector
            = (setupDetector p (startCamera p s).state).state.detector
          ∧ (startScanner p e s).calls.count (Call.newBarcodeDetector ["qr_code"])
              + (startScanner p e s).calls.count Call.ensureJsQR = 1) := by
  have hloop := scanLoop_decoder_frame e s
  have hstart := scanLoopStart_decoder_frame e s
  have hrun := runTicks_decoder_frame ticks s
  have hlater := scanLoop_decoder_frame e (runTicks ticks s)
  refine ⟨?_, ⟨hstart.1, hstart.2.1⟩, ?_, ⟨hloop.1, hloop.2.1⟩, ⟨rfl, rfl⟩, ?_, hrun, ?_,
    (setupDetector_frame p s).1, ?_⟩
  · constructor <;> rw [registerDetection_frame]
  · constructor <;>
      · simp only [scanLoopResume, scanLoopTail]
        rw [registerDetection_frame]
  · rcases hg : p.getUserMedia with _ | tracks
    · simp [startCamera, hg]
    · rcases hp : p.play with _ | _ <;> simp [startCamera, hg, hp]
  · refine ⟨fun h => ?_, fun w h hmem => ?_⟩
    · rw [← hrun.1]; exact hlater.2.2.1 h
    · rw [← hrun.1]; exact hlater.2.2.2 w h hmem
  · intro hs hstarted
    obtain ⟨_, hstate, hcalls⟩ := startScanner_started p e s hs (Or.inl hstarted)
    have hfirst := scanLoopStart_decoder_frame e
      { (setupDetector p (startCamera p s).state).state with scanning := true }
    have hc1 : ∀ c : Call, c ∈ (startCamera p s).calls → c = Call.getUserMedia ∨ c = Call.play :=
      (startCamera_frame p s).2.1
    have hcam1 : (startCamera p s).calls.count (Call.newBarcodeDetector ["qr_code"]) = 0 := by
      apply List.count_eq_zero.mpr
      intro hmem
      rcases hc1 _ hmem with h | h <;> exact absurd h (by simp)
    have hcam2 : (startCamera p s).calls.count Call.ensureJsQR = 0 := by
      apply List.count_eq_zero.mpr
      intro hmem
      rcases hc1 _ hmem with h | h <;> exact absurd h (by simp)
    have hf1 := List.count_eq_zero.mpr hfirst.2.2.1
    have hf2 := List.count_eq_zero.mpr hfirst.2.2.2
    have honce := setupDetector_selects_once p (startCamera p s).state
    refine ⟨?_, ?_, ?_⟩
    · rw [hstate, hfirst.1]
    · rw [hstate, hfirst.2.1]
    · rw [hcalls]
      simp only [List.count_append, List.count_cons, List.count_nil, hcam1, hcam2, hf1, hf2]
      simp
      omega

/-- C14, as the claim states it, fails: for a first candidate whose `rawValue`
is empty and whose `displayValue` is "ID-9", the decoded text is "ID-9", not
the `rawValue`; the tick passes "ID-9" to `registerDetection`. -/
theorem native_result_counterexample :
    detectedFromCodes (some [{ rawValue := "", displayValue := some "ID-9" }]) = some "ID-9"
      ∧ Call.registerDetection (some "ID-9")
        ∈ (scanLoop
            { Tick.quiet 100 with
              detect := Except.ok (some [{ rawValue := "", displayValue := some "ID-9" }]) }
            (State.running true "ID-1")).calls
      ∧ (scanLoop
          { Tick.quiet 100 with
            detect := Except.ok (some [{ rawValue := "", displayValue := some "ID-9" }]) }
          (State.running true "ID-1")).state.activeId = some "ID-9" := by
  decide

/-- C14, amended: on a running tick of the native branch that reaches the
decoder, for every value `codes` that `detector.detect` resolves to, the text
passed to `registerDetection` is: the `rawValue` of the first candidate when the
list has one and that `rawValue` is not empty; the `displayValue` of the first
candidate (null if it has none) when its `rawValue` is empty; null when the
list is empty or absent.  Later candidates play no part. -/
theorem native_result (s : State) (e : Tick) (codes : Option (List Barcode))
    (formats : List String)
    (hrun : s.scanning = true) (hnative : s.useBarcodeDetector = true)
    (hdet : s.detector = some formats)
    (hrate : e.nowScan - s.lastScanAt ≥ SCAN_MIN_INTERVAL)
    (hready : e.readyState ≥ HAVE_ENOUGH_DATA) (hdetect : e.detect = Except.ok codes) :
    (scanLoop e s).state
        = (scanLoopTail e (detectedFromCodes codes) { s with lastScanAt := e.nowScan }).state
      ∧ (scanLoop e s).calls
        = Call.detect
          :: (scanLoopTail e (detectedFromCodes codes) { s with lastScanAt := e.nowScan }).calls
      ∧ Call.registerDetection (detectedFromCodes codes) ∈ (scanLoop e s).calls
      ∧ (∀ c rest, codes = some (c :: rest) → c.rawValue ≠ ""
          → detectedFromCodes codes = some c.rawValue)
      ∧ (∀ c rest, codes = some (c :: rest) → c.rawValue = ""
          → detectedFromCodes codes = c.displayValue)
      ∧ (codes = some [] → detectedFromCodes codes = none)
      ∧ (codes = none → detectedFromCodes codes = none) := by
  have heq : scanLoop e s
      = { scanLoopTail e (detectedFromCodes codes) { s with lastScanAt := e.nowScan } with
          calls := Call.detect
            :: (scanLoopTail e (detectedFromCodes codes)
                { s with lastScanAt := e.nowScan }).calls } := by
    simp [scanLoop, scanLoopStart, scanLoopResume, hrun, hnative, hdet, hrate, hready,
      hdetect, Except.map, catchDecode]
  refine ⟨by rw [heq], by rw [heq], ?_, ?_, ?_, ?_, ?_⟩
  · rw [heq]; simp [scanLoopTail]
  · intro c rest hc hraw
    subst hc
    simp [detectedFromCodes, jsOr, truthy, hraw]
  · intro c rest hc hraw
    subst hc
    simp [detectedFromCodes, jsOr, truthy, hraw]
  · intro hc; subst hc; rfl
  · intro hc; subst hc; rfl

/-- Witness of C14 amended: two candidates, "ID-2" first. -/
theorem native_result_witness :
    Call.registerDetection (some "ID-2")
      ∈ (scanLoop
          { Tick.quiet 100 with
            detect := Except.ok (some [{ rawValue := "ID-2", displayValue := none },
              { rawValue := "ID-4", displayValue := none }]) }
          (State.running true "ID-1")).calls :=
  (native_result (State.running true "ID-1")
    { Tick.quiet 100 with
      detect := Except.ok (some [{ rawValue := "ID-2", displayValue := none },
        { rawValue := "ID-4", displayValue := none }]) }
    (some [{ rawValue := "ID-2", displayValue := none },
      { rawValue := "ID-4", displayValue := none }])
    ["qr_code"] rfl rfl rfl (by decide) (by decide) rfl).2.2.1

/-! ### Rounding to the nearest Number -/

/-- The nearest integer is at most one half away. -/
theorem roundHalfEven_near (x : ℚ) :
    (roundHalfEven x : ℚ) - 1 / 2 ≤ x ∧ x ≤ (roundHalfEven x : ℚ) + 1 / 2 := by
  have h1 : (Int.floor x : ℚ) ≤ x := Int.floor_le x
  have h2 : x < (Int.floor x : ℚ) + 1 := Int.lt_floor_add_one x
  unfold roundHalfEven
  split_ifs with ha hb hc
  · constructor <;> linarith
  · push_cast; constructor <;> linarith
  · constructor <;> linarith
  · push_cast; constructor <;> linarith

/-- An integer less than one half away is the nearest integer. -/
theorem roundHalfEven_eq_of_near (x : ℚ) (m : ℤ) (h : |x - m| < 1 / 2) :
    roundHalfEven x = m := by
  have hn := roundHalfEven_near x
  rw [abs_lt] at h
  have h1 : ((roundHalfEven x - m : ℤ) : ℚ) < 1 := by push_cast; linarith [hn.1, h.2]
  have h2 : (-1 : ℚ) < ((roundHalfEven x - m : ℤ) : ℚ) := by push_cast; linarith [hn.2, h.1]
  have h3 : roundHalfEven x - m < 1 := by exact_mod_cast h1
  have h4 : -1 < roundHalfEven x - m := by exact_mod_cast h2
  omega

/-- An integer is its own nearest integer. -/
theorem roundHalfEven_intCast (m : ℤ) : roundHalfEven (m : ℚ) = m :=
  roundHalfEven_eq_of_near _ m (by simp)

/-- Rounding to the nearest integer keeps the order. -/
theorem roundHalfEven_mono {x y : ℚ} (h : x ≤ y) : roundHalfEven x ≤ roundHalfEven y := by
  by_contra hlt
  push_neg at hlt
  have hx := roundHalfEven_near x
  have hy := roundHalfEven_near y
  have h1 : (roundHalfEven y : ℚ) + 1 ≤ roundHalfEven x := by exact_mod_cast hlt
  have hxy : x = y := le_antisymm h (by linarith [hx.1, hy.2])
  rw [hxy] at hlt
  exact lt_irrefl _ hlt

/-- The spacing of the Numbers of a binade is positive. -/
theorem ulp_pos (q : ℚ) : (0 : ℚ) < 2 ^ (binade q - 52) := zpow_pos (by norm_num) _

/-- The rounding error is at most half a unit in the last place. -/
theorem toDouble_near (q : ℚ) : |toDouble q - q| ≤ 2 ^ (binade q - 52) / 2 := by
  have hu := ulp_pos q
  have hn := roundHalfEven_near (q / 2 ^ (binade q - 52))
  have hq : q = q / 2 ^ (binade q - 52) * 2 ^ (binade q - 52) := by field_simp
  unfold toDouble
  rw [abs_le]
  constructor
  · have : ((roundHalfEven (q / 2 ^ (binade q - 52)) : ℚ) + 1 / 2) * 2 ^ (binade q - 52)
        ≥ q / 2 ^ (binade q - 52) * 2 ^ (binade q - 52) :=
      mul_le_mul_of_nonneg_right hn.2 hu.le
    rw [← hq] at this
    linarith
  · have : ((roundHalfEven (q / 2 ^ (binade q - 52)) : ℚ) - 1 / 2) * 2 ^ (binade q - 52)
        ≤ q / 2 ^ (binade q - 52) * 2 ^ (binade q - 52) :=
      mul_le_mul_of_nonneg_right hn.1 hu.le
    rw [← hq] at this
    linarith

/-- The binade of a positive number between `2 ^ e` and `2 ^ (e + 1)` is `e`. -/
theorem binade_eq {q : ℚ} {e : ℤ} (hq : 0 < q) (he : -1022 ≤ e) (hlo : 2 ^ e ≤ q)
    (hhi : q < 2 ^ (e + 1)) : binade q = e := by
  have h1 : e ≤ Int.log 2 q := (Int.zpow_le_iff_le_log (by norm_num) hq).mp (by exact_mod_cast hlo)
  have h2 : Int.log 2 q < e + 1 := (Int.lt_zpow_iff_log_lt (by norm_num) hq).mp (by exact_mod_cast hhi)
  unfold binade
  rw [abs_of_pos hq]
  omega

/-- Evaluation of `toDouble` at a positive number. -/
theorem toDouble_eq {q : ℚ} (e m : ℤ) (hq : 0 < q) (he : -1022 ≤ e) (hlo : 2 ^ e ≤ q)
    (hhi : q < 2 ^ (e + 1)) (hm : |q / 2 ^ (e - 52) - m| < 1 / 2) :
    toDouble q = m * 2 ^ (e - 52) := by
  unfold toDouble
  rw [binade_eq hq he hlo hhi, roundHalfEven_eq_of_near _ m hm]

/-- Zero is a Number. -/
theorem toDouble_zero : toDouble 0 = 0 := by
  simp [toDouble, roundHalfEven]

/-- A non-negative number rounds to a non-negative Number. -/
theorem toDouble_nonneg {q : ℚ} (h : 0 ≤ q) : 0 ≤ toDouble q := by
  unfold toDouble
  apply mul_nonneg _ (ulp_pos q).le
  have : roundHalfEven 0 ≤ roundHalfEven (q / 2 ^ (binade q - 52)) :=
    roundHalfEven_mono (div_nonneg h (ulp_pos q).le)
  have h0 : roundHalfEven 0 = 0 := by simpa using roundHalfEven_intCast 0
  rw [h0] at this
  exact_mod_cast this

/-- A non-positive number rounds to a non-positive Number. -/
theorem toDouble_nonpos {q : ℚ} (h : q ≤ 0) : toDouble q ≤ 0 := by
  unfold toDouble
  apply mul_nonpos_of_nonpos_of_nonneg _ (ulp_pos q).le
  have : roundHalfEven (q / 2 ^ (binade q - 52)) ≤ roundHalfEven 0 :=
    roundHalfEven_mono (div_nonpos_of_nonpos_of_nonneg h (ulp_pos q).le)
  have h0 : roundHalfEven 0 = 0 := by simpa using roundHalfEven_intCast 0
  rw [h0] at this
  exact_mod_cast this

/-- Powers of two: `2 ^ k * 2 ^ (x - k) = 2 ^ x`. -/
theorem pow_mul_zpow_sub (k : ℕ) (x : ℤ) : ((2 ^ k : ℤ) : ℚ) * 2 ^ (x - k) = 2 ^ x := by
  rw [Int.cast_pow, Int.cast_ofNat, ← zpow_natCast, ← zpow_add₀ (by norm_num : (2 : ℚ) ≠ 0)]
  congr 1
  ring

/-- The spacing times `2 ^ 53` is the top of the binade. -/
theorem top_mul_ulp (x : ℤ) : ((2 ^ 53 : ℤ) : ℚ) * 2 ^ (x - 52) = 2 ^ (x + 1) := by
  have h := pow_mul_zpow_sub 53 (x + 1)
  have e1 : x + 1 - ((53 : ℕ) : ℤ) = x - 52 := by push_cast; ring
  rw [e1] at h
  exact h

/-- The spacing times `2 ^ 52` is the bottom of the binade. -/
theorem bottom_mul_ulp (x : ℤ) : ((2 ^ 52 : ℤ) : ℚ) * 2 ^ (x - 52) = 2 ^ x := by
  have h := pow_mul_zpow_sub 52 x
  have e1 : x - ((52 : ℕ) : ℤ) = x - 52 := by push_cast; ring
  rw [e1] at h
  exact h

/-- The binade grows with a positive number. -/
theorem binade_mono {a b : ℚ} (ha : 0 < a) (h : a ≤ b) : binade a ≤ binade b := by
  unfold binade
  rw [abs_of_pos ha, abs_of_pos (lt_of_lt_of_le ha h)]
  exact max_le_max (Int.log_mono_right ha h) le_rfl

/-- A positive number rounds to at most the top of its binade. -/
theorem toDouble_le_top {a : ℚ} (ha : 0 < a) : toDouble a ≤ 2 ^ (binade a + 1) := by
  have hu := ulp_pos a
  have hlt : a < 2 ^ (binade a + 1) := by
    have h1 : a < (2 : ℚ) ^ (Int.log 2 a + 1) := by
      exact_mod_cast Int.lt_zpow_succ_log_self (by norm_num : 1 < 2) a
    have h2 : (2 : ℚ) ^ (Int.log 2 a + 1) ≤ 2 ^ (binade a + 1) := by
      apply zpow_le_zpow_right₀ (by norm_num)
      unfold binade
      rw [abs_of_pos ha]
      have := le_max_left (Int.log 2 a) (-1022)
      omega
    exact lt_of_lt_of_le h1 h2
  have hy : a / 2 ^ (binade a - 52) ≤ ((2 ^ 53 : ℤ) : ℚ) := by
    rw [div_le_iff₀ hu]
    rw [top_mul_ulp]
    exact hlt.le
  have hr := roundHalfEven_mono hy
  rw [roundHalfEven_intCast] at hr
  have hr2 : (roundHalfEven (a / 2 ^ (binade a - 52)) : ℚ) ≤ ((2 ^ 53 : ℤ) : ℚ) := by
    exact_mod_cast hr
  unfold toDouble
  calc (roundHalfEven (a / 2 ^ (binade a - 52)) : ℚ) * 2 ^ (binade a - 52)
      ≤ ((2 ^ 53 : ℤ) : ℚ) * 2 ^ (binade a - 52) := mul_le_mul_of_nonneg_right hr2 hu.le
    _ = 2 ^ (binade a + 1) := top_mul_ulp _

/-- A number at least the bottom of its binade rounds to at least that. -/
theorem bottom_le_toDouble {b : ℚ} (hb : 0 < b) (hlog : binade b = Int.log 2 b) :
    2 ^ binade b ≤ toDouble b := by
  have hu := ulp_pos b
  have hge : (2 : ℚ) ^ binade b ≤ b := by
    rw [hlog]
    exact_mod_cast Int.zpow_log_le_self (by norm_num : 1 < 2) hb
  have hpow : ((2 ^ 52 : ℤ) : ℚ) * 2 ^ (binade b - 52) = 2 ^ binade b := bottom_mul_ulp _
  have hy : ((2 ^ 52 : ℤ) : ℚ) ≤ b / 2 ^ (binade b - 52) := by
    rw [le_div_iff₀ hu, hpow]
    exact hge
  have hr := roundHalfEven_mono hy
  rw [roundHalfEven_intCast] at hr
  have hr2 : ((2 ^ 52 : ℤ) : ℚ) ≤ (roundHalfEven (b / 2 ^ (binade b - 52)) : ℚ) := by
    exact_mod_cast hr
  unfold toDouble
  calc (2 : ℚ) ^ binade b = ((2 ^ 52 : ℤ) : ℚ) * 2 ^ (binade b - 52) := hpow.symm
    _ ≤ (roundHalfEven (b / 2 ^ (binade b - 52)) : ℚ) * 2 ^ (binade b - 52) :=
      mul_le_mul_of_nonneg_right hr2 hu.le

/-- Rounding to the nearest Number keeps the order of non-negative numbers. -/
theorem toDouble_mono {a b : ℚ} (ha : 0 ≤ a) (h : a ≤ b) : toDouble a ≤ toDouble b := by
  rcases ha.eq_or_lt with h0 | hpos
  · rw [← h0, toDouble_zero]
    exact toDouble_nonneg (h0 ▸ h)
  · have hb : 0 < b := lt_of_lt_of_le hpos h
    rcases (binade_mono hpos h).eq_or_lt with heq | hlt
    · unfold toDouble
      rw [heq]
      apply mul_le_mul_of_nonneg_right _ (ulp_pos b).le
      have := roundHalfEven_mono (div_le_div_of_nonneg_right h (ulp_pos b).le)
      exact_mod_cast this
    · have hlog : binade b = Int.log 2 b := by
        have h1 : -1022 ≤ binade a := le_max_right _ _
        unfold binade at hlt ⊢
        rw [abs_of_pos hb] at hlt ⊢
        rcases max_cases (Int.log 2 b) (-1022) with ⟨h2, _⟩ | ⟨h2, _⟩
        · exact h2
        · rw [h2] at hlt
          have h3 : -1022 ≤ max (Int.log 2 |a|) (-1022) := le_max_right _ _
          omega
      calc toDouble a ≤ 2 ^ (binade a + 1) := toDouble_le_top hpos
        _ ≤ 2 ^ binade b := zpow_le_zpow_right₀ (by norm_num) (by omega)
        _ ≤ toDouble b := bottom_le_toDouble hb hlog

/-- A positive integer below 2^53 is a Number. -/
theorem toDouble_natCast (n : ℕ) (h : n < 2 ^ 53) : toDouble (n : ℚ) = n := by
  rcases Nat.eq_zero_or_pos n with h0 | hpos
  · rw [h0]; simpa using toDouble_zero
  · have hq : (0 : ℚ) < n := by exact_mod_cast hpos
    have hlog : Int.log 2 (n : ℚ) = Nat.log 2 n := Int.log_natCast 2 n
    have hle : Nat.log 2 n < 53 := Nat.log_lt_of_lt_pow (by omega) h
    have hb : binade (n : ℚ) = Nat.log 2 n := by
      unfold binade
      rw [abs_of_pos hq, hlog]
      omega
    obtain ⟨k, hk⟩ : ∃ k : ℕ, Nat.log 2 n + k = 52 := ⟨52 - Nat.log 2 n, by omega⟩
    have hexp : binade (n : ℚ) - 52 = -(k : ℤ) := by rw [hb]; omega
    unfold toDouble
    rw [hexp, zpow_neg, zpow_natCast, div_inv_eq_mul]
    have : (n : ℚ) * 2 ^ k = ((n * 2 ^ k : ℕ) : ℤ) := by push_cast; ring
    rw [this, roundHalfEven_intCast]
    push_cast
    field_simp

/-- The binade of a positive number below `2 ^ (e + 1)` is at most `e`. -/
theorem binade_le {q : ℚ} {e : ℤ} (hq : 0 < q) (he : -1022 ≤ e) (hhi : q < 2 ^ (e + 1)) :
    binade q ≤ e := by
  have h2 : Int.log 2 q < e + 1 :=
    (Int.lt_zpow_iff_log_lt (by norm_num) hq).mp (by exact_mod_cast hhi)
  unfold binade
  rw [abs_of_pos hq]
  exact max_le (by omega) he

/-- The rounding error of a non-negative number below `2 ^ (e + 1)`. -/
theorem toDouble_err {q : ℚ} (e : ℤ) (hq : 0 ≤ q) (he : -1022 ≤ e) (hhi : q < 2 ^ (e + 1)) :
    |toDouble q - q| ≤ 2 ^ (e - 53) := by
  rcases hq.eq_or_lt with h0 | hpos
  · rw [← h0, toDouble_zero]
    simp
    positivity
  · have hb := binade_le hpos he hhi
    have h1 := toDouble_near q
    have h2 : (2 : ℚ) ^ (binade q - 52) / 2 = 2 ^ (binade q - 53) := by
      have : binade q - 53 = binade q - 52 - 1 := by ring
      rw [this, zpow_sub_one₀ (by norm_num : (2 : ℚ) ≠ 0)]
      ring
    rw [h2] at h1
    exact le_trans h1 (zpow_le_zpow_right₀ (by norm_num) (by omega))

/-- An even integer at most one half away is the nearest integer, ties to even. -/
theorem roundHalfEven_eq_of_even (x : ℚ) (m : ℤ) (h : |x - m| ≤ 1 / 2) (hm : m % 2 = 0) :
    roundHalfEven x = m := by
  rcases h.eq_or_lt with heq | hlt
  · rcases abs_eq (by norm_num : (0 : ℚ) ≤ 1 / 2) |>.mp heq with hp | hn
    · have hf : Int.floor x = m := Int.floor_eq_iff.mpr ⟨by linarith, by linarith⟩
      unfold roundHalfEven
      rw [hf]
      have e1 : x - (m : ℚ) = 1 / 2 := hp
      rw [e1]
      simp [hm]
    · have hf : Int.floor x = m - 1 :=
        Int.floor_eq_iff.mpr ⟨by push_cast; linarith, by push_cast; linarith⟩
      unfold roundHalfEven
      rw [hf]
      have e1 : x - ((m - 1 : ℤ) : ℚ) = 1 / 2 := by push_cast; linarith
      rw [e1]
      have hodd : (m - 1) % 2 ≠ 0 := by omega
      simp [hodd]
  · exact roundHalfEven_eq_of_near x m hlt

/-- Evaluation of `toDouble` at a positive number halfway between two Numbers. -/
theorem toDouble_eq_even {q : ℚ} (e m : ℤ) (hq : 0 < q) (he : -1022 ≤ e) (hlo : 2 ^ e ≤ q)
    (hhi : q < 2 ^ (e + 1)) (hm : |q / 2 ^ (e - 52) - m| ≤ 1 / 2) (heven : m % 2 = 0) :
    toDouble q = m * 2 ^ (e - 52) := by
  unfold toDouble
  rw [binade_eq hq he hlo hhi, roundHalfEven_eq_of_even _ m hm heven]

/-- The floor of a number between `n` and `n + 1`. -/
theorem natFloor_eq (x : ℚ) (n : ℕ) (h1 : (n : ℚ) ≤ x) (h2 : x < n + 1) : Nat.floor x = n :=
  (Nat.floor_eq_iff (le_trans (Nat.cast_nonneg n) h1)).mpr ⟨h1, h2⟩

/-- A frame of 352 by 288: the product `352 * scale` falls below 480. -/
theorem canvasSize_cif : canvasSize 352 288 = (479, 392) := by
  have hs : toDouble ((480 : ℚ) / 352) = 6141272219141585 * 2 ^ (0 - 52 : ℤ) :=
    toDouble_eq 0 6141272219141585 (by norm_num) (by norm_num) (by norm_num) (by norm_num)
      (by rw [abs_lt]; constructor <;> norm_num)
  have hw : toDouble ((352 : ℚ) * (6141272219141585 * 2 ^ (0 - 52 : ℤ)))
      = 8444249301319679 * 2 ^ (8 - 52 : ℤ) :=
    toDouble_eq 8 8444249301319679 (by norm_num) (by norm_num) (by norm_num) (by norm_num)
      (by rw [abs_lt]; constructor <;> norm_num)
  have hh : toDouble ((288 : ℚ) * (6141272219141585 * 2 ^ (0 - 52 : ℤ)))
      = 6908931246534283 * 2 ^ (8 - 52 : ℤ) :=
    toDouble_eq 8 6908931246534283 (by norm_num) (by norm_num) (by norm_num) (by norm_num)
      (by rw [abs_lt]; constructor <;> norm_num)
  have e1 : ((JSQR_TARGET_W : ℕ) : ℚ) / ((max 1 352 : ℕ) : ℚ) = (480 : ℚ) / 352 := by
    norm_num [JSQR_TARGET_W]
  unfold canvasSize
  simp only [e1, hs, Nat.cast_ofNat, hw, hh]
  refine Prod.ext ?_ ?_
  · exact natFloor_eq _ 479 (by norm_num) (by norm_num)
  · exact natFloor_eq _ 392 (by norm_num) (by norm_num)

/-- A frame of 1280 by 720: the factor 0.375 and both products are Numbers. -/
theorem canvasSize_hd : canvasSize 1280 720 = (480, 270) := by
  have hs : toDouble ((480 : ℚ) / 1280) = 6755399441055744 * 2 ^ (-2 - 52 : ℤ) :=
    toDouble_eq (-2) 6755399441055744 (by norm_num) (by norm_num) (by norm_num) (by norm_num)
      (by rw [abs_lt]; constructor <;> norm_num)
  have hw : toDouble ((1280 : ℚ) * (6755399441055744 * 2 ^ (-2 - 52 : ℤ))) = 480 := by
    have := toDouble_natCast 480 (by norm_num)
    norm_num at this ⊢
    exact this
  have hh : toDouble ((720 : ℚ) * (6755399441055744 * 2 ^ (-2 - 52 : ℤ))) = 270 := by
    have := toDouble_natCast 270 (by norm_num)
    norm_num at this ⊢
    exact this
  have e1 : ((JSQR_TARGET_W : ℕ) : ℚ) / ((max 1 1280 : ℕ) : ℚ) = (480 : ℚ) / 1280 := by
    norm_num [JSQR_TARGET_W]
  unfold canvasSize
  simp only [e1, hs, Nat.cast_ofNat, hw, hh]
  refine Prod.ext ?_ ?_
  · exact natFloor_eq _ 480 (by norm_num) (by norm_num)
  · exact natFloor_eq _ 270 (by norm_num) (by norm_num)

/-- C15, the code at the failing input: for a frame of 352 by 288 the factor
`480 / 352` and the product `352 * scale` are each rounded to the nearest Number,
the product falls below 480 and `Math.floor` gives the width 479, where the
target width `JSQR_TARGET_W` is 480; the height is 392, which is
`floor(288 * 480 / 352)`, and `window.jsQR` is called with 479 by 392.
`script.backup.js` computes the same size.  A frame of 1280 by 720, whose factor
0.375 is a Number, gets 480 by 270, and for `vw = 0` the divisor is 1 and the
width is 0. -/
theorem canvas_width_misses_target :
    JSQR_TARGET_W = 480
      ∧ canvasSize 352 288 = (479, 392)
      ∧ Backup.canvasSize 352 288 = (479, 392)
      ∧ 288 * 480 / 352 = 392
      ∧ (softwareDecode { Tick.quiet 100 with videoWidth := 352, videoHeight := 288 }
          (State.running false "ID-1")).2.1 = [Call.jsQR 479 392]
      ∧ (softwareDecode { Tick.quiet 100 with videoWidth := 352, videoHeight := 288 }
          (State.running false "ID-1")).1.canvas = some (479, 392)
      ∧ canvasSize 1280 720 = (480, 270)
      ∧ ∀ vh : Nat, (canvasSize 0 vh).1 = 0 := by
  refine ⟨rfl, canvasSize_cif, canvasSize_cif, by norm_num, ?_, ?_, canvasSize_hd, ?_⟩
  · simp [softwareDecode, canvasSize_cif, Tick.quiet, State.running]
  · simp [softwareDecode, canvasSize_cif, Tick.quiet, State.running]
  · intro vh
    have h480 : toDouble 480 = 480 := by simpa using toDouble_natCast 480 (by norm_num)
    simp [canvasSize, JSQR_TARGET_W, h480, toDouble_zero]

/-- C16: for every non-empty `text` that is not the active id, whatever
`overlays[text]` is, `registerDetection` sets `activeId = text` and
`lastSeenAt = now` and calls `handleRecognizedText(text)` once; a further
detection of the same `text` only moves `lastSeenAt` and makes no call; a falsy
tick within `LOST_TIMEOUT_MS` of the last detection changes nothing, and one
later than that empties the state with the one call `clearOverlay`.  Only inside
the presenter does the table matter: an entry is shown by `showOverlay`, a text
without entry is reported by `updateStatus(msg, true)` and `clearOverlay`. -/
theorem resolvability_does_not_matter (s : State) (text : String) (now again lost : Int)
    (htext : text ≠ "") (hnew : s.activeId ≠ some text) :
    registerDetection now (some text) s
        = ({ s with activeId := some text, lastSeenAt := now },
            [Call.handleRecognizedText (some text)])
      ∧ registerDetection again (some text) { s with activeId := some text, lastSeenAt := now }
        = ({ s with activeId := some text, lastSeenAt := again }, [])
      ∧ (lost - now ≤ LOST_TIMEOUT_MS
        → registerDetection lost none { s with activeId := some text, lastSeenAt := now }
          = ({ s with activeId := some text, lastSeenAt := now }, []))
      ∧ (LOST_TIMEOUT_MS < lost - now
        → registerDetection lost none { s with activeId := some text, lastSeenAt := now }
          = ({ s with activeId := none, lastSeenAt := 0 }, [Call.clearOverlay]))
      ∧ (∀ mode, overlays text = OverlayLookup.entry mode
          → handleRecognizedText text = [PresenterCall.showOverlay (some mode)])
      ∧ (overlays text = OverlayLookup.absent
          → handleRecognizedText text
            = [PresenterCall.updateStatus
                  ("QR \"" ++ text ++ "\" not recognized. Expect ID-1, ID-2, ID-3, or ID-4.") true,
                PresenterCall.clearOverlay]) := by
  refine ⟨?_, ?_, ?_, ?_, ?_, ?_⟩
  · rw [registerDetection_some now s text htext, if_neg hnew]
  · rw [registerDetection_some again _ text htext]
    simp
  · intro h
    exact registerDetection_none_of_held lost _ h
  · intro h
    exact registerDetection_none_of_lost lost _ text htext rfl h
  · intro mode h
    simp [handleRecognizedText, h]
  · intro h
    simp [handleRecognizedText, h]

/-- Witness of C16: the text "HELLO", which has no entry in `overlays`, from
the initial state. -/
theorem resolvability_does_not_matter_witness :
    overlays "HELLO" = OverlayLookup.absent
      ∧ registerDetection 10 (some "HELLO") (State.init false)
        = ({ State.init false with activeId := some "HELLO", lastSeenAt := 10 },
            [Call.handleRecognizedText (some "HELLO")]) :=
  ⟨by decide,
    (resolvability_does_not_matter (State.init false) "HELLO" 10 20 7000 (by decide)
      (by decide)).1⟩

/-- An empty string passed to `registerDetection` does what null does. -/
theorem registerDetection_empty_text (now : Int) (s : State) :
    registerDetection now (some "") s = registerDetection now none s := by
  simp [registerDetection, truthy]

/-- One call of `registerDetection` or `stopCamera` never makes the empty
string the active id. -/
theorem applyOp_activeId_ne_empty (op : Op) (s : State) (h : s.activeId ≠ some "") :
    (applyOp op s).activeId ≠ some "" := by
  cases op with
  | stopCamera => simp [applyOp, stopCamera]
  | registerDetection now text =>
    simp only [applyOp, registerDetection]
    split_ifs with h1 h2 h3
    · intro h4
      simp only at h4
      rw [h4] at h1
      exact absurd h1 (by decide)
    · exact h
    · simp
    · exact h

/-- No sequence of such calls makes the empty string the active id. -/
theorem runOps_activeId_ne_empty (ops : List Op) (s : State) (h : s.activeId ≠ some "") :
    (runOps ops s).activeId ≠ some "" := by
  induction ops generalizing s with
  | nil => exact h
  | cons op rest ih => exact ih (applyOp op s) (applyOp_activeId_ne_empty op s h)

/-- C23: after every sequence of `registerDetection` and `stopCamera` calls from
the initial state, `activeId` is not the empty string, so it is truthy exactly
when it is not null, which is exactly when the presence state is Active; an
empty string passed to `registerDetection` does what null does, and after it
`activeId` is still not the empty string. -/
theorem activeId_never_empty (ops : List Op) (windowJsQR : Bool) (now : Int) :
    (runOps ops (State.init windowJsQR)).activeId ≠ some ""
      ∧ (truthy (runOps ops (State.init windowJsQR)).activeId = true
        ↔ (runOps ops (State.init windowJsQR)).activeId ≠ none)
      ∧ ((∃ id t, presenceOf (runOps ops (State.init windowJsQR)) = Presence.active id t)
        ↔ truthy (runOps ops (State.init windowJsQR)).activeId = true)
      ∧ registerDetection now (some "") (runOps ops (State.init windowJsQR))
        = registerDetection now none (runOps ops (State.init windowJsQR))
      ∧ (registerDetection now (some "") (runOps ops (State.init windowJsQR))).1.activeId
        ≠ some "" := by
  have hinit : (State.init windowJsQR).activeId ≠ some "" := by simp [State.init]
  have h := runOps_activeId_ne_empty ops (State.init windowJsQR) hinit
  refine ⟨h, ?_, ?_, registerDetection_empty_text now _, ?_⟩
  · rcases hid : (runOps ops (State.init windowJsQR)).activeId with _ | id
    · simp [truthy]
    · have hne : id ≠ "" := fun he => h (by rw [hid, he])
      simp [truthy, hne]
  · rcases hid : (runOps ops (State.init windowJsQR)).activeId with _ | id
    · simp [truthy, presenceOf, hid]
    · have hne : id ≠ "" := fun he => h (by rw [hid, he])
      simp [truthy, presenceOf, hid, hne]
  · exact applyOp_activeId_ne_empty (Op.registerDetection now (some "")) _ h

/-! ### `modelY` -/

/-- Two decimals of a larger number are not smaller. -/
theorem toFixed2_mono {x y : ℚ} (h : x ≤ y) : toFixed2 x ≤ toFixed2 y := by
  unfold toFixed2
  have : Int.floor (x * 100 + 1 / 2) ≤ Int.floor (y * 100 + 1 / 2) :=
    Int.floor_mono (by linarith)
  have h2 : (Int.floor (x * 100 + 1 / 2) : ℚ) ≤ Int.floor (y * 100 + 1 / 2) := by
    exact_mod_cast this
  linarith

/-- Evaluation of `toFixed2`: the hundredths `n` with `n <= 100 x + 1/2 < n + 1`. -/
theorem toFixed2_eq (x : ℚ) (n : ℤ) (h1 : (n : ℚ) ≤ x * 100 + 1 / 2)
    (h2 : x * 100 + 1 / 2 < n + 1) : toFixed2 x = n / 100 := by
  unfold toFixed2
  rw [Int.floor_eq_iff.mpr ⟨h1, h2⟩]

/-- Two decimals of a non-negative number are non-negative. -/
theorem toFixed2_nonneg {x : ℚ} (h : 0 ≤ x) : 0 ≤ toFixed2 x := by
  unfold toFixed2
  have : (0 : ℤ) ≤ Int.floor (x * 100 + 1 / 2) := Int.floor_nonneg.mpr (by linarith)
  have h2 : (0 : ℚ) ≤ Int.floor (x * 100 + 1 / 2) := by exact_mod_cast this
  positivity

/-- The Number written `0.35`. -/
theorem toDouble_035 : toDouble 0.35 = 3152519739159347 / 9007199254740992 := by
  have h := toDouble_eq (q := 0.35) (-2) 6305039478318694 (by norm_num) (by norm_num)
    (by norm_num) (by norm_num) (by rw [abs_lt]; constructor <;> norm_num)
  rw [h]; norm_num

/-- The Number written `0.55`. -/
theorem toDouble_055 : toDouble 0.55 = 2476979795053773 / 4503599627370496 := by
  have h := toDouble_eq (q := 0.55) (-1) 4953959590107546 (by norm_num) (by norm_num)
    (by norm_num) (by norm_num) (by rw [abs_lt]; constructor <;> norm_num)
  rw [h]; norm_num

/-- The Number 300. -/
theorem toDouble_300 : toDouble 300 = 300 := by
  simpa using toDouble_natCast 300 (by norm_num)

/-- The Number 1. -/
theorem toDouble_one : toDouble 1 = 1 := by
  simpa using toDouble_natCast 1 (by norm_num)

/-- The function `modelY` with the constants evaluated. -/
theorem modelY_eq (h : Int) :
    modelY h = toDouble (toFixed2 (toDouble (3152519739159347 / 9007199254740992
      + toDouble (max 0 (min 1 (toDouble (toDouble ((900 : ℚ) - h) / 300)))
          * (2476979795053773 / 4503599627370496))))) := by
  unfold modelY
  simp only [toDouble_035, toDouble_055]
  norm_num [toDouble_300]

/-- The steps of `modelY` at a height below 900. -/
theorem modelY_of_steps (h : Int) (t p s : ℚ) (n : ℤ)
    (hsub : toDouble ((900 : ℚ) - h) = 900 - h)
    (ht : toDouble (((900 : ℚ) - h) / 300) = t) (ht0 : 0 ≤ t) (ht1 : t ≤ 1)
    (hp : toDouble (t * (2476979795053773 / 4503599627370496)) = p)
    (hs : toDouble (3152519739159347 / 9007199254740992 + p) = s)
    (hn1 : (n : ℚ) ≤ s * 100 + 1 / 2) (hn2 : s * 100 + 1 / 2 < n + 1) :
    modelY h = toDouble (n / 100) := by
  rw [modelY_eq, hsub, ht, min_eq_right ht1, max_eq_right ht0, hp, hs, toFixed2_eq s n hn1 hn2]

/-- The height 690, where `0.35 + 0.55 * 210 / 300` is 0.735. -/
theorem modelY_690 : modelY 690 = toDouble 0.73 := by
  have hsub : toDouble ((900 : ℚ) - (690 : ℤ)) = 900 - (690 : ℤ) := by
    have := toDouble_natCast 210 (by norm_num)
    norm_num at this ⊢
    exact this
  have ht : toDouble (((900 : ℚ) - (690 : ℤ)) / 300) = 6305039478318694 * 2 ^ (-1 - 52 : ℤ) :=
    toDouble_eq (-1) 6305039478318694 (by norm_num) (by norm_num) (by norm_num) (by norm_num)
      (by rw [abs_lt]; constructor <;> norm_num)
  have hp : toDouble (6305039478318694 * 2 ^ (-1 - 52 : ℤ) * (2476979795053773 / 4503599627370496))
      = 6935543426150564 * 2 ^ (-2 - 52 : ℤ) :=
    toDouble_eq (-2) 6935543426150564 (by norm_num) (by norm_num) (by norm_num) (by norm_num)
      (by rw [abs_lt]; constructor <;> norm_num)
  have hs : toDouble (3152519739159347 / 9007199254740992 + 6935543426150564 * 2 ^ (-2 - 52 : ℤ))
      = 6620291452234629 * 2 ^ (-1 - 52 : ℤ) :=
    toDouble_eq (-1) 6620291452234629 (by norm_num) (by norm_num) (by norm_num) (by norm_num)
      (by rw [abs_lt]; constructor <;> norm_num)
  have := modelY_of_steps 690 _ _ _ 73 hsub ht (by norm_num) (by norm_num) hp hs
    (by norm_num) (by norm_num)
  rw [this]
  norm_num

/-- The height 870, where `0.35 + 0.55 * 30 / 300` is 0.405. -/
theorem modelY_870 : modelY 870 = toDouble 0.40 := by
  have hsub : toDouble ((900 : ℚ) - (870 : ℤ)) = 900 - (870 : ℤ) := by
    have := toDouble_natCast 30 (by norm_num)
    norm_num at this ⊢
    exact this
  have ht : toDouble (((900 : ℚ) - (870 : ℤ)) / 300) = 7205759403792794 * 2 ^ (-4 - 52 : ℤ) :=
    toDouble_eq (-4) 7205759403792794 (by norm_num) (by norm_num) (by norm_num) (by norm_num)
      (by rw [abs_lt]; constructor <;> norm_num)
  have hp : toDouble (7205759403792794 * 2 ^ (-4 - 52 : ℤ) * (2476979795053773 / 4503599627370496))
      = 7926335344172074 * 2 ^ (-5 - 52 : ℤ) :=
    toDouble_eq (-5) 7926335344172074 (by norm_num) (by norm_num) (by norm_num) (by norm_num)
      (by rw [abs_lt]; constructor <;> norm_num)
  have hs : toDouble (3152519739159347 / 9007199254740992 + 7926335344172074 * 2 ^ (-5 - 52 : ℤ))
      = 7295831396340203 * 2 ^ (-2 - 52 : ℤ) :=
    toDouble_eq (-2) 7295831396340203 (by norm_num) (by norm_num) (by norm_num) (by norm_num)
      (by rw [abs_lt]; constructor <;> norm_num)
  have := modelY_of_steps 870 _ _ _ 40 hsub ht (by norm_num) (by norm_num) hp hs
    (by norm_num) (by norm_num)
  rw [this]
  norm_num

/-- The height 810, where `0.35 + 0.55 * 90 / 300` is 0.515. -/
theorem modelY_810 : modelY 810 = toDouble 0.52 := by
  have hsub : toDouble ((900 : ℚ) - (810 : ℤ)) = 900 - (810 : ℤ) := by
    have := toDouble_natCast 90 (by norm_num)
    norm_num at this ⊢
    exact this
  have ht : toDouble (((900 : ℚ) - (810 : ℤ)) / 300) = 5404319552844595 * 2 ^ (-2 - 52 : ℤ) :=
    toDouble_eq (-2) 5404319552844595 (by norm_num) (by norm_num) (by norm_num) (by norm_num)
      (by rw [abs_lt]; constructor <;> norm_num)
  have hp : toDouble (5404319552844595 * 2 ^ (-2 - 52 : ℤ) * (2476979795053773 / 4503599627370496))
      = 5944751508129055 * 2 ^ (-3 - 52 : ℤ) :=
    toDouble_eq (-3) 5944751508129055 (by norm_num) (by norm_num) (by norm_num) (by norm_num)
      (by rw [abs_lt]; constructor <;> norm_num)
  have hs : toDouble (3152519739159347 / 9007199254740992 + 5944751508129055 * 2 ^ (-3 - 52 : ℤ))
      = 4638707616191611 * 2 ^ (-1 - 52 : ℤ) :=
    toDouble_eq (-1) 4638707616191611 (by norm_num) (by norm_num) (by norm_num) (by norm_num)
      (by rw [abs_lt]; constructor <;> norm_num)
  have := modelY_of_steps 810 _ _ _ 52 hsub ht (by norm_num) (by norm_num) hp hs
    (by norm_num) (by norm_num)
  rw [this]
  norm_num

/-- The height 750, where `0.35 + 0.55 * 150 / 300` is 0.625. -/
theorem modelY_750 : modelY 750 = toDouble 0.63 := by
  have hsub : toDouble ((900 : ℚ) - (750 : ℤ)) = 900 - (750 : ℤ) := by
    have := toDouble_natCast 150 (by norm_num)
    norm_num at this ⊢
    exact this
  have ht : toDouble (((900 : ℚ) - (750 : ℤ)) / 300) = 4503599627370496 * 2 ^ (-1 - 52 : ℤ) :=
    toDouble_eq (-1) 4503599627370496 (by norm_num) (by norm_num) (by norm_num) (by norm_num)
      (by rw [abs_lt]; constructor <;> norm_num)
  have hp : toDouble (4503599627370496 * 2 ^ (-1 - 52 : ℤ) * (2476979795053773 / 4503599627370496))
      = 4953959590107546 * 2 ^ (-2 - 52 : ℤ) :=
    toDouble_eq (-2) 4953959590107546 (by norm_num) (by norm_num) (by norm_num) (by norm_num)
      (by rw [abs_lt]; constructor <;> norm_num)
  have hs : toDouble (3152519739159347 / 9007199254740992 + 4953959590107546 * 2 ^ (-2 - 52 : ℤ))
      = 5629499534213120 * 2 ^ (-1 - 52 : ℤ) :=
    toDouble_eq (-1) 5629499534213120 (by norm_num) (by norm_num) (by norm_num) (by norm_num)
      (by rw [abs_lt]; constructor <;> norm_num)
  have := modelY_of_steps 750 _ _ _ 63 hsub ht (by norm_num) (by norm_num) hp hs
    (by norm_num) (by norm_num)
  rw [this]
  norm_num

/-- The height 630, where `0.35 + 0.55 * 270 / 300` is 0.845. -/
theorem modelY_630 : modelY 630 = toDouble 0.84 := by
  have hsub : toDouble ((900 : ℚ) - (630 : ℤ)) = 900 - (630 : ℤ) := by
    have := toDouble_natCast 270 (by norm_num)
    norm_num at this ⊢
    exact this
  have ht : toDouble (((900 : ℚ) - (630 : ℤ)) / 300) = 8106479329266893 * 2 ^ (-1 - 52 : ℤ) :=
    toDouble_eq (-1) 8106479329266893 (by norm_num) (by norm_num) (by norm_num) (by norm_num)
      (by rw [abs_lt]; constructor <;> norm_num)
  have hp : toDouble (8106479329266893 * 2 ^ (-1 - 52 : ℤ) * (2476979795053773 / 4503599627370496))
      = 8917127262193583 * 2 ^ (-2 - 52 : ℤ) :=
    toDouble_eq (-2) 8917127262193583 (by norm_num) (by norm_num) (by norm_num) (by norm_num)
      (by rw [abs_lt]; constructor <;> norm_num)
  have hs : toDouble (3152519739159347 / 9007199254740992 + 8917127262193583 * 2 ^ (-2 - 52 : ℤ))
      = 7611083370256138 * 2 ^ (-1 - 52 : ℤ) :=
    toDouble_eq_even (-1) 7611083370256138 (by norm_num) (by norm_num) (by norm_num) (by norm_num)
      (by rw [abs_le]; constructor <;> norm_num) (by norm_num)
  have := modelY_of_steps 630 _ _ _ 84 hsub ht (by norm_num) (by norm_num) hp hs
    (by norm_num) (by norm_num)
  rw [this]
  norm_num

/-- Between 600 and 900 the two-decimal value that `modelY` returns is at most
half a hundredth away from `0.35 + 0.55 * (900 - h) / 300`: with
`A = 2130 + 11 * (900 - h)`, which is 60 times that value in hundredths plus 30,
the hundredths `n` satisfy `A - 60 <= 60 * n <= A`. -/
theorem modelY_between (h : Int) (h1 : 600 < h) (h2 : h < 900) :
    ∃ n : ℤ, modelY h = toDouble (n / 100)
      ∧ 2130 + 11 * (900 - h) - 60 ≤ 60 * n ∧ 60 * n ≤ 2130 + 11 * (900 - h) := by
  have hd1 : (1 : ℚ) ≤ (900 : ℚ) - h := by
    have : (1 : ℤ) ≤ 900 - h := by omega
    exact_mod_cast this
  have hd2 : (900 : ℚ) - h ≤ 299 := by
    have : 900 - h ≤ (299 : ℤ) := by omega
    exact_mod_cast this
  have hsub : toDouble ((900 : ℚ) - h) = 900 - h := by
    have hnat : ((900 - h).toNat : ℤ) = 900 - h := Int.toNat_of_nonneg (by omega)
    have hcast : (((900 - h).toNat : ℕ) : ℚ) = (900 : ℚ) - h := by
      have : (((900 - h).toNat : ℤ) : ℚ) = ((900 - h : ℤ) : ℚ) := by rw [hnat]
      push_cast at this
      exact this
    have hlt : (900 - h).toNat < 2 ^ 53 := by
      have : ((900 - h).toNat : ℤ) < 2 ^ 53 := by rw [hnat]; omega
      exact_mod_cast this
    have := toDouble_natCast (900 - h).toNat hlt
    rw [hcast] at this
    exact this
  have hq0 : (0 : ℚ) ≤ ((900 : ℚ) - h) / 300 := by positivity
  have hq1 : ((900 : ℚ) - h) / 300 < 1 := by
    rw [div_lt_one (by norm_num)]; linarith
  have ht0 : 0 ≤ toDouble (((900 : ℚ) - h) / 300) := toDouble_nonneg hq0
  have ht1 : toDouble (((900 : ℚ) - h) / 300) ≤ 1 :=
    (toDouble_mono hq0 hq1.le).trans_eq toDouble_one
  have hm := modelY_of_steps h _ _ _
    (Int.floor (toDouble (3152519739159347 / 9007199254740992
      + toDouble (toDouble (((900 : ℚ) - h) / 300) * (2476979795053773 / 4503599627370496)))
        * 100 + 1 / 2))
    hsub rfl ht0 ht1 rfl rfl (Int.floor_le _) (Int.lt_floor_add_one _)
  have et := toDouble_err (-1) hq0 (by norm_num) (by norm_num; exact hq1)
  rw [abs_le] at et
  norm_num at et
  generalize toDouble (((900 : ℚ) - h) / 300) = t at ht0 ht1 et hm
  have hp0 : (0 : ℚ) ≤ t * (2476979795053773 / 4503599627370496) := by positivity
  have hp1 : t * (2476979795053773 / 4503599627370496) < 2 ^ ((-1 : ℤ) + 1) := by
    norm_num; nlinarith
  have ep := toDouble_err (-1) hp0 (by norm_num) hp1
  rw [abs_le] at ep
  norm_num at ep
  have hpp : 0 ≤ toDouble (t * (2476979795053773 / 4503599627370496)) := toDouble_nonneg hp0
  generalize toDouble (t * (2476979795053773 / 4503599627370496)) = p at ep hpp hm
  have hs0 : (0 : ℚ) ≤ 3152519739159347 / 9007199254740992 + p := by positivity
  have hs1 : (3152519739159347 / 9007199254740992 + p : ℚ) < 2 ^ ((0 : ℤ) + 1) := by
    norm_num; linarith [ep.1, ep.2]
  have es := toDouble_err 0 hs0 (by norm_num) hs1
  rw [abs_le] at es
  norm_num at es
  generalize toDouble (3152519739159347 / 9007199254740992 + p) = s at es hm
  refine ⟨Int.floor (s * 100 + 1 / 2), ?_, ?_, ?_⟩
  · exact hm
  · have hf : s * 100 + 1 / 2 < (Int.floor (s * 100 + 1 / 2) : ℚ) + 1 := Int.lt_floor_add_one _
    have : ((2130 + 11 * (900 - h) - 61 : ℤ) : ℚ) < ((60 * Int.floor (s * 100 + 1 / 2) : ℤ) : ℚ) := by
      push_cast
      linarith [et.1, et.2, ep.1, ep.2, es.1, es.2]
    have := Int.cast_lt.mp this
    omega
  · have hf : (Int.floor (s * 100 + 1 / 2) : ℚ) ≤ s * 100 + 1 / 2 := Int.floor_le _
    have : ((60 * Int.floor (s * 100 + 1 / 2) : ℤ) : ℚ) < ((2130 + 11 * (900 - h) + 1 : ℤ) : ℚ) := by
      push_cast
      linarith [et.1, et.2, ep.1, ep.2, es.1, es.2]
    have := Int.cast_lt.mp this
    omega

/-- The Number `0.35` is its own rounding, and two decimals of it are 0.35. -/
theorem toDouble_lift_zero :
    toDouble (toFixed2 (toDouble (3152519739159347 / 9007199254740992
      + toDouble (0 * (2476979795053773 / 4503599627370496))))) = toDouble 0.35 := by
  have h1 : toDouble (3152519739159347 / 9007199254740992)
      = 6305039478318694 * 2 ^ (-2 - 52 : ℤ) :=
    toDouble_eq (-2) 6305039478318694 (by norm_num) (by norm_num) (by norm_num) (by norm_num)
      (by rw [abs_lt]; constructor <;> norm_num)
  rw [zero_mul, toDouble_zero, add_zero, h1,
    toFixed2_eq _ 35 (by norm_num) (by norm_num)]
  norm_num

/-- The sum of the Numbers `0.35` and `0.55` is a Number, and two decimals of it
are 0.90. -/
theorem toDouble_lift_one :
    toDouble (toFixed2 (toDouble (3152519739159347 / 9007199254740992
      + toDouble (1 * (2476979795053773 / 4503599627370496))))) = toDouble 0.90 := by
  have h1 : toDouble (1 * (2476979795053773 / 4503599627370496))
      = 4953959590107546 * 2 ^ (-1 - 52 : ℤ) :=
    toDouble_eq (-1) 4953959590107546 (by norm_num) (by norm_num) (by norm_num) (by norm_num)
      (by rw [abs_lt]; constructor <;> norm_num)
  have h2 : toDouble (3152519739159347 / 9007199254740992
      + 4953959590107546 * 2 ^ (-1 - 52 : ℤ)) = 8106479329266893 * 2 ^ (-1 - 52 : ℤ) :=
    toDouble_eq (-1) 8106479329266893 (by norm_num) (by norm_num) (by norm_num) (by norm_num)
      (by rw [abs_lt]; constructor <;> norm_num)
  rw [h1, h2, toFixed2_eq _ 90 (by norm_num) (by norm_num)]
  norm_num

/-- From 900 on `modelY` is the Number `0.35`. -/
theorem modelY_low (h : Int) (hh : 900 ≤ h) : modelY h = toDouble 0.35 := by
  have hd : (900 : ℚ) - h ≤ 0 := by
    have : (900 : ℤ) - h ≤ 0 := by omega
    exact_mod_cast this
  have h1 : toDouble ((900 : ℚ) - h) / 300 ≤ 0 :=
    div_nonpos_of_nonpos_of_nonneg (toDouble_nonpos hd) (by norm_num)
  have h2 := toDouble_nonpos h1
  have ht : max 0 (min 1 (toDouble (toDouble ((900 : ℚ) - h) / 300))) = 0 := by
    rw [min_eq_right (by linarith), max_eq_left h2]
  rw [modelY_eq, ht]
  exact toDouble_lift_zero

/-- Up to 600 `modelY` is the Number `0.90`. -/
theorem modelY_high (h : Int) (hh : h ≤ 600) : modelY h = toDouble 0.90 := by
  have hd : (300 : ℚ) ≤ (900 : ℚ) - h := by
    have : (300 : ℤ) ≤ 900 - h := by omega
    exact_mod_cast this
  have h0 : (300 : ℚ) ≤ toDouble ((900 : ℚ) - h) := by
    have := toDouble_mono (by norm_num) hd
    rw [toDouble_300] at this
    exact this
  have h1 : (1 : ℚ) ≤ toDouble ((900 : ℚ) - h) / 300 := by
    rw [le_div_iff₀ (by norm_num)]; linarith
  have h2 : (1 : ℚ) ≤ toDouble (toDouble ((900 : ℚ) - h) / 300) := by
    have := toDouble_mono (by norm_num) h1
    rw [toDouble_one] at this
    exact this
  have ht : max 0 (min 1 (toDouble (toDouble ((900 : ℚ) - h) / 300))) = 1 := by
    rw [min_eq_left h2, max_eq_right (by norm_num)]
  rw [modelY_eq, ht]
  exact toDouble_lift_one

/-- The steps of `modelY` after the subtraction keep the order. -/
theorem lift_mono {u v : ℚ} (hu : 0 ≤ u) (h : u ≤ v) :
    toDouble (toFixed2 (toDouble (3152519739159347 / 9007199254740992
        + toDouble (max 0 (min 1 (toDouble (u / 300))) * (2476979795053773 / 4503599627370496)))))
      ≤ toDouble (toFixed2 (toDouble (3152519739159347 / 9007199254740992
        + toDouble (max 0 (min 1 (toDouble (v / 300)))
            * (2476979795053773 / 4503599627370496))))) := by
  have h1 : toDouble (u / 300) ≤ toDouble (v / 300) :=
    toDouble_mono (by positivity) (div_le_div_of_nonneg_right h (by norm_num))
  have h2 : max 0 (min 1 (toDouble (u / 300))) ≤ max 0 (min 1 (toDouble (v / 300))) :=
    max_le_max le_rfl (min_le_min le_rfl h1)
  have h3 : (0 : ℚ) ≤ max 0 (min 1 (toDouble (u / 300))) := le_max_left _ _
  have h4 : toDouble (max 0 (min 1 (toDouble (u / 300))) * (2476979795053773 / 4503599627370496))
      ≤ toDouble (max 0 (min 1 (toDouble (v / 300))) * (2476979795053773 / 4503599627370496)) :=
    toDouble_mono (by positivity) (mul_le_mul_of_nonneg_right h2 (by norm_num))
  have h5 : 0 ≤ toDouble (max 0 (min 1 (toDouble (u / 300)))
      * (2476979795053773 / 4503599627370496)) := toDouble_nonneg (by positivity)
  have h6 := toDouble_mono (a := 3152519739159347 / 9007199254740992
      + toDouble (max 0 (min 1 (toDouble (u / 300))) * (2476979795053773 / 4503599627370496)))
    (by positivity) (add_le_add_left h4 _)
  exact toDouble_mono (toFixed2_nonneg (toDouble_nonneg (by positivity))) (toFixed2_mono h6)

/-- Below 900 `modelY` does not increase with the height. -/
theorem modelY_anti_below (h h2 : Int) (hle : h ≤ h2) (h900 : h2 ≤ 900) :
    modelY h2 ≤ modelY h := by
  have hd : (0 : ℚ) ≤ (900 : ℚ) - h2 := by
    have : (0 : ℤ) ≤ 900 - h2 := by omega
    exact_mod_cast this
  have hdd : (900 : ℚ) - h2 ≤ (900 : ℚ) - h := by
    have : (900 : ℤ) - h2 ≤ 900 - h := by omega
    exact_mod_cast this
  rw [modelY_eq, modelY_eq]
  exact lift_mono (toDouble_nonneg hd) (toDouble_mono hd hdd)

/-- The value of `modelY` is at least the Number `0.35`. -/
theorem modelY_ge (h : Int) : toDouble 0.35 ≤ modelY h := by
  rcases le_or_lt 900 h with hh | hh
  · rw [modelY_low h hh]
  · rw [← modelY_low 900 le_rfl]
    exact modelY_anti_below h 900 hh.le le_rfl

/-- The value of `modelY` is at most the Number `0.90`. -/
theorem modelY_le (h : Int) : modelY h ≤ toDouble 0.90 := by
  rcases le_or_lt h 600 with hh | hh
  · rw [modelY_high h hh]
  · rcases le_or_lt h 900 with h9 | h9
    · rw [← modelY_high 600 le_rfl]
      exact modelY_anti_below 600 h hh.le h9
    · rw [modelY_low h h9.le]
      exact toDouble_mono (by norm_num) (by norm_num)

/-- Counterexample to C24 as stated: at height 690 the exact value
`0.35 + 0.55 * 210 / 300` is 0.735, whose rounding to two decimals is 0.74, and
`modelY` returns the Number 0.73, which is less than the Number 0.74. -/
theorem modelY_tie_counterexample :
    modelY 690 = toDouble 0.73
      ∧ (0.35 + 0.55 * ((900 : ℚ) - 690) / 300 = 0.735
        ∧ toFixed2 (0.35 + 0.55 * ((900 : ℚ) - 690) / 300) = 0.74)
      ∧ toDouble 0.73 < toDouble 0.74
      ∧ modelY 690 ≠ toDouble (toFixed2 (0.35 + 0.55 * ((900 : ℚ) - 690) / 300)) := by
  have h73 : toDouble 0.73 = 6575255455960924 * 2 ^ (-1 - 52 : ℤ) :=
    toDouble_eq (-1) 6575255455960924 (by norm_num) (by norm_num) (by norm_num) (by norm_num)
      (by rw [abs_lt]; constructor <;> norm_num)
  have h74 : toDouble 0.74 = 6665327448508334 * 2 ^ (-1 - 52 : ℤ) :=
    toDouble_eq (-1) 6665327448508334 (by norm_num) (by norm_num) (by norm_num) (by norm_num)
      (by rw [abs_lt]; constructor <;> norm_num)
  have hfix : toFixed2 (0.35 + 0.55 * ((900 : ℚ) - 690) / 300) = 0.74 := by
    rw [toFixed2_eq _ 74 (by norm_num) (by norm_num)]
    norm_num
  have hlt : toDouble 0.73 < toDouble 0.74 := by
    rw [h73, h74]; norm_num
  refine ⟨modelY_690, ⟨by norm_num, hfix⟩, hlt, ?_⟩
  rw [modelY_690, hfix]
  exact hlt.ne

end Script

namespace Backup

/-- C18: `registerDetection` and `scanLoop` (its two parts and the whole call)
of `script.js` are those of the machine with the hold duration as a parameter,
at 6000, and those of `script.backup.js` are those of the same machine at 2000,
on every state and for every input of a tick; `SCAN_MIN_INTERVAL` is 60 and
`JSQR_TARGET_W` is 480 in both files.  The hold duration is the one difference:
a falsy tick 3000 after the last detection changes nothing in `script.js` and
clears the overlay in `script.backup.js`. -/
theorem revisions_same_machine (e : Script.Tick) (s : Script.State) (now : Int)
    (text : Option String) :
    (Script.LOST_TIMEOUT_MS = 6000 ∧ Backup.LOST_TIMEOUT_MS = 2000)
      ∧ (Script.SCAN_MIN_INTERVAL = 60 ∧ Backup.SCAN_MIN_INTERVAL = 60)
      ∧ (Script.JSQR_TARGET_W = 480 ∧ Backup.JSQR_TARGET_W = 480)
      ∧ Script.registerDetection now text s = Param.registerDetection 6000 now text s
      ∧ Backup.registerDetection now text s = Param.registerDetection 2000 now text s
      ∧ Script.scanLoopStart e s = Param.scanLoopStart 6000 e s
      ∧ Backup.scanLoopStart e s = Param.scanLoopStart 2000 e s
      ∧ Script.scanLoopResume e s = Param.scanLoopResume 6000 e s
      ∧ Backup.scanLoopResume e s = Param.scanLoopResume 2000 e s
      ∧ Script.scanLoop e s = Param.scanLoop 6000 e s
      ∧ Backup.scanLoop e s = Param.scanLoop 2000 e s
      ∧ (Script.registerDetection 3000 none (Script.State.running false "ID-1")).2 = []
      ∧ (Backup.registerDetection 3000 none (Script.State.running false "ID-1")).2
        = [Script.Call.clearOverlay] :=
  ⟨⟨rfl, rfl⟩, ⟨rfl, rfl⟩, ⟨rfl, rfl⟩, rfl, rfl, rfl, rfl, rfl, rfl, rfl, rfl,
    by decide, by decide⟩

/-- C24, as amended: `modelY` is the same function in `script.js` and
`script.backup.js`.  With every operation rounded to the nearest Number, for
every window height `h` its value lies between the Numbers 0.35 and 0.90, is
0.35 for `h >= 900` and 0.90 for `h <= 600`, and in between is the Number of a
two-decimal value at most 0.005 away from `0.35 + 0.55 * (900 - h) / 300`: that
value rounded to two decimals, except at the five heights where it lies exactly
halfway between two hundredths, where 870, 690 and 630 give the lower hundredth
(0.40, 0.73, 0.84) and 810 and 750 the upper one (0.52, 0.63).  The value does
not increase when `h` grows. -/
theorem modelY_interpolates (h h2 : Int) :
    Backup.modelY h = Script.modelY h
      ∧ (Script.toDouble 0.35 ≤ Script.modelY h ∧ Script.modelY h ≤ Script.toDouble 0.90)
      ∧ (900 ≤ h → Script.modelY h = Script.toDouble 0.35)
      ∧ (h ≤ 600 → Script.modelY h = Script.toDouble 0.90)
      ∧ (600 < h → h < 900
        → ∃ n : ℤ, Script.modelY h = Script.toDouble (n / 100)
          ∧ |(n : ℚ) / 100 - (0.35 + 0.55 * ((900 : ℚ) - h) / 300)| ≤ 1 / 200)
      ∧ (600 < h → h < 900 → (900 - h) % 60 ≠ 30
        → Script.modelY h
          = Script.toDouble (Script.toFixed2 (0.35 + 0.55 * ((900 : ℚ) - h) / 300)))
      ∧ (Script.modelY 870 = Script.toDouble 0.40 ∧ Script.modelY 810 = Script.toDouble 0.52
        ∧ Script.modelY 750 = Script.toDouble 0.63 ∧ Script.modelY 690 = Script.toDouble 0.73
        ∧ Script.modelY 630 = Script.toDouble 0.84)
      ∧ (h ≤ h2 → Script.modelY h2 ≤ Script.modelY h) := by
  refine ⟨rfl, ⟨Script.modelY_ge h, Script.modelY_le h⟩, Script.modelY_low h, Script.modelY_high h,
    ?_, ?_, ⟨Script.modelY_870, Script.modelY_810, Script.modelY_750, Script.modelY_690,
      Script.modelY_630⟩, ?_⟩
  · intro h6 h9
    obtain ⟨n, hn, hlo, hhi⟩ := Script.modelY_between h h6 h9
    refine ⟨n, hn, ?_⟩
    have hlo2 : ((2130 + 11 * (900 - h) - 60 : ℤ) : ℚ) ≤ ((60 * n : ℤ) : ℚ) := Int.cast_le.mpr hlo
    have hhi2 : ((60 * n : ℤ) : ℚ) ≤ ((2130 + 11 * (900 - h) : ℤ) : ℚ) := Int.cast_le.mpr hhi
    push_cast at hlo2 hhi2
    rw [abs_le]
    constructor <;> norm_num <;> linarith
  · intro h6 h9 htie
    obtain ⟨n, hn, hlo, hhi⟩ := Script.modelY_between h h6 h9
    have hne : 60 * n ≠ 2130 + 11 * (900 - h) - 60 := by
      intro hbad
      apply htie
      omega
    have hk1 : 60 * n ≤ 2130 + 11 * (900 - h) := hhi
    have hk2 : 2130 + 11 * (900 - h) < 60 * n + 60 := by omega
    have hk1q : ((60 * n : ℤ) : ℚ) ≤ ((2130 + 11 * (900 - h) : ℤ) : ℚ) := Int.cast_le.mpr hk1
    have hk2q : ((2130 + 11 * (900 - h) : ℤ) : ℚ) < ((60 * n + 60 : ℤ) : ℚ) := Int.cast_lt.mpr hk2
    push_cast at hk1q hk2q
    rw [hn, Script.toFixed2_eq _ n (by norm_num; linarith) (by norm_num; linarith)]
  · intro hle
    rcases le_or_lt h2 900 with h9 | h9
    · exact Script.modelY_anti_below h h2 hle h9
    · rw [Script.modelY_low h2 h9.le]
      exact Script.modelY_ge h

end Backup

namespace Scanner

/-- Building the detector touches the detector handle only and calls nothing
but the constructor. -/
theorem buildDetector_frame (e : Tick) (s : State) :
    (buildDetector e s).1 = { s with barcodeDetector := (buildDetector e s).1.barcodeDetector }
      ∧ ∀ c ∈ (buildDetector e s).2, c = Call.newBarcodeDetector := by
  unfold buildDetector
  split_ifs <;> simp

/-- The software branch touches the canvas size only and calls nothing but
`window.jsQR`. -/
theorem softwareDecode_frame (e : Tick) (s : State) :
    (softwareDecode e s).1 = { s with canvas := frameSize e s }
      ∧ ∀ c ∈ (softwareDecode e s).2.1, ∃ w h, c = Call.jsQR w h := by
  unfold softwareDecode
  rcases e.drawFrame with _ | _ <;> rcases e.jsQR with _ | _ | data <;>
    simp only [] <;> split_ifs <;> simp

/-- The decoding part touches the detector handle and the canvas size only. -/
theorem decodeStep_frame (e : Tick) (s : State) :
    (decodeStep e s).1
      = { s with barcodeDetector := (decodeStep e s).1.barcodeDetector,
                 canvas := (decodeStep e s).1.canvas } := by
  have hb := (buildDetector_frame e s).1
  have hs := (softwareDecode_frame e (buildDetector e s).1).1
  unfold decodeStep
  simp only []
  split_ifs
  · rw [hb]
  · simp only [hs]; rw [hb]
  · rw [hb]

/-- The decoding part calls the detector constructor and the decoders only. -/
theorem decodeStep_calls (e : Tick) (s : State) :
    ∀ c ∈ (decodeStep e s).2.1,
      c = Call.newBarcodeDetector ∨ c = Call.detect ∨ ∃ w h, c = Call.jsQR w h := by
  have hb := (buildDetector_frame e s).2
  have hs := (softwareDecode_frame e (buildDetector e s).1).2
  unfold decodeStep
  simp only []
  intro c
  split_ifs <;> simp only [List.mem_append, List.mem_singleton]
  · rintro (h | h)
    · exact Or.inl (hb c h)
    · exact Or.inr (Or.inl h)
  · rintro (h | h)
    · exact Or.inl (hb c h)
    · exact Or.inr (Or.inr (hs c h))
  · intro h; exact Or.inl (hb c h)

/-- The lookup calls nothing but `fetch`. -/
theorem fetchItemById_calls (e : Tick) (raw : String) :
    ∀ c ∈ (fetchItemById e raw).1, ∃ id, c = Call.fetch id := by
  unfold fetchItemById
  rcases hb : builtinById (extractId raw) with _ | item
  · rcases hf : e.fetch with _ | value <;> simp [hb, hf]
  · simp [hb]

/-- The function `onScan` on the empty string returns at once. -/
theorem onScan_empty (e : Tick) (s : State) : onScan e "" s = (s, []) := by
  simp [onScan]

/-- The function `onScan` on a non-empty text whose lookup gives an item:
the item is rendered and becomes the current one. -/
theorem onScan_of_item (e : Tick) (text : String) (s : State) (item : Item)
    (htext : text ≠ "") (hlook : (fetchItemById e text).2 = Except.ok (some item)) :
    onScan e text s
      = ({ s with lastText := text, overlay := some (render item), modelVisible := true,
                  currentId := some text, lastSeen := e.nowSeen },
          Call.showLoader :: (fetchItemById e text).1
            ++ [Call.renderItem (some item), Call.status ("QR: " ++ text) false,
                Call.hideLoader]) := by
  simp [onScan, htext, hlook, renderItem, clearOverlay]

/-- The function `onScan` never changes `modelVisible` and `currentId` unless it
makes the text current, and never leaves them out of step. -/
theorem onScan_consistent (e : Tick) (text : String) (s : State)
    (hinv : s.modelVisible = Script.truthy s.currentId ∧ s.currentId ≠ some "") :
    (onScan e text s).1.modelVisible = Script.truthy (onScan e text s).1.currentId
      ∧ (onScan e text s).1.currentId ≠ some ""
      ∧ (onScan e text s).1.scanning = s.scanning := by
  by_cases htext : text = ""
  · subst htext
    rw [onScan_empty]
    exact ⟨hinv.1, hinv.2, rfl⟩
  · rcases hlook : (fetchItemById e text).2 with err | item
    · simp [onScan, htext, hlook, onScanCatch, clearOverlay, hinv.1, hinv.2]
    · rcases item with _ | item
      · simp [onScan, htext, hlook, renderItem, onScanCatch, clearOverlay, hinv.1, hinv.2]
      · rw [onScan_of_item e text s item htext hlook]
        simp [Script.truthy, htext]

/-- The `finally` block keeps `modelVisible` and `currentId` in step and leaves
`scanning` alone. -/
theorem finallyStep_consistent (e : Tick) (s : State)
    (hinv : s.modelVisible = Script.truthy s.currentId ∧ s.currentId ≠ some "") :
    (finallyStep e s).1.modelVisible = Script.truthy (finallyStep e s).1.currentId
      ∧ (finallyStep e s).1.currentId ≠ some ""
      ∧ (finallyStep e s).1.scanning = s.scanning := by
  unfold finallyStep
  split_ifs
  · simp [clearOverlay, Script.truthy]
  · exact ⟨hinv.1, hinv.2, rfl⟩

/-- A call of `scanLoop` keeps `modelVisible` and `currentId` in step, whatever
the decoder and the lookup do, and leaves `scanning` alone. -/
theorem scanLoop_consistent (e : Tick) (s : State)
    (hinv : s.modelVisible = Script.truthy s.currentId ∧ s.currentId ≠ some "") :
    (scanLoop e s).1.modelVisible = Script.truthy (scanLoop e s).1.currentId
      ∧ (scanLoop e s).1.currentId ≠ some ""
      ∧ (scanLoop e s).1.scanning = s.scanning := by
  by_cases hrun : s.scanning = true
  · have hfr := decodeStep_frame e s
    have hinv1 : (decodeStep e s).1.modelVisible = Script.truthy (decodeStep e s).1.currentId
        ∧ (decodeStep e s).1.currentId ≠ some "" := by
      rw [hfr]; exact hinv
    have hsc1 : (decodeStep e s).1.scanning = s.scanning := by rw [hfr]
    simp only [scanLoop, hrun, Bool.not_true, Bool.false_eq_true, if_false]
    rcases hp : (decodeStep e s).2.2 with _ | v
    · have h := finallyStep_consistent e (decodeStep e s).1 hinv1
      exact ⟨h.1, h.2.1, h.2.2.trans (hsc1.trans hrun)⟩
    · simp only []
      by_cases hsame : some v = (decodeStep e s).1.currentId
          ∧ (decodeStep e s).1.modelVisible = true
      · have hk : handleDecoded e v (decodeStep e s).1
            = ({ (decodeStep e s).1 with lastSeen := e.nowSeen }, []) := by
          simp [handleDecoded, hsame]
        rw [hk]
        have h := finallyStep_consistent e { (decodeStep e s).1 with lastSeen := e.nowSeen }
          hinv1
        exact ⟨h.1, h.2.1, h.2.2.trans (hsc1.trans hrun)⟩
      · have hk : handleDecoded e v (decodeStep e s).1 = onScan e v (decodeStep e s).1 := by
          simp only [handleDecoded, hsame, if_false]
        rw [hk]
        have ho := onScan_consistent e v (decodeStep e s).1 hinv1
        have h := finallyStep_consistent e (onScan e v (decodeStep e s).1).1 ⟨ho.1, ho.2.1⟩
        exact ⟨h.1, h.2.1, h.2.2.trans (ho.2.2.trans (hsc1.trans hrun))⟩
  · have hoff : s.scanning = false := by simpa using hrun
    simp [scanLoop, hoff, hinv.1, hinv.2]

/-- Every state reached from a consistent one keeps `modelVisible` and
`currentId` in step, and `scanning` as it was. -/
theorem runTicks_consistent (ticks : List Tick) (s : State)
    (hinv : s.modelVisible = Script.truthy s.currentId ∧ s.currentId ≠ some "") :
    (runTicks ticks s).modelVisible = Script.truthy (runTicks ticks s).currentId
      ∧ (runTicks ticks s).currentId ≠ some ""
      ∧ (runTicks ticks s).scanning = s.scanning := by
  induction ticks generalizing s with
  | nil => exact ⟨hinv.1, hinv.2, rfl⟩
  | cons e rest ih =>
    have h := scanLoop_consistent e s hinv
    have h2 := ih (scanLoop e s).1 ⟨h.1, h.2.1⟩
    exact ⟨h2.1, h2.2.1, h2.2.2.trans h.2.2⟩

/-- The decoder calls are no presenter calls. -/
theorem decodeStep_no_presenter (e : Tick) (s : State) :
    (decodeStep e s).2.1.filter Call.isPresenter = [] := by
  apply List.filter_eq_nil_iff.mpr
  intro c hc
  rcases decodeStep_calls e s c hc with h | h | ⟨w, h, h⟩ <;> rw [h] <;> simp [Call.isPresenter]

/-- The lookup calls are no presenter calls. -/
theorem fetchItemById_no_presenter (e : Tick) (raw : String) :
    (fetchItemById e raw).1.filter Call.isPresenter = [] := by
  apply List.filter_eq_nil_iff.mpr
  intro c hc
  obtain ⟨id, h⟩ := fetchItemById_calls e raw c hc
  rw [h]; simp [Call.isPresenter]

/-- One running call of `scanLoop` from a state in which `modelVisible` and
`currentId` are in step, with one clock reading and a lookup that gives an item
for the decoded value: the step of the transition table for hold `hideDelayMs`. -/
theorem scanLoop_step_table (e : Tick) (s : State) (hrun : s.scanning = true)
    (hinv : s.modelVisible = Script.truthy s.currentId ∧ s.currentId ≠ some "")
    (hclock : e.nowSeen = e.nowEnd)
    (hres : ∀ v, payload e s = some v
      → ∃ item, (fetchItemById e v).2 = Except.ok (some item)) :
    presenceOf (scanLoop e s).1
        = (Script.tableStep hideDelayMs e.nowEnd (presenceOf s) (payload e s)).1
      ∧ (scanLoop e s).2.filter Call.isPresenter
        = callsOf e (Script.tableStep hideDelayMs e.nowEnd (presenceOf s) (payload e s)).2
      ∧ ((∀ id, (Script.tableStep hideDelayMs e.nowEnd (presenceOf s) (payload e s)).2
            ≠ some (Script.Event.activate id))
        → (scanLoop e s).2.filter (fun c => !c.isPresenter)
            = (decodeStep e s).2.1 ++ [Call.requestAnimationFrame])
      ∧ (payload e s = none
        → (Call.clearOverlay ∈ (scanLoop e s).2
            ↔ (s.modelVisible = true ∧ e.nowEnd - s.lastSeen > hideDelayMs))
          ∧ ((s.modelVisible = true ∧ e.nowEnd - s.lastSeen > hideDelayMs)
            → (scanLoop e s).1.currentId = none ∧ (scanLoop e s).1.modelVisible = false
              ∧ (scanLoop e s).1.overlay = none)
          ∧ (¬ (s.modelVisible = true ∧ e.nowEnd - s.lastSeen > hideDelayMs)
            → (scanLoop e s).1.currentId = s.currentId
              ∧ (scanLoop e s).1.modelVisible = s.modelVisible
              ∧ (scanLoop e s).1.lastSeen = s.lastSeen
              ∧ (scanLoop e s).1.overlay = s.overlay))
      ∧ (∀ v item, payload e s = some v → s.currentId ≠ some v
        → (fetchItemById e v).2 = Except.ok (some item)
        → (scanLoop e s).1.overlay = some (render item)
          ∧ (scanLoop e s).1.currentId = some v
          ∧ (scanLoop e s).1.modelVisible = true
          ∧ (scanLoop e s).1.lastSeen = e.nowEnd)
      ∧ (∀ v, payload e s = some v → s.currentId = some v
        → (scanLoop e s).1.overlay = s.overlay
          ∧ (scanLoop e s).1.currentId = some v
          ∧ (scanLoop e s).1.modelVisible = true
          ∧ (scanLoop e s).1.lastSeen = e.nowEnd) := by
  have hfr := decodeStep_frame e s
  have hnp := decodeStep_no_presenter e s
  unfold payload at hres ⊢
  simp only [scanLoop, hrun, Bool.not_true, Bool.false_eq_true, if_false]
  generalize decodeStep e s = d at hfr hnp hres ⊢
  obtain ⟨s1, dc, p⟩ := d
  obtain ⟨sc0, lt0, bd0, ci0, mv0, ls0, cv0, ov0⟩ := s
  obtain ⟨sc, lt, bd, ci, mv, ls, cv, ov⟩ := s1
  simp only [State.mk.injEq] at hfr
  obtain ⟨rfl, rfl, -, rfl, rfl, rfl, -, rfl⟩ := hfr
  simp only at hinv hnp hres hrun ⊢
  have hfilter : ∀ (a b : List Call), (dc ++ a ++ b).filter Call.isPresenter
      = a.filter Call.isPresenter ++ b.filter Call.isPresenter := by
    intro a b; simp [List.filter_append, hnp]
  have hrest : ∀ (a b : List Call), (dc ++ a ++ b).filter (fun c => !c.isPresenter)
      = dc ++ a.filter (fun c => !c.isPresenter) ++ b.filter (fun c => !c.isPresenter) := by
    intro a b
    have hdc : dc.filter (fun c => !c.isPresenter) = dc := by
      apply List.filter_eq_self.mpr
      intro c hc
      have := List.filter_eq_nil_iff.mp hnp c hc
      simpa using this
    simp [List.filter_append, hdc]
  have hdcall : ∀ a ∈ dc, a.isPresenter = false := by
    intro c hc
    have := List.filter_eq_nil_iff.mp hnp c hc
    simpa using this
  have hdcno : Call.clearOverlay ∉ dc := by
    intro hmem
    exact absurd (hdcall _ hmem) (by decide)
  have hp1 : Call.isPresenter Call.requestAnimationFrame = false := rfl
  have hp2 : Call.isPresenter Call.clearOverlay = true := rfl
  have hp3 : ∀ m b, Call.isPresenter (Call.status m b) = true := fun _ _ => rfl
  have hp4 : Call.isPresenter Call.showLoader = true := rfl
  have hp5 : Call.isPresenter Call.hideLoader = true := rfl
  have hp6 : ∀ it, Call.isPresenter (Call.renderItem it) = true := fun _ => rfl
  rcases p with _ | v
  · -- nothing decoded
    rcases ci with _ | id
    · have hmv : mv = false := by simpa [Script.truthy] using hinv.1
      subst hmv
      (simp [finallyStep, presenceOf, Script.payloadOf, Script.truthy, Script.tableStep, callsOf,
        hfilter, hrest, hp1, hp2, hp3, hp4, hp5, hp6, hdcno, hdcall]; exact hdcall)
    · have hid : id ≠ "" := fun h => hinv.2 (by rw [h])
      have hmv : mv = true := by rw [hinv.1]; simp [Script.truthy, hid]
      subst hmv
      by_cases hlost : e.nowEnd - ls > hideDelayMs
      · have hle : ¬ e.nowEnd - ls ≤ hideDelayMs := not_le.mpr hlost
        (simp [finallyStep, presenceOf, Script.payloadOf, Script.truthy, Script.tableStep,
          callsOf, hfilter, hrest, hp1, hp2, hp3, hp4, hp5, hp6, hdcno, hdcall, hlost, hle, clearOverlay]; exact hdcall)
      · have hle : e.nowEnd - ls ≤ hideDelayMs := not_lt.mp hlost
        have hlt : ¬ hideDelayMs < e.nowEnd - ls := hlost
        (simp [finallyStep, presenceOf, Script.payloadOf, Script.truthy, Script.tableStep,
          callsOf, hfilter, hrest, hp1, hp2, hp3, hp4, hp5, hp6, hdcno, hdcall, hlt, hle]; exact hdcall)
  · by_cases hv : v = ""
    · -- an empty value is no detection
      subst hv
      have hne : ¬ (some "" = ci ∧ mv = true) := fun h => hinv.2 h.1.symm
      rcases ci with _ | id
      · have hmv : mv = false := by simpa [Script.truthy] using hinv.1
        subst hmv
        (simp [handleDecoded, onScan_empty, finallyStep, presenceOf, Script.payloadOf,
          Script.truthy, Script.tableStep, callsOf, hfilter, hrest, hp1, hp2, hp3, hp4, hp5, hp6, hdcno, hdcall]; exact hdcall)
      · have hid : id ≠ "" := fun h => hinv.2 (by rw [h])
        have hid2 : ¬ "" = id := fun h => hid h.symm
        have hmv : mv = true := by rw [hinv.1]; simp [Script.truthy, hid]
        subst hmv
        by_cases hlost : e.nowEnd - ls > hideDelayMs
        · have hle : ¬ e.nowEnd - ls ≤ hideDelayMs := not_le.mpr hlost
          (simp [handleDecoded, hid2, onScan_empty, finallyStep, presenceOf, Script.payloadOf,
            Script.truthy, Script.tableStep, callsOf, hfilter, hrest, hp1, hp2, hp3, hp4, hp5, hp6, hdcno, hdcall, hlost,
            hle, clearOverlay]; exact hdcall)
        · have hle : e.nowEnd - ls ≤ hideDelayMs := not_lt.mp hlost
          have hlt : ¬ hideDelayMs < e.nowEnd - ls := hlost
          (simp [handleDecoded, hid2, onScan_empty, finallyStep, presenceOf, Script.payloadOf,
            Script.truthy, Script.tableStep, callsOf, hfilter, hrest, hp1, hp2, hp3, hp4, hp5, hp6, hdcno, hdcall, hlt, hle]; exact hdcall)
    · -- a value was decoded
      have hpay : Script.payloadOf (some v) = some v := by
        simp [Script.payloadOf, Script.truthy, hv]
      obtain ⟨item, hlook⟩ := hres v hpay
      have hfp := fetchItemById_no_presenter e v
      have hzero2 : ¬ hideDelayMs < 0 := by decide
      rcases ci with _ | id
      · have hmv : mv = false := by simpa [Script.truthy] using hinv.1
        subst hmv
        simp [handleDecoded, onScan_of_item e v _ item hv hlook, finallyStep, presenceOf, hpay,
          Script.tableStep, callsOf, hfilter, hrest, hp1, hp2, hp3, hp4, hp5, hp6, hdcno, hdcall, hclock, hzero2, hlook,
          List.filter_append, hfp]
        refine ⟨hdcall, ?_⟩
        intro v1 it1 hv1 hl
        subst hv1
        rw [hlook] at hl
        cases hl
        exact ⟨rfl, rfl⟩
      · have hid : id ≠ "" := fun h => hinv.2 (by rw [h])
        have hmv : mv = true := by rw [hinv.1]; simp [Script.truthy, hid]
        subst hmv
        by_cases hsame : v = id
        · subst hsame
          simp [handleDecoded, finallyStep, presenceOf, hpay, Script.tableStep, callsOf,
            hfilter, hrest, hp1, hp2, hp3, hp4, hp5, hp6, hdcno, hdcall, hclock, hzero2]
          refine ⟨hdcall, ?_⟩
          intro v1 it1 hv1 hne
          exact absurd hv1 hne
        · simp [handleDecoded, hsame, onScan_of_item e v _ item hv hlook, finallyStep,
            presenceOf, hpay, Script.tableStep, callsOf, hfilter, hrest, hp1, hp2, hp3, hp4, hp5, hp6, hdcno, hdcall,
            hclock, hzero2, hlook, List.filter_append, hfp]
          refine ⟨hdcall, ?_, ?_⟩
          · intro v1 it1 hv1 _ hl
            subst hv1
            rw [hlook] at hl
            cases hl
            exact ⟨rfl, rfl⟩
          · intro h
            exact absurd h.symm hsame

/-- The detector after the first statement of `scanLoop`: the one kept, or the
one constructed on this tick. -/
theorem buildDetector_detector (e : Tick) (s : State) :
    ((buildDetector e s).1.barcodeDetector = true
        ↔ (s.barcodeDetector = true ∨ (e.hasBarcodeDetector = true ∧ e.constructs = true)))
      ∧ (buildDetector e s).1.canvas = s.canvas := by
  unfold buildDetector
  cases hb : s.barcodeDetector <;> cases hh : e.hasBarcodeDetector <;>
    cases hc : e.constructs <;> simp [hb]

/-- The value decoded by the native branch, without the empty string. -/
theorem nativeDecode_value (e : Tick) :
    Script.payloadOf (nativeDecode e)
      = (match e.detect with
        | Except.ok (some (c :: _)) => if c.rawValue = "" then none else some c.rawValue
        | _ => none) := by
  unfold nativeDecode
  rcases e.detect with _ | _ | _ | ⟨c, _⟩ <;> simp [Script.payloadOf, Script.truthy]

/-- The value decoded by the software branch. -/
theorem softwareDecode_value (e : Tick) (s : State) :
    Script.payloadOf (softwareDecode e s).2.2
      = if (e.videoWidth ≠ 0 ∨ s.canvas.1 ≠ 0) ∧ (e.videoHeight ≠ 0 ∨ s.canvas.2 ≠ 0) then
          match e.drawFrame, e.jsQR with
          | Except.ok _, Except.ok (some data) => if data = "" then none else some data
          | _, _ => none
        else none := by
  have hsize : ((frameSize e s).1 ≠ 0 ∧ (frameSize e s).2 ≠ 0)
      ↔ ((e.videoWidth ≠ 0 ∨ s.canvas.1 ≠ 0) ∧ (e.videoHeight ≠ 0 ∨ s.canvas.2 ≠ 0)) := by
    unfold frameSize
    by_cases h1 : e.videoWidth = 0 <;> by_cases h2 : e.videoHeight = 0 <;> simp [h1, h2]
  unfold softwareDecode
  by_cases hs : (frameSize e s).1 ≠ 0 ∧ (frameSize e s).2 ≠ 0
  · rw [if_pos hs, if_pos (hsize.mp hs)]
    rcases e.drawFrame with _ | _
    · simp [Script.payloadOf, Script.truthy]
    · rcases e.jsQR with _ | _ | data
      · simp [Script.payloadOf, Script.truthy]
      · simp [Script.payloadOf, Script.truthy]
      · by_cases hd : data = "" <;> simp [Script.payloadOf, Script.truthy, hd]
  · rw [if_neg hs, if_neg (fun h => hs (hsize.mpr h))]
    simp [Script.payloadOf, Script.truthy]

/-- The value that `scanLoop` decodes is the detection of the tick. -/
theorem payload_eq_tickDetection (e : Tick) (s : State) : payload e s = tickDetection e s := by
  have hb := buildDetector_detector e s
  unfold payload tickDetection decodeStep
  by_cases hd : (buildDetector e s).1.barcodeDetector = true
  · simp only [hd, if_true, if_pos (hb.1.mp hd)]
    exact nativeDecode_value e
  · have hd2 : (buildDetector e s).1.barcodeDetector = false := by simpa using hd
    rw [if_neg (fun h => hd (hb.1.mpr h))]
    by_cases hw : e.windowJsQR = true
    · simp only [hd2, hw, if_true, Bool.false_eq_true, if_false, true_and]
      rw [softwareDecode_value, hb.2]
    · have hw2 : e.windowJsQR = false := by simpa using hw
      simp [hd2, hw2, Script.payloadOf, Script.truthy]

/-- C20: in `js/scanner.js`, for every state reached from a started session by
any ticks, and every tick with one clock reading whose detection (the first
candidate of the native detector, or the code found by `window.jsQR`), if any,
resolves to an item in `fetchItemById`: the state (`currentId`, `modelVisible`,
`lastSeen`) moves as the six-row table says for hold `hideDelayMs = 4000`, the
presenter calls are those of the row's event, and without an activation nothing
is fetched or rendered.  A new or different value is rendered and becomes
`currentId` with `lastSeen = now`; the same value while visible only sets
`lastSeen = now`; a tick without detection clears the overlay and resets
`currentId` exactly when `modelVisible` and `now - lastSeen > 4000`, and changes
nothing otherwise. -/
theorem scanner_follows_table (vw vh : Nat) (pre : List Tick) (e : Tick)
    (hclock : e.nowSeen = e.nowEnd)
    (hres : ∀ v, tickDetection e (runTicks pre (State.started vw vh)) = some v
      → ∃ item, (fetchItemById e v).2 = Except.ok (some item)) :
    hideDelayMs = 4000
      ∧ presenceOf (scanLoop e (runTicks pre (State.started vw vh))).1
        = (Script.tableStep hideDelayMs e.nowEnd
            (presenceOf (runTicks pre (State.started vw vh)))
            (tickDetection e (runTicks pre (State.started vw vh)))).1
      ∧ (scanLoop e (runTicks pre (State.started vw vh))).2.filter Call.isPresenter
        = callsOf e (Script.tableStep hideDelayMs e.nowEnd
            (presenceOf (runTicks pre (State.started vw vh)))
            (tickDetection e (runTicks pre (State.started vw vh)))).2
      ∧ ((∀ id, (Script.tableStep hideDelayMs e.nowEnd
              (presenceOf (runTicks pre (State.started vw vh)))
              (tickDetection e (runTicks pre (State.started vw vh)))).2
            ≠ some (Script.Event.activate id))
        → (scanLoop e (runTicks pre (State.started vw vh))).2.filter (fun c => !c.isPresenter)
            = (decodeStep e (runTicks pre (State.started vw vh))).2.1
              ++ [Call.requestAnimationFrame])
      ∧ (tickDetection e (runTicks pre (State.started vw vh)) = none
        → (Call.clearOverlay ∈ (scanLoop e (runTicks pre (State.started vw vh))).2
            ↔ ((runTicks pre (State.started vw vh)).modelVisible = true
              ∧ e.nowEnd - (runTicks pre (State.started vw vh)).lastSeen > hideDelayMs))
          ∧ (((runTicks pre (State.started vw vh)).modelVisible = true
              ∧ e.nowEnd - (runTicks pre (State.started vw vh)).lastSeen > hideDelayMs)
            → (scanLoop e (runTicks pre (State.started vw vh))).1.currentId = none
              ∧ (scanLoop e (runTicks pre (State.started vw vh))).1.modelVisible = false
              ∧ (scanLoop e (runTicks pre (State.started vw vh))).1.overlay = none)
          ∧ (¬ ((runTicks pre (State.started vw vh)).modelVisible = true
              ∧ e.nowEnd - (runTicks pre (State.started vw vh)).lastSeen > hideDelayMs)
            → (scanLoop e (runTicks pre (State.started vw vh))).1.currentId
                = (runTicks pre (State.started vw vh)).currentId
              ∧ (scanLoop e (runTicks pre (State.started vw vh))).1.modelVisible
                = (runTicks pre (State.started vw vh)).modelVisible
              ∧ (scanLoop e (runTicks pre (State.started vw vh))).1.lastSeen
                = (runTicks pre (State.started vw vh)).lastSeen
              ∧ (scanLoop e (runTicks pre (State.started vw vh))).1.overlay
                = (runTicks pre (State.started vw vh)).overlay))
      ∧ (∀ v item, tickDetection e (runTicks pre (State.started vw vh)) = some v
        → (runTicks pre (State.started vw vh)).currentId ≠ some v
        → (fetchItemById e v).2 = Except.ok (some item)
        → (scanLoop e (runTicks pre (State.started vw vh))).1.overlay = some (render item)
          ∧ (scanLoop e (runTicks pre (State.started vw vh))).1.currentId = some v
          ∧ (scanLoop e (runTicks pre (State.started vw vh))).1.modelVisible = true
          ∧ (scanLoop e (runTicks pre (State.started vw vh))).1.lastSeen = e.nowEnd)
      ∧ (∀ v, tickDetection e (runTicks pre (State.started vw vh)) = some v
        → (runTicks pre (State.started vw vh)).currentId = some v
        → (scanLoop e (runTicks pre (State.started vw vh))).1.overlay
            = (runTicks pre (State.started vw vh)).overlay
          ∧ (scanLoop e (runTicks pre (State.started vw vh))).1.currentId = some v
          ∧ (scanLoop e (runTicks pre (State.started vw vh))).1.modelVisible = true
          ∧ (scanLoop e (runTicks pre (State.started vw vh))).1.lastSeen = e.nowEnd) := by
  have hstart : (State.started vw vh).modelVisible = Script.truthy (State.started vw vh).currentId
      ∧ (State.started vw vh).currentId ≠ some "" := ⟨rfl, by simp [State.started, State.init]⟩
  have hreach := runTicks_consistent pre (State.started vw vh) hstart
  have hrun : (runTicks pre (State.started vw vh)).scanning = true := hreach.2.2.trans rfl
  have hp := payload_eq_tickDetection e (runTicks pre (State.started vw vh))
  rw [← hp] at hres ⊢
  exact ⟨rfl, scanLoop_step_table e _ hrun ⟨hreach.1, hreach.2.1⟩ hclock hres⟩

/-- Witness of C20: a started session in which the native detector found
"ID-2" at time 1000, then a tick at 1500 on which its first candidate is
"ID-4". -/
theorem scanner_follows_table_witness :
    tickDetection
        { Tick.quiet 1500 with
          detect := Except.ok (some [{ rawValue := "ID-4", displayValue := none },
            { rawValue := "ID-1", displayValue := none }]) }
        (runTicks [{ Tick.quiet 1000 with
            hasBarcodeDetector := true, constructs := true,
            detect := Except.ok (some [{ rawValue := "ID-2", displayValue := none }]) }]
          (State.started 640 480)) = some "ID-4"
      ∧ presenceOf (runTicks [{ Tick.quiet 1000 with
            hasBarcodeDetector := true, constructs := true,
            detect := Except.ok (some [{ rawValue := "ID-2", displayValue := none }]) }]
          (State.started 640 480)) = Script.Presence.active "ID-2" 1000
      ∧ presenceOf (scanLoop
          { Tick.quiet 1500 with
            detect := Except.ok (some [{ rawValue := "ID-4", displayValue := none },
              { rawValue := "ID-1", displayValue := none }]) }
          (runTicks [{ Tick.quiet 1000 with
              hasBarcodeDetector := true, constructs := true,
              detect := Except.ok (some [{ rawValue := "ID-2", displayValue := none }]) }]
            (State.started 640 480))).1
        = (Script.tableStep hideDelayMs
            ({ Tick.quiet 1500 with
              detect := Except.ok (some [{ rawValue := "ID-4", displayValue := none },
                { rawValue := "ID-1", displayValue := none }]) } : Tick).nowEnd
            (presenceOf (runTicks [{ Tick.quiet 1000 with
                hasBarcodeDetector := true, constructs := true,
                detect := Except.ok (some [{ rawValue := "ID-2", displayValue := none }]) }]
              (State.started 640 480)))
            (tickDetection
              { Tick.quiet 1500 with
                detect := Except.ok (some [{ rawValue := "ID-4", displayValue := none },
                  { rawValue := "ID-1", displayValue := none }]) }
              (runTicks [{ Tick.quiet 1000 with
                  hasBarcodeDetector := true, constructs := true,
                  detect := Except.ok (some [{ rawValue := "ID-2", displayValue := none }]) }]
                (State.started 640 480)))).1
      ∧ (Script.tableStep hideDelayMs 1500 (Script.Presence.active "ID-2" 1000) (some "ID-4")).1
        = Script.Presence.active "ID-4" 1500 :=
  ⟨by decide, by decide,
    (scanner_follows_table 640 480
      [{ Tick.quiet 1000 with
          hasBarcodeDetector := true, constructs := true,
          detect := Except.ok (some [{ rawValue := "ID-2", displayValue := none }]) }]
      { Tick.quiet 1500 with
        detect := Except.ok (some [{ rawValue := "ID-4", displayValue := none },
          { rawValue := "ID-1", displayValue := none }]) } rfl
      (fun v hv => by
        have hp : tickDetection
            { Tick.quiet 1500 with
              detect := Except.ok (some [{ rawValue := "ID-4", displayValue := none },
                { rawValue := "ID-1", displayValue := none }]) }
            (runTicks [{ Tick.quiet 1000 with
                hasBarcodeDetector := true, constructs := true,
                detect := Except.ok (some [{ rawValue := "ID-2", displayValue := none }]) }]
              (State.started 640 480)) = some "ID-4" := by decide
        rw [hp] at hv
        cases hv
        exact ⟨_, rfl⟩)).2.1,
    by decide⟩

/-- The match found at the head of a list is the match of `ID-\w+` with the
longest run of word characters. -/
theorem matchIdHere_eq_some_iff (cs m : List Char) :
    matchIdHere cs = some m
      ↔ ∃ run rest, IdMatchAt cs run rest ∧ m = ['I', 'D', '-'] ++ run := by
  constructor
  · intro h
    unfold matchIdHere at h
    split_ifs at h with hc
    refine ⟨(cs.drop 3).takeWhile isWordChar, (cs.drop 3).dropWhile isWordChar, ⟨?_, hc.2, ?_, ?_⟩,
      (Option.some.inj h).symm⟩
    · rw [List.append_assoc, List.takeWhile_append_dropWhile, ← hc.1, List.take_append_drop]
    · intro c hmem
      exact List.mem_takeWhile_imp hmem
    · intro c hhead
      have := List.head?_dropWhile_not isWordChar (cs.drop 3)
      rw [hhead] at this
      exact this
  · rintro ⟨run, rest, ⟨hcs, hne, hword, hrest⟩, rfl⟩
    have htake : cs.take 3 = ['I', 'D', '-'] := by rw [hcs]; rfl
    have hdrop : cs.drop 3 = run ++ rest := by rw [hcs]; rfl
    have hstop : rest.takeWhile isWordChar = [] := by
      cases rest with
      | nil => rfl
      | cons c r =>
        have hc : isWordChar c = false := hrest c rfl
        simp [List.takeWhile_cons, hc]
    have hrun : (cs.drop 3).takeWhile isWordChar = run := by
      rw [hdrop, List.takeWhile_append_of_pos hword, hstop, List.append_nil]
    unfold matchIdHere
    rw [htake, hrun]
    simp [hne]

/-- No match is found at the head of a list exactly when no match of `ID-\w+`
starts there. -/
theorem matchIdHere_eq_none_iff (cs : List Char) :
    matchIdHere cs = none ↔ ∀ run rest, ¬ IdMatchAt cs run rest := by
  constructor
  · intro h run rest hm
    have := (matchIdHere_eq_some_iff cs _).mpr ⟨run, rest, hm, rfl⟩
    rw [h] at this
    exact absurd this (by simp)
  · intro h
    cases hm : matchIdHere cs with
    | none => rfl
    | some m =>
      obtain ⟨run, rest, hmatch, _⟩ := (matchIdHere_eq_some_iff cs m).mp hm
      exact absurd hmatch (h run rest)

/-- The search finds nothing exactly when no position starts a match. -/
theorem findId_eq_none_iff (cs : List Char) :
    findId cs = none ↔ ∀ p q, cs = p ++ q → matchIdHere q = none := by
  induction cs with
  | nil =>
    constructor
    · intro _ p q hpq
      have hq : q = [] := (List.append_eq_nil.mp hpq.symm).2
      rw [hq]; rfl
    · intro _; rfl
  | cons c cs ih =>
    constructor
    · intro h p q hpq
      have hhere : matchIdHere (c :: cs) = none := by
        cases hm : matchIdHere (c :: cs) with
        | none => rfl
        | some m => simp [findId, hm] at h
      have hrest : findId cs = none := by simpa [findId, hhere] using h
      cases p with
      | nil => rw [← show c :: cs = q from hpq]; exact hhere
      | cons x p' =>
        have hcs : cs = p' ++ q := (List.cons.inj hpq).2
        exact ih.mp hrest p' q hcs
    · intro h
      have hhere : matchIdHere (c :: cs) = none := h [] (c :: cs) rfl
      have hrest : findId cs = none :=
        ih.mpr (fun p q hpq => h (c :: p) q (by rw [hpq]; rfl))
      simp [findId, hhere, hrest]

/-- The search returns the match at the first position that starts one. -/
theorem findId_of_leftmost (pre q m : List Char) (hm : matchIdHere q = some m)
    (hleft : ∀ p2 q2, pre ++ q = p2 ++ q2 → p2.length < pre.length → matchIdHere q2 = none) :
    findId (pre ++ q) = some m := by
  induction pre with
  | nil =>
    cases q with
    | nil => exact absurd hm (by simp [matchIdHere])
    | cons c cs => simp [findId, hm]
  | cons x pre ih =>
    have hhere : matchIdHere (x :: (pre ++ q)) = none :=
      hleft [] (x :: (pre ++ q)) rfl (by simp)
    have hrest : findId (pre ++ q) = some m := by
      apply ih
      intro p2 q2 hpq hlen
      exact hleft (x :: p2) q2 (by rw [List.cons_append, hpq]; rfl) (by simpa using hlen)
    simp [findId, hhere, hrest]

/-- What the search returns is the match at the first position that starts
one. -/
theorem findId_eq_some (cs m : List Char) (h : findId cs = some m) :
    ∃ pre q, cs = pre ++ q ∧ matchIdHere q = some m
      ∧ ∀ p2 q2, cs = p2 ++ q2 → p2.length < pre.length → matchIdHere q2 = none := by
  induction cs with
  | nil => exact absurd h (by simp [findId])
  | cons c cs ih =>
    cases hm : matchIdHere (c :: cs) with
    | some m2 =>
      have : m2 = m := by simpa [findId, hm] using h
      subst this
      exact ⟨[], c :: cs, rfl, hm, fun p2 q2 _ hlen => absurd hlen (by simp)⟩
    | none =>
      have hrest : findId cs = some m := by simpa [findId, hm] using h
      obtain ⟨pre, q, hcs, hq, hleft⟩ := ih hrest
      refine ⟨c :: pre, q, by rw [hcs]; rfl, hq, ?_⟩
      intro p2 q2 hpq hlen
      cases p2 with
      | nil => rw [← show c :: cs = q2 from hpq]; exact hm
      | cons x p3 =>
        exact hleft p3 q2 (List.cons.inj hpq).2 (by simpa using hlen)

/-- The group found by the second pattern at the head of a list is a match of
`ID-\w+` four characters further on. -/
theorem matchQueryHere_eq_some_iff (cs g : List Char) :
    matchQueryHere cs = some g
      ↔ ∃ run rest, QueryMatchAt cs run rest ∧ g = ['I', 'D', '-'] ++ run := by
  cases cs with
  | nil => simp [matchQueryHere, QueryMatchAt]
  | cons c tail =>
    constructor
    · intro h
      simp only [matchQueryHere] at h
      split_ifs at h with hc
      obtain ⟨run, rest, hmatch, hg⟩ := (matchIdHere_eq_some_iff _ g).mp h
      refine ⟨run, rest, ⟨c, hc.1, tail.drop 3, ?_, hmatch⟩, hg⟩
      have : tail = tail.take 3 ++ tail.drop 3 := (List.take_append_drop 3 tail).symm
      rw [hc.2] at this
      rw [this]
      simp
    · rintro ⟨run, rest, ⟨c2, hc2, t2, hcs, hmatch⟩, rfl⟩
      have hc : c = c2 := (List.cons.inj hcs).1
      have ht : tail = 'i' :: 'd' :: '=' :: t2 := (List.cons.inj hcs).2
      subst hc
      subst ht
      have := (matchIdHere_eq_some_iff t2 _).mpr ⟨run, rest, hmatch, rfl⟩
      simpa [matchQueryHere, hc2] using this

/-- Where the second pattern finds a group, a match of the first pattern
starts at some position. -/
theorem findQueryId_eq_some (cs g : List Char) (h : findQueryId cs = some g) :
    ∃ p q, cs = p ++ q ∧ matchIdHere q = some g := by
  induction cs with
  | nil => exact absurd h (by simp [findQueryId])
  | cons c cs ih =>
    cases hm : matchQueryHere (c :: cs) with
    | some g2 =>
      have hg : g2 = g := by simpa [findQueryId, hm] using h
      subst hg
      obtain ⟨run, rest, ⟨c2, _, t2, hcs, hmatch⟩, hgeq⟩ :=
        (matchQueryHere_eq_some_iff (c :: cs) g2).mp hm
      exact ⟨[c2, 'i', 'd', '='], t2, by rw [hcs]; rfl,
        (matchIdHere_eq_some_iff t2 g2).mpr ⟨run, rest, hmatch, hgeq⟩⟩
    | none =>
      have hrest : findQueryId cs = some g := by simpa [findQueryId, hm] using h
      obtain ⟨p, q, hcs, hq⟩ := ih hrest
      exact ⟨c :: p, q, by rw [hcs]; rfl, hq⟩

/-- Where the second pattern finds a group the first pattern finds a match, so
the id is what the first pattern alone gives. -/
theorem extractId_eq (raw : String) :
    (∀ g, findQueryId raw.toList = some g → findId raw.toList ≠ none)
      ∧ extractId raw
        = (match findId raw.toList with
          | some m => String.mk m
          | none => raw) := by
  have hsecond : ∀ g, findQueryId raw.toList = some g → findId raw.toList ≠ none := by
    intro g hg hnone
    obtain ⟨p, q, hpq, hq⟩ := findQueryId_eq_some raw.toList g hg
    have := (findId_eq_none_iff raw.toList).mp hnone p q hpq
    rw [this] at hq
    exact absurd hq (by simp)
  refine ⟨hsecond, ?_⟩
  unfold extractId
  cases hf : findId raw.toList with
  | some m => rfl
  | none =>
    cases hq : findQueryId raw.toList with
    | none => rfl
    | some g => exact absurd hf (hsecond g hq)

/-- C22: for every string `raw`, the id that `fetchItemById(raw)` looks up is
'ID-' followed by the longest run of word characters at the first position of
`raw` where a match of `ID-\w+` starts, and is `raw` itself when no position
starts one; one of the two is always the case.  Wherever the second pattern
`[?&]id=(ID-\w+)` matches, the first pattern has a match too, so the group of the
second pattern is never the id.  When the id is one of ID-1 to ID-4, the entry of
`builtinById` with that `id` is returned and nothing is fetched. -/
theorem id_extraction (raw : String) (e : Tick) :
    (∀ pre q run rest, raw.toList = pre ++ q → IdMatchAt q run rest
        → (∀ p2 q2 run2 rest2, raw.toList = p2 ++ q2 → p2.length < pre.length
            → ¬ IdMatchAt q2 run2 rest2)
        → extractId raw = String.mk (['I', 'D', '-'] ++ run))
      ∧ ((∀ p q run rest, raw.toList = p ++ q → ¬ IdMatchAt q run rest) → extractId raw = raw)
      ∧ ((∃ pre q run rest, raw.toList = pre ++ q ∧ IdMatchAt q run rest
            ∧ ∀ p2 q2 run2 rest2, raw.toList = p2 ++ q2 → p2.length < pre.length
                → ¬ IdMatchAt q2 run2 rest2)
          ∨ (∀ p q run rest, raw.toList = p ++ q → ¬ IdMatchAt q run rest))
      ∧ (∀ p q run rest, raw.toList = p ++ q → QueryMatchAt q run rest
          → ∃ p2 q2, raw.toList = p2 ++ q2 ∧ IdMatchAt q2 run rest)
      ∧ (∀ g, findQueryId raw.toList = some g → findId raw.toList ≠ none)
      ∧ (extractId raw ∈ ["ID-1", "ID-2", "ID-3", "ID-4"]
          → ∃ item, builtinById (extractId raw) = some item
              ∧ item.id = some (extractId raw)
              ∧ fetchItemById e raw = ([], Except.ok (some item))) := by
  have heq := extractId_eq raw
  refine ⟨?_, ?_, ?_, ?_, heq.1, ?_⟩
  · intro pre q run rest hraw hmatch hleft
    have hm : matchIdHere q = some (['I', 'D', '-'] ++ run) :=
      (matchIdHere_eq_some_iff q _).mpr ⟨run, rest, hmatch, rfl⟩
    have hfind : findId raw.toList = some (['I', 'D', '-'] ++ run) := by
      rw [hraw]
      apply findId_of_leftmost pre q _ hm
      intro p2 q2 hpq hlen
      apply (matchIdHere_eq_none_iff q2).mpr
      intro run2 rest2
      exact hleft p2 q2 run2 rest2 (hraw.trans hpq) hlen
    rw [heq.2, hfind]
  · intro hno
    have hfind : findId raw.toList = none := by
      apply (findId_eq_none_iff raw.toList).mpr
      intro p q hpq
      exact (matchIdHere_eq_none_iff q).mpr (fun run rest => hno p q run rest hpq)
    rw [heq.2, hfind]
  · cases hf : findId raw.toList with
    | none =>
      right
      intro p q run rest hpq
      exact (matchIdHere_eq_none_iff q).mp ((findId_eq_none_iff raw.toList).mp hf p q hpq) run rest
    | some m =>
      left
      obtain ⟨pre, q, hraw, hq, hleft⟩ := findId_eq_some raw.toList m hf
      obtain ⟨run, rest, hmatch, _⟩ := (matchIdHere_eq_some_iff q m).mp hq
      refine ⟨pre, q, run, rest, hraw, hmatch, ?_⟩
      intro p2 q2 run2 rest2 hpq hlen
      exact (matchIdHere_eq_none_iff q2).mp (hleft p2 q2 hpq hlen) run2 rest2
  · rintro p q run rest hpq ⟨c, _, tail, hq, hmatch⟩
    exact ⟨p ++ [c, 'i', 'd', '='], tail, by rw [hpq, hq]; simp, hmatch⟩
  · intro hmem
    simp only [List.mem_cons, List.mem_singleton, List.not_mem_nil, or_false] at hmem
    rcases hmem with h | h | h | h <;>
      simp [fetchItemById, builtinById, h, Item.blank]

/-- Witness of C22: a URL with a query. -/
theorem id_extraction_witness :
    extractId "https://x.test/?id=ID-3&y" = "ID-3"
      ∧ ∃ item, builtinById (extractId "https://x.test/?id=ID-3&y") = some item
          ∧ item.id = some (extractId "https://x.test/?id=ID-3&y")
          ∧ fetchItemById (Tick.quiet 0) "https://x.test/?id=ID-3&y"
            = ([], Except.ok (some item)) :=
  ⟨by decide,
    (id_extraction "https://x.test/?id=ID-3&y" (Tick.quiet 0)).2.2.2.2.2 (by decide)⟩

/-- C21: the code at the failing input.  From the started state a tick decodes
'ID-2', which is rendered; the next tick decodes 'XYZ', for which there is no
record: the `catch` of `onScan` empties the overlay and leaves `modelVisible` and
`currentId` as they were, so after that tick `modelVisible` is true, `currentId`
is 'ID-2' and the overlay is empty.  A third tick that decodes 'ID-2' again only
refreshes `lastSeen`: nothing is rendered and the overlay stays empty.  The
`finally` block of `scanLoop`, when it empties the overlay, resets `modelVisible`
and `currentId` with it. -/
theorem onScan_catch_leaves_visible_without_overlay :
    (runTicks [{ Tick.quiet 1000 with jsQR := Except.ok (some "ID-2") }]
        (State.started 640 480)).overlay
        = (builtinById "ID-2").map render
      ∧ (runTicks [{ Tick.quiet 1000 with jsQR := Except.ok (some "ID-2") },
          { Tick.quiet 1500 with jsQR := Except.ok (some "XYZ") }] (State.started 640 480))
        = { State.started 640 480 with
            lastText := "XYZ", currentId := some "ID-2", modelVisible := true,
            lastSeen := 1000, overlay := none }
      ∧ scanLoop { Tick.quiet 2000 with jsQR := Except.ok (some "ID-2") }
          (runTicks [{ Tick.quiet 1000 with jsQR := Except.ok (some "ID-2") },
            { Tick.quiet 1500 with jsQR := Except.ok (some "XYZ") }] (State.started 640 480))
        = ({ State.started 640 480 with
              lastText := "XYZ", currentId := some "ID-2", modelVisible := true,
              lastSeen := 2000, overlay := none },
            [Call.jsQR 640 480, Call.requestAnimationFrame])
      ∧ (finallyStep (Tick.quiet 6000)
          (runTicks [{ Tick.quiet 1000 with jsQR := Except.ok (some "ID-2") }]
            (State.started 640 480))).1
        = { State.started 640 480 with lastText := "ID-2", lastSeen := 1000 } := by
  refine ⟨?_, ?_, ?_, ?_⟩ <;> decide

end Scanner
